import Mathlib

/-!
# Railway-Manager: simulation engine, dispatch and timetable instancing

A shallow embedding of the simulation core of the Railway-Manager sources
(`models/Train`, `models/Station`, `models/Timetable`, `core/GameState`,
`simulation/SimulationEngine`) followed by theorems about it.

Modelling conventions

* `std::string` is `String`, `std::vector` is `List`, `int` is `Int`. The
  definitions named as in the sources compute with exact integers (signed
  overflow is undefined behaviour in C++). Where a result depends on the width
  of the machine integers, a definition whose name ends in `Built` repeats the
  source function with the wrap-around arithmetic of the build (`int32`,
  `int64`); `dispatchTrain` computes its event time in that way throughout.
* `float` and `double` values are embedded as rational numbers. Arithmetic on
  them is exact and a literal such as `0.1f` denotes its decimal value, except
  in the two threshold tests of `updateStations` and `checkTrainCollisions`,
  which are evaluated with the roundings of single and double precision
  (`float32`, `float64`, `sqrtFloat64`).
* `std::chrono::system_clock::time_point` is an `Int` count of clock ticks since
  the epoch, `ticksPerSecond` ticks to the second.
* Objects owned by the registry (`GameState`) are referred to by id: a pointer
  to a registered train is its id, a null pointer is a failed lookup.
* Readings of `system_clock::now()` are inputs of the operations that read the
  clock.
-/

namespace RailwayManager

/-! ## Time points -/

/-- Ticks of `std::chrono::system_clock` per second (nanosecond resolution). -/
def ticksPerSecond : Int := 1000000000

/-- The duration `std::chrono::minutes(m)` in clock ticks. -/
def minutes (m : Int) : Int := m * 60 * ticksPerSecond

/-- The value that a 32-bit `int` holds after signed arithmetic whose exact
result is `x`: the build wraps around in two's complement. -/
def int32 (x : Int) : Int := (x + 2147483648) % 4294967296 - 2147483648

/-- The value that a 64-bit signed count holds after arithmetic whose exact
result is `x`: the build wraps around in two's complement. -/
def int64 (x : Int) : Int :=
  (x + 9223372036854775808) % 18446744073709551616 - 9223372036854775808

/-- The time point `tp + std::chrono::minutes(m)` as the build computes it: the
minutes are converted to a 64-bit count of clock ticks and added to the 64-bit
tick count of `tp`. -/
def addMinutes (tp m : Int) : Int := int64 (tp + int64 (minutes m))

/-- The duration `std::chrono::hours(h)` in clock ticks. -/
def hours (h : Int) : Int := h * 3600 * ticksPerSecond

/-! ## Floating-point rounding -/

/-- The search loop of `natLog2`. -/
def log2Loop : Nat → Nat → Nat
  | 0, _ => 0
  | fuel + 1, n => if n < 2 then 0 else log2Loop fuel (n / 2) + 1

/-- The position of the leading binary digit of `n` (0 for `n = 0`). -/
def natLog2 (n : Nat) : Nat := log2Loop n n

/-- The binary exponent of a non-zero rational `x`: the `e` with
`2 ^ e ≤ |x| < 2 ^ (e + 1)`. -/
def binaryExponent (x : Rat) : Int :=
  let k : Int := (natLog2 x.num.natAbs : Int) - (natLog2 x.den : Int)
  if (2 : Rat) ^ k ≤ (if x < 0 then -x else x) then k else k - 1

/-- Rounding of a rational to the nearest integer, ties to the even one. -/
def roundHalfEven (q : Rat) : Int :=
  let f : Int := q.num / (q.den : Int)
  let r : Rat := q - (f : Rat)
  if r < 1 / 2 then f
  else if r > 1 / 2 then f + 1
  else if f % 2 = 0 then f else f + 1

/-- Rounding of a magnitude `x ≥ 0` to the nearest binary floating-point number
with `p` significant bits and least exponent `emin` (gradual underflow below
it), ties to even. -/
def roundMagnitude (p : Nat) (emin : Int) (x : Rat) : Rat :=
  if x = 0 then 0
  else
    let e := if binaryExponent x < emin then emin else binaryExponent x
    let ulp := (2 : Rat) ^ (e - ((p : Int) - 1))
    (roundHalfEven (x / ulp) : Rat) * ulp

/-- Rounding to the nearest binary floating-point number with `p` significant
bits and least exponent `emin`, ties to even, sign and magnitude apart: the
rounding of IEEE 754 arithmetic in its default mode. Overflow to infinity is not
modelled. -/
def roundFloat (p : Nat) (emin : Int) (x : Rat) : Rat :=
  if x < 0 then -(roundMagnitude p emin (-x)) else roundMagnitude p emin x

/-- Rounding to single precision (`float`). -/
def float32 (x : Rat) : Rat := roundFloat 24 (-126) x

/-- Rounding to double precision (`double`). -/
def float64 (x : Rat) : Rat := roundFloat 53 (-1022) x

/-- The search loop of `sqrtFloor`, from the binary digit of weight `2 ^ k`
down. -/
def sqrtLoop : Nat → Nat → Nat → Nat
  | 0, _, r => r
  | k + 1, n, r => if (r + 2 ^ k) * (r + 2 ^ k) ≤ n then sqrtLoop k n (r + 2 ^ k)
      else sqrtLoop k n r

/-- The integer square root: the largest `r` with `r * r ≤ n`. -/
def sqrtFloor (n : Nat) : Nat := sqrtLoop (natLog2 n / 2 + 1) n 0

/-- The square root rounded to double precision, ties to even (`sqrt` on
`double`, correctly rounded as IEEE 754 requires); 0 for an argument that is not
positive. -/
def sqrtFloat64 (x : Rat) : Rat :=
  if x ≤ 0 then 0
  else
    let e : Int := binaryExponent x / 2
    let ulp := (2 : Rat) ^ (e - 52)
    let y := x / (ulp * ulp)
    let n : Int := (sqrtFloor (y.num / (y.den : Int)).toNat : Int)
    let half : Rat := ((n : Rat) + 1 / 2) * ((n : Rat) + 1 / 2)
    let m : Int :=
      if y < half then n
      else if y > half then n + 1
      else if n % 2 = 0 then n else n + 1
    (m : Rat) * ulp


/-- The conversion `system_clock::to_time_t`: whole seconds since the epoch, the
duration cast truncating toward zero. -/
def to_time_t (tp : Int) : Int := Int.tdiv tp ticksPerSecond

/-- Weekday (`tm_wday`, Sunday = 0) of a `time_t` in the UTC time zone; one
possible behaviour of `localtime`. -/
def utc_wday (t : Int) : Int := (t / 86400 + 4) % 7

/-! ## Decimal rendering (`std::to_string`) -/

/-- The character of a decimal digit. -/
def digitChar (d : Nat) : Char := Char.ofNat (48 + d)

/-- Decimal digits of a natural number, most significant first (`"0"` for zero). -/
def natToDigits (n : Nat) : List Char :=
  if n = 0 then [digitChar 0] else ((Nat.digits 10 n).reverse).map digitChar

/-- The rendering `std::to_string` of a signed integer, as a list of characters. -/
def to_chars (i : Int) : List Char :=
  if i < 0 then '-' :: natToDigits i.natAbs else natToDigits i.natAbs

/-- The rendering `std::to_string` of a signed integer. -/
def to_string (i : Int) : String := String.mk (to_chars i)

/-! ## Float literals -/

/-- The `float` literal `0.1f`. -/
def f0_1 : Rat := 1 / 10

/-! ## Generic helpers for registries -/

/-- Apply `f` to the first element satisfying `p` (mutation through the pointer
returned by a `find_if` search). -/
def modifyFirst {α : Type} (p : α → Bool) (f : α → α) : List α → List α
  | [] => []
  | x :: xs => if p x then f x :: xs else x :: modifyFirst p f xs

/-! ## Train -/

inductive TrainType where
  | PASSENGER_LOCAL
  | PASSENGER_REGIONAL
  | PASSENGER_FAST
  | PASSENGER_INTERCITY
  | PASSENGER_EXPRESS
  | FREIGHT
  | MAINTENANCE
  deriving DecidableEq, Repr

inductive TrainStatus where
  | AVAILABLE
  | IN_SERVICE
  | MAINTENANCE
  | CLEANING
  | WAITING
  | BROKEN
  deriving DecidableEq, Repr

structure TrainUnit where
  id : String := ""
  series : String := ""
  number : String := ""
  manufacturingYear : Int := 0
  seats : Int := 0
  standingRoom : Int := 0
  length : Rat := 0
  weight : Rat := 0
  hasEngine : Bool := false
  isElectric : Bool := false
  maxSpeed : Rat := 0
  power : Rat := 0
  deriving DecidableEq

structure Train where
  id : String
  name : String := ""
  type : TrainType := TrainType.PASSENGER_LOCAL
  status : TrainStatus := TrainStatus.AVAILABLE
  units : List TrainUnit := []
  currentPassengers : Int := 0
  currentLat : Rat := 0
  currentLon : Rat := 0
  currentSpeed : Rat := 0
  currentLineId : String := ""
  currentStationId : String := ""
  assignedTimetableId : String := ""
  delayMinutes : Int := 0
  condition : Rat := 1
  cleanliness : Rat := 1
  fuelLevel : Rat := 1
  totalKm : Rat := 0
  kmSinceLastMaintenance : Rat := 0
  assignedDriverId : String := ""
  assignedConductorId : String := ""
  deriving DecidableEq

namespace Train

def setStatus (t : Train) (newStatus : TrainStatus) : Train :=
  { t with status := newStatus }

def getTotalSeats (t : Train) : Int :=
  t.units.foldl (fun sum unit => sum + unit.seats) 0

def getTotalStandingRoom (t : Train) : Int :=
  t.units.foldl (fun sum unit => sum + unit.standingRoom) 0

def getTotalCapacity (t : Train) : Int :=
  t.getTotalSeats + t.getTotalStandingRoom

def getMaxSpeed (t : Train) : Rat :=
  match t.units with
  | [] => 0
  | u :: _ => t.units.foldl (fun minSpeed unit => min minSpeed unit.maxSpeed) u.maxSpeed

def isElectric (t : Train) : Bool :=
  t.units.all (fun unit => !(unit.hasEngine && !unit.isElectric))

def setCurrentPassengers (t : Train) (count : Int) : Train :=
  { t with currentPassengers := max 0 (min count t.getTotalCapacity) }

def boardPassengers (t : Train) (count : Int) : Train :=
  let availableSpace := t.getTotalCapacity - t.currentPassengers
  let actualBoarding := min count availableSpace
  { t with currentPassengers := t.currentPassengers + actualBoarding }

def alightPassengers (t : Train) (count : Int) : Train :=
  { t with currentPassengers := max 0 (t.currentPassengers - count) }

def getOccupancyRate (t : Train) : Rat :=
  let capacity := t.getTotalCapacity
  if capacity > 0 then (t.currentPassengers : Rat) / (capacity : Rat) else 0

def setCurrentPosition (t : Train) (lat lon : Rat) : Train :=
  { t with currentLat := lat, currentLon := lon }

def setCurrentSpeed (t : Train) (speed : Rat) : Train :=
  { t with currentSpeed := min speed t.getMaxSpeed }

def setCurrentLine (t : Train) (lineId : String) : Train :=
  { t with currentLineId := lineId }

def setCurrentStation (t : Train) (stationId : String) : Train :=
  { t with currentStationId := stationId }

def setAssignedTimetable (t : Train) (timetableId : String) : Train :=
  { t with assignedTimetableId := timetableId }

def setDelay (t : Train) (m : Int) : Train :=
  { t with delayMinutes := m }

def isDelayed (t : Train) : Bool := decide (t.delayMinutes > 0)

def hasRequiredCrew (t : Train) : Bool :=
  if t.assignedDriverId = "" then false
  else if t.type ≠ TrainType.FREIGHT ∧ t.type ≠ TrainType.MAINTENANCE then
    decide (t.assignedConductorId ≠ "")
  else true

def isOperational (t : Train) : Bool :=
  decide (t.status ≠ TrainStatus.BROKEN) &&
  decide (t.status ≠ TrainStatus.MAINTENANCE) &&
  decide (t.condition > f0_1)

def canDepart (t : Train) : Bool :=
  t.isOperational &&
  t.hasRequiredCrew &&
  (t.isElectric || decide (t.fuelLevel > f0_1)) &&
  decide (t.assignedTimetableId ≠ "")

def deteriorate (t : Train) (amount : Rat) : Train :=
  let t1 : Train :=
    { t with
      condition := max 0 (t.condition - amount),
      cleanliness := max 0 (t.cleanliness - amount * (1 / 2)) }
  if t1.condition < f0_1 ∧ t1.status ≠ TrainStatus.BROKEN then
    t1.setStatus TrainStatus.BROKEN
  else t1

def needsMaintenance (t : Train) : Bool :=
  decide (t.condition < 4 / 10) || decide (t.kmSinceLastMaintenance > 50000)

end Train

/-! ## Station -/

inductive StationType where
  | MAJOR
  | REGIONAL
  | LOCAL
  | TECHNICAL
  | FREIGHT
  deriving DecidableEq, Repr

inductive StationSize where
  | SMALL
  | MEDIUM
  | LARGE
  | HUGE
  deriving DecidableEq, Repr

structure Platform where
  number : Int
  length : Int := 0
  hasRoof : Bool := false
  isElectrified : Bool := false
  occupied : Bool := false
  trainId : String := ""
  deriving DecidableEq

structure StationStatistics where
  totalPassengersToday : Int := 0
  totalPassengersMonth : Int := 0
  totalPassengersYear : Int := 0
  totalTrainsToday : Int := 0
  totalTrainsMonth : Int := 0
  averageDelay : Rat := 0
  satisfaction : Rat := 0
  deriving DecidableEq

structure Station where
  id : String
  name : String := ""
  code : String := ""
  type : StationType := StationType.LOCAL
  size : StationSize := StationSize.SMALL
  latitude : Rat := 0
  longitude : Rat := 0
  region : String := ""
  platforms : List Platform := []
  condition : Rat := 1
  maxPassengers : Int := 1000
  currentPassengers : Int := 0
  connectedLines : List String := []
  stats : StationStatistics := {}
  deriving DecidableEq

namespace Station

def getPlatform (s : Station) (platformNumber : Int) : Option Platform :=
  s.platforms.find? (fun p => p.number == platformNumber)

def occupyPlatform (s : Station) (platformNumber : Int) (trainId : String) : Station :=
  match s.getPlatform platformNumber with
  | some _ =>
    { s with
      platforms := modifyFirst (fun p => p.number == platformNumber)
        (fun p => { p with occupied := true, trainId := trainId }) s.platforms,
      stats := { s.stats with totalTrainsToday := s.stats.totalTrainsToday + 1 } }
  | none => s

def freePlatform (s : Station) (platformNumber : Int) : Station :=
  match s.getPlatform platformNumber with
  | some _ =>
    { s with
      platforms := modifyFirst (fun p => p.number == platformNumber)
        (fun p => { p with occupied := false, trainId := "" }) s.platforms }
  | none => s

/-- The method `addPlatform`: a platform whose number is already present is
refused; otherwise it is appended and the platforms are sorted by number (the
numbers being distinct, the sorted order is unique). -/
def addPlatform (s : Station) (platform : Platform) : Station :=
  match s.platforms.find? (fun p => p.number == platform.number) with
  | some _ => s
  | none =>
    { s with platforms :=
        (s.platforms ++ [platform]).insertionSort (fun a b => a.number ≤ b.number) }

def addPassengers (s : Station) (count : Int) : Station :=
  { s with
    currentPassengers := min (s.currentPassengers + count) s.maxPassengers,
    stats := { s.stats with
      totalPassengersToday := s.stats.totalPassengersToday + count,
      totalPassengersMonth := s.stats.totalPassengersMonth + count,
      totalPassengersYear := s.stats.totalPassengersYear + count } }

def removePassengers (s : Station) (count : Int) : Station :=
  { s with currentPassengers := max 0 (s.currentPassengers - count) }

/-- The test `getCurrentPassengers() > getMaxPassengers() * 0.9f` of
`updateStations`, evaluated in single precision as the build does: both counts
are converted to `float`, `0.9f` is the `float` nearest to 0.9, and the product
is rounded to `float`. -/
def congested (s : Station) : Bool :=
  decide (float32 (s.currentPassengers : Rat) >
    float32 (float32 (s.maxPassengers : Rat) * float32 (9 / 10)))

def setCondition (s : Station) (cond : Rat) : Station :=
  { s with condition := max 0 (min 1 cond) }

def deteriorate (s : Station) (amount : Rat) : Station :=
  s.setCondition (s.condition - amount)

end Station

/-! ## Timetable -/

structure TimetableStop where
  stationId : String
  arrivalTime : Int := 0
  departureTime : Int := 0
  platform : Int := 0
  optional : Bool := false
  dwellTime : Int := 0
  deriving DecidableEq

structure TimetableInstance where
  id : String
  date : Int
  actualDepartureTime : Int
  delay : Int
  cancelled : Bool
  trainId : String
  driverId : String := ""
  conductorId : String := ""
  deriving DecidableEq

inductive TimetableType where
  | REGULAR
  | SEASONAL
  | SPECIAL
  | TEMPORARY
  deriving DecidableEq, Repr

/-- The enumerators of `TimetableDays` (an `enum class` over `int`). -/
def TimetableDays.NONE : Int := 0
def TimetableDays.MONDAY : Int := 1
def TimetableDays.TUESDAY : Int := 2
def TimetableDays.WEDNESDAY : Int := 4
def TimetableDays.THURSDAY : Int := 8
def TimetableDays.FRIDAY : Int := 16
def TimetableDays.SATURDAY : Int := 32
def TimetableDays.SUNDAY : Int := 64

/-- The `operator|` of `TimetableDays`. -/
def TimetableDays.or (a b : Int) : Int := Int.lor a b

/-- The `operator&` of `TimetableDays`. -/
def TimetableDays.and (a b : Int) : Int := Int.land a b

structure TimetableStatistics where
  totalRuns : Int := 0
  cancelledRuns : Int := 0
  delayedRuns : Int := 0
  averageDelay : Rat := 0
  punctualityRate : Rat := 0
  totalPassengers : Int := 0
  deriving DecidableEq

structure Timetable where
  id : String
  name : String := ""
  trainId : String := ""
  lineId : String := ""
  type : TimetableType := TimetableType.REGULAR
  active : Bool := true
  stops : List TimetableStop := []
  runningDays : Int := 127
  validFrom : Int := 0
  validTo : Int := 0
  frequency : Int := 0
  firstRun : Int := 0
  lastRun : Int := 0
  instances : List TimetableInstance := []
  statistics : TimetableStatistics := {}
  deriving DecidableEq

namespace Timetable

def runsOnDay (tt : Timetable) (dayOfWeek : Int) : Bool :=
  let test (day : Int) : Bool := decide (TimetableDays.and tt.runningDays day ≠ TimetableDays.NONE)
  if dayOfWeek = 0 then test TimetableDays.SUNDAY
  else if dayOfWeek = 1 then test TimetableDays.MONDAY
  else if dayOfWeek = 2 then test TimetableDays.TUESDAY
  else if dayOfWeek = 3 then test TimetableDays.WEDNESDAY
  else if dayOfWeek = 4 then test TimetableDays.THURSDAY
  else if dayOfWeek = 5 then test TimetableDays.FRIDAY
  else if dayOfWeek = 6 then test TimetableDays.SATURDAY
  else false

def isValidOn (tt : Timetable) (date : Int) : Bool :=
  decide (date ≥ tt.validFrom) && decide (date ≤ tt.validTo)

/-- Search loop of `findStopIndex` from position `i`. -/
def findStopIndexFrom (stationId : String) : List TimetableStop → Int → Int
  | [], _ => -1
  | s :: rest, i => if s.stationId = stationId then i else findStopIndexFrom stationId rest (i + 1)

def findStopIndex (tt : Timetable) (stationId : String) : Int :=
  findStopIndexFrom stationId tt.stops 0

def findStop (tt : Timetable) (stationId : String) : Option TimetableStop :=
  let index := tt.findStopIndex stationId
  if index ≥ 0 then tt.stops.get? index.toNat else none

def getFirstDepartureTime (tt : Timetable) : Int :=
  match tt.stops with
  | [] => -1
  | s :: _ => s.departureTime

def getLastArrivalTime (tt : Timetable) : Int :=
  match tt.stops.getLast? with
  | none => -1
  | some s => s.arrivalTime

/-- The loop `for (int time = firstRun; time <= lastRun; time += frequency)` of
`getDepartureTimes`, run for at most `fuel` evaluations of the loop test;
`none` when the loop has not finished by then. -/
def departureTimesLoop (lastRun frequency : Int) : Nat → Int → List Int → Option (List Int)
  | 0, _, _ => none
  | fuel + 1, time, times =>
    if time ≤ lastRun then
      departureTimesLoop lastRun frequency fuel (time + frequency) (times ++ [time])
    else some times

def getDepartureTimes (tt : Timetable) (fuel : Nat) : Option (List Int) :=
  if tt.frequency = 0 then
    match tt.stops with
    | [] => some []
    | s :: _ => some [s.departureTime]
  else
    departureTimesLoop tt.lastRun tt.frequency fuel tt.firstRun []

/-- The id given to the instance of template `id` on `date` departing at
`departureTime`. -/
def instanceId (id : String) (date : Int) (departureTime : Int) : String :=
  id ++ "_" ++ to_string (to_time_t date) ++ "_" ++ to_string departureTime

/-- The instance built by one round of the loop of `createInstance`. -/
def newInstance (tt : Timetable) (date : Int) (departureTime : Int) : TimetableInstance :=
  { id := instanceId tt.id date departureTime,
    date := date,
    actualDepartureTime := departureTime,
    delay := 0,
    cancelled := false,
    trainId := tt.trainId }

/-- The body of the instance-creating loop of `createInstance`. -/
def addInstance (date : Int) (tt : Timetable) (departureTime : Int) : Timetable :=
  { tt with
    instances := tt.instances ++ [tt.newInstance date departureTime],
    statistics := { tt.statistics with totalRuns := tt.statistics.totalRuns + 1 } }

/-- The method `createInstance`; `wday` is the weekday (`tm_wday`) that
`localtime` reports for a `time_t`, `fuel` bounds the departure-time loop
(`none`: that loop has not finished within `fuel`). -/
def createInstance (wday : Int → Int) (fuel : Nat) (tt : Timetable) (date : Int) :
    Option Timetable :=
  if !tt.isValidOn date then some tt
  else if !tt.runsOnDay (wday (to_time_t date)) then some tt
  else
    match tt.getDepartureTimes fuel with
    | none => none
    | some departureTimes => some (departureTimes.foldl (addInstance date) tt)

/-- The loop of `getDepartureTimes` with the 32-bit counter of the build:
`time += frequency` wraps around. -/
def departureTimesLoopBuilt (lastRun frequency : Int) :
    Nat → Int → List Int → Option (List Int)
  | 0, _, _ => none
  | fuel + 1, time, times =>
    if time ≤ lastRun then
      departureTimesLoopBuilt lastRun frequency fuel (int32 (time + frequency)) (times ++ [time])
    else some times

/-- The method `getDepartureTimes` with the 32-bit loop counter of the build. -/
def getDepartureTimesBuilt (tt : Timetable) (fuel : Nat) : Option (List Int) :=
  if tt.frequency = 0 then
    match tt.stops with
    | [] => some []
    | s :: _ => some [s.departureTime]
  else
    departureTimesLoopBuilt tt.lastRun tt.frequency fuel tt.firstRun []

/-- The body of the instance-creating loop of `createInstance` with the 32-bit
counter `totalRuns` of the build. -/
def addInstanceBuilt (date : Int) (tt : Timetable) (departureTime : Int) : Timetable :=
  { tt with
    instances := tt.instances ++ [tt.newInstance date departureTime],
    statistics := { tt.statistics with totalRuns := int32 (tt.statistics.totalRuns + 1) } }

/-- The method `createInstance` with the 32-bit arithmetic of the build: the
loop counter of `getDepartureTimes` and `totalRuns` wrap around. -/
def createInstanceBuilt (wday : Int → Int) (fuel : Nat) (tt : Timetable) (date : Int) :
    Option Timetable :=
  if !tt.isValidOn date then some tt
  else if !tt.runsOnDay (wday (to_time_t date)) then some tt
  else
    match tt.getDepartureTimesBuilt fuel with
    | none => none
    | some departureTimes => some (departureTimes.foldl (addInstanceBuilt date) tt)

/-- The rounding `std::chrono::floor<std::chrono::days>` of a time point, as a
count of days since the epoch. -/
def floorDays (tp : Int) : Int := tp / (86400 * ticksPerSecond)

def getInstancesForDate (tt : Timetable) (date : Int) : List TimetableInstance :=
  let dateOnly := floorDays date
  tt.instances.filter (fun inst => floorDays inst.date == dateOnly)

/-- The loop of `validateStopTimes` from the stop after `prev` on (`prev = none`
at the first stop, where `i > 0` fails). -/
def validateStopTimesFrom : Option TimetableStop → List TimetableStop → Bool
  | _, [] => true
  | prev, stop :: rest =>
    if stop.arrivalTime > stop.departureTime then false
    else
      match prev with
      | some before =>
        if stop.arrivalTime < before.departureTime then false
        else validateStopTimesFrom (some stop) rest
      | none => validateStopTimesFrom (some stop) rest

def validateStopTimes (tt : Timetable) : Bool :=
  if tt.stops.length < 2 then true
  else validateStopTimesFrom none tt.stops

def validatePlatforms (tt : Timetable) : Bool :=
  tt.stops.all (fun stop => !(decide (stop.platform < 1) || decide (stop.platform > 20)))

def validate (tt : Timetable) : Bool :=
  tt.validateStopTimes && tt.validatePlatforms && !tt.stops.isEmpty

/-- The overlap test of `hasConflicts` for one pair of runs. -/
def runsOverlap (thisStart thisFinish otherStart otherFinish : Int) : Bool :=
  (decide (thisStart ≥ otherStart) && decide (thisStart ≤ otherFinish)) ||
  (decide (thisFinish ≥ otherStart) && decide (thisFinish ≤ otherFinish)) ||
  (decide (thisStart ≤ otherStart) && decide (thisFinish ≥ otherFinish))

/-- The method `hasConflicts`; `other = none` is the null pointer, `fuel` bounds
the departure-time loops (`none`: a loop has not finished within `fuel`). -/
def hasConflicts (fuel : Nat) (tt : Timetable) (other : Option Timetable) : Option Bool :=
  match other with
  | none => some false
  | some other =>
    if other.trainId ≠ tt.trainId then some false
    else if tt.validTo < other.validFrom ∨ tt.validFrom > other.validTo then some false
    else if TimetableDays.and tt.runningDays other.runningDays = TimetableDays.NONE then
      some false
    else
      match tt.getDepartureTimes fuel, other.getDepartureTimes fuel with
      | some thisTimes, some otherTimes =>
        let thisEnd := tt.getLastArrivalTime
        let otherEnd := other.getLastArrivalTime
        some (thisTimes.any (fun thisTime =>
          let thisStart := thisTime
          let thisFinish := thisEnd - tt.getFirstDepartureTime + thisTime
          otherTimes.any (fun otherTime =>
            let otherStart := otherTime
            let otherFinish := otherEnd - other.getFirstDepartureTime + otherTime
            runsOverlap thisStart thisFinish otherStart otherFinish)))
      | _, _ => none

/-- The method `hasConflicts` with the 32-bit arithmetic of the build: the loop
counter of `getDepartureTimes` and the sums that give the end of a run wrap
around. -/
def hasConflictsBuilt (fuel : Nat) (tt : Timetable) (other : Option Timetable) :
    Option Bool :=
  match other with
  | none => some false
  | some other =>
    if other.trainId ≠ tt.trainId then some false
    else if tt.validTo < other.validFrom ∨ tt.validFrom > other.validTo then some false
    else if TimetableDays.and tt.runningDays other.runningDays = TimetableDays.NONE then
      some false
    else
      match tt.getDepartureTimesBuilt fuel, other.getDepartureTimesBuilt fuel with
      | some thisTimes, some otherTimes =>
        let thisEnd := tt.getLastArrivalTime
        let otherEnd := other.getLastArrivalTime
        some (thisTimes.any (fun thisTime =>
          let thisStart := thisTime
          let thisFinish := int32 (int32 (thisEnd - tt.getFirstDepartureTime) + thisTime)
          otherTimes.any (fun otherTime =>
            let otherStart := otherTime
            let otherFinish :=
              int32 (int32 (otherEnd - other.getFirstDepartureTime) + otherTime)
            runsOverlap thisStart thisFinish otherStart otherFinish)))
      | _, _ => none

end Timetable

/-! ## GameState (the entity registry) -/

structure GameState where
  stations : List Station := []
  trains : List Train := []
  timetables : List Timetable := []
  reputation : Int := 50
  deriving DecidableEq

namespace GameState

/-- Lookup in `stationMap`: the registered station with this id, if any. -/
def getStation (gs : GameState) (stationId : String) : Option Station :=
  gs.stations.find? (fun s => s.id == stationId)

/-- Lookup in `trainMap`: the registered train with this id, if any. -/
def getTrain (gs : GameState) (trainId : String) : Option Train :=
  gs.trains.find? (fun t => t.id == trainId)

/-- Lookup in `timetableMap`: the registered timetable with this id, if any. -/
def getTimetable (gs : GameState) (timetableId : String) : Option Timetable :=
  gs.timetables.find? (fun t => t.id == timetableId)

def changeReputation (gs : GameState) (delta : Int) : GameState :=
  { gs with reputation := gs.reputation + delta }

end GameState

/-! ## SimulationEngine -/

structure SimulationEvent where
  time : Int
  type : String
  entityId : String := ""
  data : String := ""
  deriving DecidableEq

/-- The comparison `SimulationEvent::operator>`. -/
def SimulationEvent.gt (a other : SimulationEvent) : Bool := decide (a.time > other.time)

/-- The passenger-flow provider `PassengerAI`, whose sources are not part of the
modelled files: its two queries are arbitrary functions. -/
structure PassengerAI where
  getWaitingPassengers : Station → Train → Int
  getAlightingPassengers : Train → Station → Int
  /-- What `updateStation(station, deltaTime)` does to the station. -/
  updateStation : Station → Rat → Station := fun s _ => s
  /-- What `generateDestinations(station, count)` does to the station. -/
  generateDestinations : Station → Int → Station := fun s _ => s

/-- The train-movement component `TrainMovement`, whose sources are not part of
the modelled files: `updateTrain(train, deltaTime)` is an arbitrary function of
the train. -/
structure TrainMovement where
  updateTrain : Train → Rat → Train := fun t _ => t

structure EngineStatistics where
  trainsRunning : Int := 0
  trainsDelayed : Int := 0
  passengersTransported : Int := 0
  passengersWaiting : Int := 0
  averageDelay : Rat := 0
  punctualityRate : Rat := 0
  systemUtilization : Rat := 0
  deriving DecidableEq

/-! ### The event queue

`std::priority_queue<SimulationEvent, std::vector<SimulationEvent>,
std::greater<SimulationEvent>>` is modelled by the list of its elements in
insertion order: `top` is an element that no other element is smaller than
(the earliest inserted among those), `pop` removes it. -/

/-- The element `top()` of the queue: the first element `e` such that no element
`m` has `e > m`. -/
def queueTop : List SimulationEvent → Option SimulationEvent
  | [] => none
  | e :: es =>
    match queueTop es with
    | none => some e
    | some m => if e.gt m then some m else some e

/-- The queue after `pop()`. -/
def queuePop (q : List SimulationEvent) : List SimulationEvent :=
  match queueTop q with
  | none => q
  | some m => q.erase m

structure SimulationEngine where
  gameState : GameState := {}
  paused : Bool := false
  timeScale : Rat := 1
  simulationTime : Rat := 0
  eventQueue : List SimulationEvent := []
  activeTrains : List String := []
  activeStations : List String := []
  activeTimetables : List String := []
  statistics : EngineStatistics := {}
  passengerGenerationTimer : Rat := 0
  timetableUpdateTimer : Rat := 0
  statisticsUpdateTimer : Rat := 0
  deriving DecidableEq

namespace SimulationEngine

/-- Mutation of a registered train through its pointer. -/
def modifyTrain (eng : SimulationEngine) (trainId : String) (f : Train → Train) :
    SimulationEngine :=
  { eng with gameState := { eng.gameState with
      trains := modifyFirst (fun t => t.id == trainId) f eng.gameState.trains } }

/-- Mutation of a registered station through its pointer. -/
def modifyStation (eng : SimulationEngine) (stationId : String) (f : Station → Station) :
    SimulationEngine :=
  { eng with gameState := { eng.gameState with
      stations := modifyFirst (fun s => s.id == stationId) f eng.gameState.stations } }

def scheduleEvent (eng : SimulationEngine) (event : SimulationEvent) : SimulationEngine :=
  { eng with eventQueue := eng.eventQueue ++ [event] }

/-- The method `dispatchTrain`; `now` is the reading of the system clock. -/
def dispatchTrain (now : Int) (eng : SimulationEngine) (trainId timetableId : String) :
    SimulationEngine :=
  match eng.gameState.getTrain trainId, eng.gameState.getTimetable timetableId with
  | some train, some timetable =>
    if !train.canDepart then eng
    else
      let eng := eng.modifyTrain trainId
        (fun t => (t.setAssignedTimetable timetableId).setStatus TrainStatus.IN_SERVICE)
      match timetable.stops with
      | [] => eng
      | stop0 :: _ =>
        match eng.gameState.getStation stop0.stationId with
        | some firstStation =>
          let eng := eng.modifyTrain trainId
            (fun t => (t.setCurrentPosition firstStation.latitude firstStation.longitude
              ).setCurrentStation stop0.stationId)
          eng.scheduleEvent
            { time := addMinutes now stop0.departureTime,
              type := "departure",
              entityId := trainId,
              data := stop0.stationId }
        | none => eng
  | _, _ => eng

def boardPassengers (ai : PassengerAI) (eng : SimulationEngine) (trainId stationId : String) :
    SimulationEngine :=
  match eng.gameState.getTrain trainId, eng.gameState.getStation stationId with
  | some train, some station =>
    let availableSeats := train.getTotalCapacity - train.currentPassengers
    if availableSeats ≤ 0 then eng
    else
      let waitingPassengers := ai.getWaitingPassengers station train
      let boardingPassengers := min availableSeats waitingPassengers
      let eng := eng.modifyTrain trainId (fun t => t.boardPassengers boardingPassengers)
      let eng := eng.modifyStation stationId (fun s => s.removePassengers boardingPassengers)
      { eng with statistics := { eng.statistics with
          passengersTransported := eng.statistics.passengersTransported + boardingPassengers } }
  | _, _ => eng

def alightPassengers (ai : PassengerAI) (eng : SimulationEngine) (trainId stationId : String) :
    SimulationEngine :=
  match eng.gameState.getTrain trainId, eng.gameState.getStation stationId with
  | some train, some station =>
    let alightingPassengers := ai.getAlightingPassengers train station
    let eng := eng.modifyTrain trainId (fun t => t.alightPassengers alightingPassengers)
    eng.modifyStation stationId (fun s => s.addPassengers alightingPassengers)
  | _, _ => eng

/-- The method `calculateOptimalSpeed`; its distance argument is never read and
is left out. -/
def calculateOptimalSpeed (train : Option Train) : Rat :=
  match train with
  | none => 0
  | some train =>
    let baseSpeed := train.getMaxSpeed * (8 / 10)
    let weatherModifier : Rat := 1
    let conditionModifier := 1 / 2 + train.condition * (1 / 2)
    let loadModifier := 1 - train.getOccupancyRate * (1 / 10)
    let baseSpeed := if train.isDelayed then baseSpeed * (11 / 10) else baseSpeed
    let finalSpeed := baseSpeed * weatherModifier * conditionModifier * loadModifier
    min finalSpeed train.getMaxSpeed

/-- The method `processTrainArrival`; `now` is the reading of the system clock. -/
def processTrainArrival (ai : PassengerAI) (now : Int) (eng : SimulationEngine)
    (trainId stationId : String) : SimulationEngine :=
  match eng.gameState.getTrain trainId, eng.gameState.getStation stationId with
  | some train, some station =>
    let eng := eng.modifyTrain trainId
      (fun t => (t.setCurrentSpeed 0).setCurrentStation station.id)
    let timetable := eng.gameState.getTimetable train.assignedTimetableId
    let eng :=
      match timetable with
      | some tt =>
        match tt.findStop station.id with
        | some stop => eng.modifyStation stationId (fun s => s.occupyPlatform stop.platform train.id)
        | none => eng
      | none => eng
    let eng := eng.alightPassengers ai trainId stationId
    let eng := eng.boardPassengers ai trainId stationId
    match timetable with
    | some tt =>
      match tt.findStop station.id with
      | some stop =>
        if stop.departureTime > stop.arrivalTime then
          eng.scheduleEvent
            { time := now + minutes (stop.departureTime - stop.arrivalTime),
              type := "departure",
              entityId := train.id,
              data := station.id }
        else eng
      | none => eng
    | none => eng
  | _, _ => eng

/-- The method `processTrainDeparture`; `now` is the reading of the system clock. -/
def processTrainDeparture (now : Int) (eng : SimulationEngine)
    (trainId stationId : String) : SimulationEngine :=
  match eng.gameState.getTrain trainId, eng.gameState.getStation stationId with
  | some train, some station =>
    match eng.gameState.getTimetable train.assignedTimetableId with
    | some tt =>
      let eng :=
        match tt.findStop station.id with
        | some stop => eng.modifyStation stationId (fun s => s.freePlatform stop.platform)
        | none => eng
      let currentIndex := tt.findStopIndex station.id
      if currentIndex ≥ 0 ∧ currentIndex < (tt.stops.length : Int) - 1 then
        match tt.stops.get? (currentIndex.toNat + 1), tt.stops.get? currentIndex.toNat with
        | some nextStop, some thisStop =>
          match eng.gameState.getStation nextStop.stationId with
          | some _ =>
            let travelTime := nextStop.arrivalTime - thisStop.departureTime
            let eng := eng.scheduleEvent
              { time := now + minutes travelTime,
                type := "arrival",
                entityId := train.id,
                data := nextStop.stationId }
            let eng := eng.modifyTrain trainId (fun t => t.setStatus TrainStatus.IN_SERVICE)
            eng.modifyTrain trainId
              (fun t => t.setCurrentSpeed (calculateOptimalSpeed (some t)))
          | none => eng
        | _, _ => eng
      else
        eng.modifyTrain trainId
          (fun t => (t.setStatus TrainStatus.AVAILABLE).setAssignedTimetable "")
    | none => eng
  | _, _ => eng

def handleTrainBreakdown (eng : SimulationEngine) (trainId : String) : SimulationEngine :=
  let eng := eng.modifyTrain trainId
    (fun t => (((t.setStatus TrainStatus.BROKEN).setCurrentSpeed 0).setCurrentPassengers 0))
  { eng with gameState := eng.gameState.changeReputation (-10) }

/-- The body of the loop of `processEvents` for one popped event; `clock` is the
reading of the system clock seen by the handler. -/
def handleEvent (ai : PassengerAI) (clock : Int) (eng : SimulationEngine)
    (event : SimulationEvent) : SimulationEngine :=
  if event.type = "departure" then
    match eng.gameState.getTrain event.entityId, eng.gameState.getStation event.data with
    | some _, some _ => eng.processTrainDeparture clock event.entityId event.data
    | _, _ => eng
  else if event.type = "arrival" then
    match eng.gameState.getTrain event.entityId, eng.gameState.getStation event.data with
    | some _, some _ => eng.processTrainArrival ai clock event.entityId event.data
    | _, _ => eng
  else if event.type = "maintenance" then
    match eng.gameState.getTrain event.entityId with
    | some _ => eng.modifyTrain event.entityId (fun t => t.setStatus TrainStatus.MAINTENANCE)
    | none => eng
  else if event.type = "breakdown" then
    match eng.gameState.getTrain event.entityId with
    | some _ => eng.handleTrainBreakdown event.entityId
    | none => eng
  else eng

/-- The loop of `processEvents`, run for at most `fuel` evaluations of the loop
test. `now` is the clock reading taken before the loop, `clock k` the reading
seen by the handler of the `k`-th handled event. The result is the final engine
together with the events handled so far, in the order of handling; `none` when
the loop has not finished within `fuel`. -/
def processEventsLoop (ai : PassengerAI) (now : Int) (clock : Nat → Int) :
    Nat → SimulationEngine → List SimulationEvent →
    Option (SimulationEngine × List SimulationEvent)
  | 0, _, _ => none
  | fuel + 1, eng, handled =>
    match queueTop eng.eventQueue with
    | none => some (eng, handled)
    | some event =>
      if event.time ≤ now then
        let eng := { eng with eventQueue := queuePop eng.eventQueue }
        let eng := eng.handleEvent ai (clock handled.length) event
        processEventsLoop ai now clock fuel eng (handled ++ [event])
      else some (eng, handled)

def processEvents (ai : PassengerAI) (now : Int) (clock : Nat → Int) (fuel : Nat)
    (eng : SimulationEngine) : Option (SimulationEngine × List SimulationEvent) :=
  processEventsLoop ai now clock fuel eng []

/-- The method `processTrainArrival` with the machine arithmetic of the build in
the time of the scheduled event: the 32-bit difference of the stop times and the
64-bit tick counts wrap around. -/
def processTrainArrivalBuilt (ai : PassengerAI) (now : Int) (eng : SimulationEngine)
    (trainId stationId : String) : SimulationEngine :=
  match eng.gameState.getTrain trainId, eng.gameState.getStation stationId with
  | some train, some station =>
    let eng := eng.modifyTrain trainId
      (fun t => (t.setCurrentSpeed 0).setCurrentStation station.id)
    let timetable := eng.gameState.getTimetable train.assignedTimetableId
    let eng :=
      match timetable with
      | some tt =>
        match tt.findStop station.id with
        | some stop => eng.modifyStation stationId (fun s => s.occupyPlatform stop.platform train.id)
        | none => eng
      | none => eng
    let eng := eng.alightPassengers ai trainId stationId
    let eng := eng.boardPassengers ai trainId stationId
    match timetable with
    | some tt =>
      match tt.findStop station.id with
      | some stop =>
        if stop.departureTime > stop.arrivalTime then
          eng.scheduleEvent
            { time := addMinutes now (int32 (stop.departureTime - stop.arrivalTime)),
              type := "departure",
              entityId := train.id,
              data := station.id }
        else eng
      | none => eng
    | none => eng
  | _, _ => eng

/-- The method `processTrainDeparture` with the machine arithmetic of the build
in the time of the scheduled event. -/
def processTrainDepartureBuilt (now : Int) (eng : SimulationEngine)
    (trainId stationId : String) : SimulationEngine :=
  match eng.gameState.getTrain trainId, eng.gameState.getStation stationId with
  | some train, some station =>
    match eng.gameState.getTimetable train.assignedTimetableId with
    | some tt =>
      let eng :=
        match tt.findStop station.id with
        | some stop => eng.modifyStation stationId (fun s => s.freePlatform stop.platform)
        | none => eng
      let currentIndex := tt.findStopIndex station.id
      if currentIndex ≥ 0 ∧ currentIndex < (tt.stops.length : Int) - 1 then
        match tt.stops.get? (currentIndex.toNat + 1), tt.stops.get? currentIndex.toNat with
        | some nextStop, some thisStop =>
          match eng.gameState.getStation nextStop.stationId with
          | some _ =>
            let travelTime := int32 (nextStop.arrivalTime - thisStop.departureTime)
            let eng := eng.scheduleEvent
              { time := addMinutes now travelTime,
                type := "arrival",
                entityId := train.id,
                data := nextStop.stationId }
            let eng := eng.modifyTrain trainId (fun t => t.setStatus TrainStatus.IN_SERVICE)
            eng.modifyTrain trainId
              (fun t => t.setCurrentSpeed (calculateOptimalSpeed (some t)))
          | none => eng
        | _, _ => eng
      else
        eng.modifyTrain trainId
          (fun t => (t.setStatus TrainStatus.AVAILABLE).setAssignedTimetable "")
    | none => eng
  | _, _ => eng

/-- The body of the loop of `processEvents` for one popped event, with the
handlers that compute the event times as the build does. -/
def handleEventBuilt (ai : PassengerAI) (clock : Int) (eng : SimulationEngine)
    (event : SimulationEvent) : SimulationEngine :=
  if event.type = "departure" then
    match eng.gameState.getTrain event.entityId, eng.gameState.getStation event.data with
    | some _, some _ => eng.processTrainDepartureBuilt clock event.entityId event.data
    | _, _ => eng
  else if event.type = "arrival" then
    match eng.gameState.getTrain event.entityId, eng.gameState.getStation event.data with
    | some _, some _ => eng.processTrainArrivalBuilt ai clock event.entityId event.data
    | _, _ => eng
  else if event.type = "maintenance" then
    match eng.gameState.getTrain event.entityId with
    | some _ => eng.modifyTrain event.entityId (fun t => t.setStatus TrainStatus.MAINTENANCE)
    | none => eng
  else if event.type = "breakdown" then
    match eng.gameState.getTrain event.entityId with
    | some _ => eng.handleTrainBreakdown event.entityId
    | none => eng
  else eng

/-- The loop of `processEvents` with the handlers that compute the event times
as the build does; `fuel`, `now`, `clock` and the result as in
`processEventsLoop`. -/
def processEventsLoopBuilt (ai : PassengerAI) (now : Int) (clock : Nat → Int) :
    Nat → SimulationEngine → List SimulationEvent →
    Option (SimulationEngine × List SimulationEvent)
  | 0, _, _ => none
  | fuel + 1, eng, handled =>
    match queueTop eng.eventQueue with
    | none => some (eng, handled)
    | some event =>
      if event.time ≤ now then
        let eng := { eng with eventQueue := queuePop eng.eventQueue }
        let eng := eng.handleEventBuilt ai (clock handled.length) event
        processEventsLoopBuilt ai now clock fuel eng (handled ++ [event])
      else some (eng, handled)

def processEventsBuilt (ai : PassengerAI) (now : Int) (clock : Nat → Int) (fuel : Nat)
    (eng : SimulationEngine) : Option (SimulationEngine × List SimulationEvent) :=
  processEventsLoopBuilt ai now clock fuel eng []

def stopTrain (eng : SimulationEngine) (trainId : String) : SimulationEngine :=
  match eng.gameState.getTrain trainId with
  | none => eng
  | some _ =>
    eng.modifyTrain trainId (fun t => (t.setCurrentSpeed 0).setStatus TrainStatus.WAITING)

/-- The square of the distance that `emergencyStop` and `checkTrainCollisions`
compute on raw coordinates; the code takes its square root, which preserves
every comparison made. -/
def distanceSq (lat1 lon1 lat2 lon2 : Rat) : Rat :=
  (lat2 - lat1) ^ 2 + (lon2 - lon1) ^ 2

/-- One round of the nearest-station loop of `emergencyStop`: `none` stands for
the initial `minDistance` (the largest double) with no station chosen. -/
def nearestStep (lat lon : Rat) (acc : Option (Rat × Station)) (station : Station) :
    Option (Rat × Station) :=
  let distance := distanceSq lat lon station.latitude station.longitude
  match acc with
  | none => some (distance, station)
  | some (minDistance, _) => if distance < minDistance then some (distance, station) else acc

/-- The nearest-station loop of `emergencyStop`. -/
def nearestStation (lat lon : Rat) (stations : List Station) : Option Station :=
  (stations.foldl (nearestStep lat lon) none).map (fun r => r.2)

def emergencyStop (eng : SimulationEngine) (trainId : String) : SimulationEngine :=
  match eng.gameState.getTrain trainId with
  | none => eng
  | some train =>
    let eng := eng.stopTrain trainId
    match nearestStation train.currentLat train.currentLon eng.gameState.stations with
    | some nearest => eng.modifyTrain trainId (fun t => t.setCurrentStation nearest.id)
    | none => eng

/-- The distance `sqrt(pow(lat1 - lat2, 2) + pow(lon1 - lon2, 2))` of
`checkTrainCollisions` as the build computes it in double precision: the
coordinates are read as `double` values, and the two differences, the two
squares, their sum and the square root are each rounded to `double`. -/
def doubleDistance (lat1 lon1 lat2 lon2 : Rat) : Rat :=
  let dLat := float64 (float64 lat1 - float64 lat2)
  let dLon := float64 (float64 lon1 - float64 lon2)
  sqrtFloat64 (float64 (float64 (dLat * dLat) + float64 (dLon * dLon)))

/-- The test of `checkTrainCollisions` on a pair of trains: same line and
computed distance below `MIN_SAFE_DISTANCE`, the `double` nearest to 0.01. -/
def collisionRisk (train1 train2 : Train) : Bool :=
  train1.currentLineId == train2.currentLineId &&
  decide (doubleDistance train1.currentLat train1.currentLon
    train2.currentLat train2.currentLon < float64 (1 / 100))

/-- The inner loop of `checkTrainCollisions`: the first later entry at collision
risk with `train1` (an entry that is no registered train is skipped). -/
def findCollisionPartner (eng : SimulationEngine) (train1 : Train) : List String → Option String
  | [] => none
  | id2 :: rest =>
    match eng.gameState.getTrain id2 with
    | some train2 =>
      if collisionRisk train1 train2 then some id2 else findCollisionPartner eng train1 rest
    | none => findCollisionPartner eng train1 rest

/-- The outer loop of `checkTrainCollisions` over the remaining active trains. -/
def checkTrainCollisionsFrom (eng : SimulationEngine) : List String → Bool × SimulationEngine
  | [] => (false, eng)
  | id1 :: rest =>
    match eng.gameState.getTrain id1 with
    | none => checkTrainCollisionsFrom eng rest
    | some train1 =>
      match findCollisionPartner eng train1 rest with
      | some id2 => (true, (eng.emergencyStop train1.id).emergencyStop id2)
      | none => checkTrainCollisionsFrom eng rest

/-- The method `checkTrainCollisions`: its return value and the engine after it. -/
def checkTrainCollisions (eng : SimulationEngine) : Bool × SimulationEngine :=
  checkTrainCollisionsFrom eng eng.activeTrains

/-- The loop of `checkPlatformConflicts` over `station->getPlatforms()`: `k`
rounds are left, the next platform read is the one at position `i` of the
station as it is now (`freePlatform` changes a platform in place and keeps the
length of the vector). `gs` is the registry, in which no train changes. -/
def checkPlatformConflictsLoop (gs : GameState) : Nat → Nat → Station → Station
  | 0, _, station => station
  | k + 1, i, station =>
    match station.platforms.get? i with
    | none => station
    | some platform =>
      let station :=
        if platform.occupied then
          match gs.getTrain platform.trainId with
          | some train =>
            if train.currentStationId ≠ station.id then station.freePlatform platform.number
            else station
          | none => station.freePlatform platform.number
        else station
      checkPlatformConflictsLoop gs k (i + 1) station

/-- The method `checkPlatformConflicts`: its return value (the counter
`conflicts` is never incremented) and the engine after it. -/
def checkPlatformConflicts (eng : SimulationEngine) (stationId : String) :
    Bool × SimulationEngine :=
  match eng.gameState.getStation stationId with
  | none => (false, eng)
  | some _ =>
    let conflicts : Int := 0
    (decide (conflicts > 0),
      eng.modifyStation stationId
        (fun s => checkPlatformConflictsLoop eng.gameState s.platforms.length 0 s))

def handleStationCongestion (eng : SimulationEngine) (stationId : String) : SimulationEngine :=
  match eng.gameState.getStation stationId with
  | none => eng
  | some station =>
    eng.activeTrains.foldl
      (fun eng trainId =>
        match eng.gameState.getTrain trainId with
        | some train =>
          if train.currentStationId = station.id then
            eng.modifyTrain trainId (fun t => t.setDelay (t.delayMinutes + 5))
          else eng
        | none => eng)
      eng

/-- The body of the loop of `updateStations` for one active station. -/
def updateStationStep (ai : PassengerAI) (deltaTime : Rat) (eng : SimulationEngine)
    (stationId : String) : SimulationEngine :=
  match eng.gameState.getStation stationId with
  | none => eng
  | some _ =>
    let eng := eng.modifyStation stationId
      (fun s => { ai.updateStation s deltaTime with id := s.id })
    let eng :=
      match eng.gameState.getStation stationId with
      | some station =>
        if station.congested then eng.handleStationCongestion stationId
        else eng
      | none => eng
    eng.modifyStation stationId (fun s => s.deteriorate (deltaTime * (1 / 1000000)))

def updateStations (ai : PassengerAI) (deltaTime : Rat) (eng : SimulationEngine) :
    SimulationEngine :=
  eng.activeStations.foldl (updateStationStep ai deltaTime) eng

/-- The body of the loop of `updateTrains` for one active train; `clock` is the
reading of the system clock used when a maintenance event is scheduled. -/
def updateTrainStep (tm : TrainMovement) (deltaTime : Rat) (clock : Int)
    (eng : SimulationEngine) (trainId : String) : SimulationEngine :=
  match eng.gameState.getTrain trainId with
  | none => eng
  | some _ =>
    let eng := eng.modifyTrain trainId (fun t => { tm.updateTrain t deltaTime with id := t.id })
    let eng :=
      match eng.gameState.getTrain trainId with
      | some train =>
        if train.needsMaintenance then
          eng.scheduleEvent
            { time := clock + hours 1, type := "maintenance", entityId := train.id }
        else eng
      | none => eng
    let eng :=
      match eng.gameState.getTrain trainId with
      | some train =>
        if !train.isElectric && decide (train.fuelLevel < f0_1) then
          eng.emergencyStop train.id
        else eng
      | none => eng
    let eng := eng.modifyTrain trainId (fun t => t.deteriorate (deltaTime * (1 / 100000)))
    match eng.gameState.getTrain trainId with
    | some train =>
      if train.isDelayed then
        { eng with statistics := { eng.statistics with
            trainsDelayed := eng.statistics.trainsDelayed + 1 } }
      else eng
    | none => eng

/-- The loop of `updateTrains`; `clock k` is the clock reading available to the
round of the entry at position `k` of the active-train list. -/
def updateTrainsFrom (tm : TrainMovement) (deltaTime : Rat) (clock : Nat → Int) :
    Nat → List String → SimulationEngine → SimulationEngine
  | _, [], eng => eng
  | k, trainId :: rest, eng =>
    updateTrainsFrom tm deltaTime clock (k + 1) rest
      (updateTrainStep tm deltaTime (clock k) eng trainId)

def updateTrains (tm : TrainMovement) (deltaTime : Rat) (clock : Nat → Int)
    (eng : SimulationEngine) : SimulationEngine :=
  updateTrainsFrom tm deltaTime clock 0 eng.activeTrains eng

/-- The loop of `generatePassengers`; `samples k` is the number drawn from the
Poisson distribution for the entry at position `k` of the active-station list. -/
def generatePassengersFrom (ai : PassengerAI) (samples : Nat → Int) :
    Nat → List String → SimulationEngine → SimulationEngine
  | _, [], eng => eng
  | k, stationId :: rest, eng =>
    let newPassengers := samples k
    let eng := eng.modifyStation stationId (fun s => s.addPassengers newPassengers)
    let eng := eng.modifyStation stationId
      (fun s => { ai.generateDestinations s newPassengers with id := s.id })
    generatePassengersFrom ai samples (k + 1) rest eng

def generatePassengers (ai : PassengerAI) (samples : Nat → Int) (eng : SimulationEngine) :
    SimulationEngine :=
  generatePassengersFrom ai samples 0 eng.activeStations eng

/-- Apply a fallible function to every element, failing when one application
fails. -/
def mapOpt {α β : Type} (f : α → Option β) : List α → Option (List β)
  | [] => some []
  | x :: xs =>
    match f x with
    | none => none
    | some y =>
      match mapOpt f xs with
      | none => none
      | some ys => some (y :: ys)

/-- The body of the loop of `createTimetableInstances` for one registered
timetable. -/
def createTimetableInstancesStep (wday : Int → Int) (fuel : Nat) (currentDate : Int)
    (timetable : Timetable) : Option Timetable :=
  if !timetable.active then some timetable
  else if (timetable.getInstancesForDate currentDate).isEmpty then
    timetable.createInstance wday fuel currentDate
  else some timetable

/-- The method `createTimetableInstances`; `currentDate` is the reading of the
system clock. -/
def createTimetableInstances (wday : Int → Int) (fuel : Nat) (currentDate : Int)
    (eng : SimulationEngine) : Option SimulationEngine :=
  match mapOpt (createTimetableInstancesStep wday fuel currentDate) eng.gameState.timetables with
  | none => none
  | some timetables =>
    some { eng with gameState := { eng.gameState with timetables := timetables } }

/-- The body of the loop of `createTimetableInstances` with the 32-bit arithmetic
of the build in `createInstance`. -/
def createTimetableInstancesStepBuilt (wday : Int → Int) (fuel : Nat) (currentDate : Int)
    (timetable : Timetable) : Option Timetable :=
  if !timetable.active then some timetable
  else if (timetable.getInstancesForDate currentDate).isEmpty then
    timetable.createInstanceBuilt wday fuel currentDate
  else some timetable

/-- The method `createTimetableInstances` with the 32-bit arithmetic of the build
in `createInstance`; `currentDate` is the reading of the system clock. -/
def createTimetableInstancesBuilt (wday : Int → Int) (fuel : Nat) (currentDate : Int)
    (eng : SimulationEngine) : Option SimulationEngine :=
  match mapOpt (createTimetableInstancesStepBuilt wday fuel currentDate)
      eng.gameState.timetables with
  | none => none
  | some timetables =>
    some { eng with gameState := { eng.gameState with timetables := timetables } }

/-- The registered trains that the active-train list refers to. -/
def activeTrainObjects (eng : SimulationEngine) : List Train :=
  eng.activeTrains.filterMap (fun trainId => eng.gameState.getTrain trainId)

def checkDelays (eng : SimulationEngine) : SimulationEngine :=
  let delayed := eng.activeTrainObjects.filter (fun t => t.isDelayed)
  let totalDelays : Int := delayed.length
  let totalDelayTime : Rat := (delayed.map (fun t => (t.delayMinutes : Rat))).sum
  if eng.activeTrains.length > 0 then
    { eng with statistics := { eng.statistics with
        averageDelay := totalDelayTime / (eng.activeTrains.length : Rat),
        punctualityRate := 1 - (totalDelays : Rat) / (eng.activeTrains.length : Rat) } }
  else eng

/-- The warning loop of `updateTimetables` only writes log lines; it finishes
when every `hasConflicts` call it makes finishes. -/
def conflictScanFinishes (fuel : Nat) (eng : SimulationEngine) : Bool :=
  eng.gameState.timetables.all (fun timetable =>
    !timetable.active ||
    eng.gameState.timetables.all (fun other =>
      other.id == timetable.id || (timetable.hasConflicts fuel (some other)).isSome))

def updateTimetables (wday : Int → Int) (fuel : Nat) (currentDate : Int)
    (eng : SimulationEngine) : Option SimulationEngine :=
  match eng.createTimetableInstances wday fuel currentDate with
  | none => none
  | some eng =>
    let eng := eng.checkDelays
    if eng.conflictScanFinishes fuel then some eng else none

def updateStatistics (eng : SimulationEngine) : SimulationEngine :=
  let running := eng.activeTrainObjects.filter (fun t => t.status == TrainStatus.IN_SERVICE)
  let trainsRunning : Int := running.length
  let trainsDelayed : Int := (running.filter (fun t => t.isDelayed)).length
  let passengersWaiting : Int :=
    ((eng.activeStations.filterMap (fun sid => eng.gameState.getStation sid)).map
      (fun s => s.currentPassengers)).sum
  let totalTrains : Int := eng.gameState.trains.length
  { eng with statistics := { eng.statistics with
      trainsRunning := trainsRunning,
      trainsDelayed := trainsDelayed,
      passengersWaiting := passengersWaiting,
      systemUtilization :=
        if totalTrains > 0 then (trainsRunning : Rat) / (totalTrains : Rat)
        else eng.statistics.systemUtilization } }

def updateActiveEntities (eng : SimulationEngine) : SimulationEngine :=
  { eng with
    activeTrains :=
      (eng.gameState.trains.filter (fun t =>
        t.status == TrainStatus.IN_SERVICE || t.status == TrainStatus.WAITING)).map
        (fun t => t.id),
    activeStations := eng.gameState.stations.map (fun s => s.id),
    activeTimetables :=
      (eng.gameState.timetables.filter (fun t => t.active)).map (fun t => t.id) }

def reset (eng : SimulationEngine) : SimulationEngine :=
  updateActiveEntities
    { eng with
      paused := false,
      timeScale := 1,
      simulationTime := 0,
      eventQueue := [],
      passengerGenerationTimer := 0,
      timetableUpdateTimer := 0,
      statisticsUpdateTimer := 0,
      statistics := {} }

def restoreState (wday : Int → Int) (fuel : Nat) (currentDate : Int) (eng : SimulationEngine)
    (state : GameState) : Option SimulationEngine :=
  let eng := { eng with gameState := state }
  let eng := eng.reset
  let eng := eng.updateActiveEntities
  eng.createTimetableInstances wday fuel currentDate

/-- What one call of `update` takes from outside the engine: the two components
whose sources are absent, the readings of the system clock, the weekday reported
by `localtime`, the random numbers drawn by `generatePassengers`, and the bound
on the rounds of each loop that may fail to finish. -/
structure UpdateInputs where
  passengerAI : PassengerAI
  trainMovement : TrainMovement := {}
  now : Int
  handlerClock : Nat → Int
  maintenanceClock : Nat → Int
  timetableDate : Int
  wday : Int → Int
  samples : Nat → Int
  fuel : Nat

/-- The method `update`; `none` when one of its loops has not finished within
the fuel. -/
def update (inp : UpdateInputs) (deltaTime : Rat) (eng : SimulationEngine) :
    Option SimulationEngine :=
  if eng.paused then some eng
  else
    let deltaTime := deltaTime * eng.timeScale
    let eng :=
      { eng with
        simulationTime := eng.simulationTime + deltaTime,
        passengerGenerationTimer := eng.passengerGenerationTimer + deltaTime,
        timetableUpdateTimer := eng.timetableUpdateTimer + deltaTime,
        statisticsUpdateTimer := eng.statisticsUpdateTimer + deltaTime }
    match eng.processEvents inp.passengerAI inp.now inp.handlerClock inp.fuel with
    | none => none
    | some (eng, _) =>
      let eng := eng.updateTrains inp.trainMovement deltaTime inp.maintenanceClock
      let eng := eng.updateStations inp.passengerAI deltaTime
      let eng :=
        if eng.passengerGenerationTimer ≥ 60 then
          { eng.generatePassengers inp.passengerAI inp.samples with
            passengerGenerationTimer := 0 }
        else eng
      let eng? : Option SimulationEngine :=
        if eng.timetableUpdateTimer ≥ 300 then
          match eng.updateTimetables inp.wday inp.fuel inp.timetableDate with
          | none => none
          | some eng => some { eng with timetableUpdateTimer := 0 }
        else some eng
      match eng? with
      | none => none
      | some eng =>
        let eng :=
          if eng.statisticsUpdateTimer ≥ 10 then
            { eng.updateStatistics with statisticsUpdateTimer := 0 }
          else eng
        some eng.checkTrainCollisions.2

end SimulationEngine

end RailwayManager

/-! ## Auxiliary notions used in the statements and proofs -/

namespace RailwayManager

/-- A sequence of `scheduleEvent` calls. -/
def SimulationEngine.scheduleAll (eng : SimulationEngine) (events : List SimulationEvent) :
    SimulationEngine :=
  events.foldl SimulationEngine.scheduleEvent eng

/-- An event is due at `now`. -/
def SimulationEvent.isDue (now : Int) (e : SimulationEvent) : Bool := decide (e.time ≤ now)

/-- Bound on the number of loop rounds a queued event can cause in one drain: a
due departure may be followed by its arrival, any other due event is handled
alone, an event that is not due is not handled. -/
def dueWeight (now : Int) (e : SimulationEvent) : Nat :=
  if e.time ≤ now then (if e.type = "departure" then 2 else 1) else 0

/-- Bound on the number of loop rounds of one drain of the queue. -/
def queueWeight (now : Int) (q : List SimulationEvent) : Nat :=
  (q.map (dueWeight now)).sum

/-- What the handler of event `e`, reading the clock at `c`, may append to the
queue: nothing, or one follow-up event (an arrival after a departure, or a
departure later than `c` after an arrival). -/
def FollowUps (c : Int) (e : SimulationEvent) (fs : List SimulationEvent) : Prop :=
  fs = [] ∨ ∃ f, fs = [f] ∧
    ((e.type = "departure" ∧ f.type = "arrival") ∨
     (e.type = "arrival" ∧ f.type = "departure" ∧ c < f.time))

/-- One round of the loop of `processEvents`, with the handlers that compute the
event times as the build does, at clock reading `c`: the engine after the top
event, when due at `now`, has been popped and handled; the engine itself when no
event is due. -/
def SimulationEngine.drainRoundBuilt (ai : PassengerAI) (now c : Int)
    (eng : SimulationEngine) : SimulationEngine :=
  match queueTop eng.eventQueue with
  | none => eng
  | some event =>
    if event.time ≤ now then
      ({ eng with eventQueue := queuePop eng.eventQueue }).handleEventBuilt ai c event
    else eng

/-- A platform's occupancy is stale at the station `stationId`: the recorded
train is not registered, or its current station is another one. -/
def Platform.stale (gs : GameState) (stationId : String) (p : Platform) : Bool :=
  match gs.getTrain p.trainId with
  | some train => decide (train.currentStationId ≠ stationId)
  | none => true

/-- What `checkPlatformConflicts` makes of one platform of the station
`stationId`: an occupied platform with stale occupancy is freed, any other
platform is kept. -/
def Platform.reconciled (gs : GameState) (stationId : String) (p : Platform) : Platform :=
  if p.occupied && p.stale gs stationId then { p with occupied := false, trainId := "" }
  else p

/-- The number of pending events of type `maintenance` for a train. -/
def SimulationEngine.pendingMaintenance (eng : SimulationEngine) (trainId : String) : Nat :=
  (eng.eventQueue.filter (fun e => e.type == "maintenance" && e.entityId == trainId)).length

end RailwayManager

/-! ## Concrete scenarios used to exercise the theorems -/

namespace RailwayManager

/-- A passenger train with a full crew and an assigned timetable. -/
def sampleTrain : Train :=
  { id := "T1", assignedDriverId := "D1", assignedConductorId := "K1",
    assignedTimetableId := "TT1",
    units := [{ id := "U1", seats := 80, standingRoom := 20, hasEngine := true,
                isElectric := true, maxSpeed := 120 }] }

/-- A train without a driver. -/
def crewlessTrain : Train := { id := "T1", assignedTimetableId := "TT1" }

/-- A fully crewed, operational train that was never assigned a timetable. -/
def freshTrain : Train :=
  { id := "T2", assignedDriverId := "D1", assignedConductorId := "K1" }

/-- A station with two platforms. -/
def sampleStation : Station :=
  { id := "A", latitude := 52, longitude := 21,
    platforms := [{ number := 1 }, { number := 2 }] }

/-- A single-run timetable from `A` to `B`. -/
def sampleTimetable : Timetable :=
  { id := "TT1", trainId := "T1",
    stops := [{ stationId := "A", arrivalTime := 0, departureTime := 5, platform := 1 },
              { stationId := "B", arrivalTime := 30, departureTime := 32, platform := 2 }],
    validFrom := 0, validTo := 1000 * 86400 * 1000000000 }

/-- An engine whose registry holds `sampleTrain`, `sampleStation`, `sampleTimetable`. -/
def sampleEngine : SimulationEngine :=
  { gameState := { trains := [sampleTrain], stations := [sampleStation, { id := "B" }],
                   timetables := [sampleTimetable] } }

/-- A single-run timetable whose first stop is left 200000000 minutes after the
start of the schedule. -/
def farTimetable : Timetable :=
  { id := "TT1", trainId := "T1",
    stops := [{ stationId := "A", arrivalTime := 0, departureTime := 200000000, platform := 1 },
              { stationId := "B", arrivalTime := 200000030, departureTime := 200000032,
                platform := 2 }],
    validFrom := 0, validTo := 1000 * 86400 * 1000000000 }

/-- The registry of `sampleEngine` with `farTimetable` as the timetable `TT1`. -/
def farEngine : SimulationEngine :=
  { gameState := { trains := [sampleTrain], stations := [sampleStation, { id := "B" }],
                   timetables := [farTimetable] } }

/-- A repeating timetable whose last run is the largest 32-bit `int` and whose
frequency is 1000000000 minutes. -/
def wrapTimetable : Timetable :=
  { sampleTimetable with frequency := 1000000000, firstRun := 0, lastRun := 2147483647 }

/-- A timetable `A`, `B`, `A` with travel times of 0 minutes and dwell times of
200000000 minutes; all stop times are 32-bit `int` values. -/
def longDwellTimetable : Timetable :=
  { id := "TT1", trainId := "T1",
    stops := [{ stationId := "A", arrivalTime := 0, departureTime := 200000000, platform := 1 },
              { stationId := "B", arrivalTime := 200000000, departureTime := 400000000,
                platform := 1 },
              { stationId := "A", arrivalTime := 400000000, departureTime := 600000000,
                platform := 1 }],
    validFrom := 0, validTo := 1000 * 86400 * 1000000000 }

/-- A passenger-flow provider under which nobody boards or alights. -/
def idleAI : PassengerAI :=
  { getWaitingPassengers := fun _ _ => 0, getAlightingPassengers := fun _ _ => 0 }

/-- An engine whose train `T1` runs `longDwellTimetable` and is about to arrive
at `A`: the arrival event is due at clock reading 0. -/
def longDwellEngine : SimulationEngine :=
  { gameState :=
      { trains := [{ sampleTrain with status := TrainStatus.IN_SERVICE, currentSpeed := 96,
                                      currentStationId := "B" }],
        stations := [{ id := "A" }, { id := "B" }],
        timetables := [longDwellTimetable] },
    eventQueue := [{ time := 0, type := "arrival", entityId := "T1", data := "A" }] }

/-- A passenger-flow provider that reports a negative number of waiting
passengers. -/
def negativeAI : PassengerAI :=
  { getWaitingPassengers := fun _ _ => -3, getAlightingPassengers := fun _ _ => 0 }

/-- A passenger-flow provider with constant non-negative answers. -/
def sampleAI : PassengerAI :=
  { getWaitingPassengers := fun _ _ => 30, getAlightingPassengers := fun _ _ => 10 }

/-- The sample timetable restricted to Mondays and Wednesdays. -/
def monWedTimetable : Timetable :=
  { sampleTimetable with
    runningDays := TimetableDays.or TimetableDays.MONDAY TimetableDays.WEDNESDAY }

/-- Midnight UTC of Tuesday 6 January 1970, in clock ticks. -/
def tuesdayDate : Int := 5 * 86400 * 1000000000

/-- Midnight UTC of Monday 5 January 1970, in clock ticks. -/
def mondayDate : Int := 4 * 86400 * 1000000000

/-- A repeating timetable: every 20 minutes from 06:00 to 07:10. -/
def repeatingTimetable : Timetable :=
  { sampleTimetable with frequency := 20, firstRun := 360, lastRun := 430 }

/-- Events queued for the sample engine: a departure, a maintenance start and a
breakdown far in the future. -/
def sampleEvents : List SimulationEvent :=
  [{ time := 50, type := "maintenance", entityId := "T1" },
   { time := 10, type := "departure", entityId := "T1", data := "A" },
   { time := 500, type := "breakdown", entityId := "T1" }]

/-- A second crewed train, running on its own timetable `TT2`. -/
def secondTrain : Train :=
  { id := "T2", assignedDriverId := "D2", assignedConductorId := "K2",
    assignedTimetableId := "TT2" }

/-- A moving train on line `lineId` at the given position. -/
def movingTrain (id lineId : String) (lat lon : Rat) : Train :=
  { id := id, status := TrainStatus.IN_SERVICE, currentSpeed := 50, currentLineId := lineId,
    currentLat := lat, currentLon := lon,
    units := [{ id := id, hasEngine := true, isElectric := true, maxSpeed := 120 }] }

/-- Two trains on line `L1` that are `1 / 256` degrees apart; the coordinates
are `double` values. -/
def nearPairEngine : SimulationEngine :=
  { gameState :=
      { trains := [movingTrain "T1" "L1" 52 21, movingTrain "T2" "L1" 52 (21 + 1 / 256)],
        stations := [sampleStation] },
    activeTrains := ["T1", "T2"] }

/-- Two trains on line `L1`, one at the origin and one at the `double`
coordinates `6917529027641081 / 2 ^ 60` and `1152921504606847 / 2 ^ 57` (the
`double` below the one nearest to 0.006, and the `double` nearest to 0.008):
their distance is a little less than 0.01. -/
def thresholdPairEngine : SimulationEngine :=
  { gameState :=
      { trains := [movingTrain "T1" "L1" (6917529027641081 / 1152921504606846976)
                     (1152921504606847 / 144115188075855872),
                   movingTrain "T2" "L1" 0 0],
        stations := [sampleStation] },
    activeTrains := ["T1", "T2"] }

/-- Four active trains: `T1`, `T2` close together on line `L1`, and `T3`, `T4`
close together on line `L2`. -/
def fourTrainEngine : SimulationEngine :=
  { gameState :=
      { trains := [movingTrain "T1" "L1" 52 21, movingTrain "T2" "L1" 52 (21 + 1 / 1000),
                   movingTrain "T3" "L2" 50 19, movingTrain "T4" "L2" 50 (19 + 1 / 1000)],
        stations := [sampleStation] },
    activeTrains := ["T1", "T2", "T3", "T4"] }

/-- A timetable that calls at station `A` twice: `A`, `B`, `A`, `C`. -/
def loopTimetable : Timetable :=
  { id := "LOOP", trainId := "T1",
    stops := [{ stationId := "A", arrivalTime := 0, departureTime := 0, platform := 1 },
              { stationId := "B", arrivalTime := 10, departureTime := 12, platform := 1 },
              { stationId := "A", arrivalTime := 20, departureTime := 22, platform := 2 },
              { stationId := "C", arrivalTime := 30, departureTime := 30, platform := 1 }] }

/-- An engine whose train runs on `loopTimetable`. -/
def loopEngine : SimulationEngine :=
  { gameState :=
      { trains := [{ sampleTrain with assignedTimetableId := "LOOP",
                                      status := TrainStatus.IN_SERVICE }],
        stations := [sampleStation, { id := "B" }, { id := "C" }],
        timetables := [loopTimetable] } }

/-- The engine of `loopEngine` after the departure of the train from `B` has
been processed and the arrival event it scheduled has been popped. -/
def loopEngineLeftB : SimulationEngine :=
  { loopEngine.handleEventBuilt sampleAI 0
      { time := 0, type := "departure", entityId := "T1", data := "B" } with
    eventQueue := [] }

/-- A round trip `A`, `B`, `A`: the last stop is at the station of the first. -/
def roundTripTimetable : Timetable :=
  { id := "RT", trainId := "T1",
    stops := [{ stationId := "A", arrivalTime := 0, departureTime := 0, platform := 1 },
              { stationId := "B", arrivalTime := 10, departureTime := 12, platform := 1 },
              { stationId := "A", arrivalTime := 20, departureTime := 22, platform := 2 }] }

/-- An engine whose train runs on `roundTripTimetable`. -/
def roundTripEngine : SimulationEngine :=
  { gameState :=
      { trains := [{ sampleTrain with assignedTimetableId := "RT",
                                      status := TrainStatus.IN_SERVICE }],
        stations := [sampleStation, { id := "B" }],
        timetables := [roundTripTimetable] } }

/-- A timetable of the same train as `sampleTimetable`, running from minute 20
to minute 50. -/
def conflictingTimetable : Timetable :=
  { sampleTimetable with
    id := "TT3",
    stops := [{ stationId := "A", arrivalTime := 20, departureTime := 20, platform := 1 },
              { stationId := "B", arrivalTime := 50, departureTime := 52, platform := 2 }] }

/-- A timetable of the same train as `sampleTimetable`, running from minute 31
to minute 60: it starts one minute after the run of `sampleTimetable` ends. -/
def laterTimetable : Timetable :=
  { sampleTimetable with
    id := "TT4",
    stops := [{ stationId := "A", arrivalTime := 31, departureTime := 31, platform := 1 },
              { stationId := "B", arrivalTime := 60, departureTime := 62, platform := 2 }] }

/-- The sample timetable, valid from noon of Monday 5 January 1970. -/
def noonTimetable : Timetable :=
  { sampleTimetable with validFrom := mondayDate + hours 12 }

/-- An engine whose only timetable is `noonTimetable`. -/
def noonEngine : SimulationEngine :=
  { gameState := { timetables := [noonTimetable] } }

/-- An engine with an active repeating timetable and an inactive one. -/
def instancingEngine : SimulationEngine :=
  { gameState :=
      { timetables := [repeatingTimetable,
                       { sampleTimetable with id := "OFF", active := false }] } }

/-- Inputs of one `update` call: components that change nothing, a clock
standing at 0. -/
def quietInputs : SimulationEngine.UpdateInputs :=
  { passengerAI := sampleAI, now := 0, handlerClock := fun _ => 0,
    maintenanceClock := fun _ => 0, timetableDate := 0, wday := utc_wday,
    samples := fun _ => 0, fuel := 1 }

/-- A station whose platform 1 is held by the train `U1`. -/
def busyStation : Station :=
  { id := "A",
    platforms := [{ number := 1, occupied := true, trainId := "U1" }, { number := 2 }] }

/-- A station with three occupied platforms: platform 1 by the sample train,
which is at this station, platform 2 by a train that is not registered, platform
3 by a registered train that is at station `B`. -/
def staleStation : Station :=
  { id := "A",
    platforms := [{ number := 1, occupied := true, trainId := "T1" },
                  { number := 2, occupied := true, trainId := "GONE" },
                  { number := 3, occupied := true, trainId := "T2" }] }

/-- The registry around `staleStation`: `T1` is at `A`, `T2` is at `B`. -/
def staleEngine : SimulationEngine :=
  { gameState :=
      { stations := [staleStation, { id := "B" }],
        trains := [{ sampleTrain with currentStationId := "A" },
                   { secondTrain with currentStationId := "B" }] } }

/-- A timetable whose only stop is left 5 minutes before it is reached. -/
def backwardsStopTimetable : Timetable :=
  { sampleTimetable with
    id := "BACK",
    stops := [{ stationId := "A", arrivalTime := 10, departureTime := 5, platform := 1 }] }

/-- A delayed train of maximum speed 100, worn to condition 1/2, with 50 of 100
places taken. -/
def wornDelayedTrain : Train :=
  { id := "T5", units := [{ seats := 100, maxSpeed := 100 }], condition := 1 / 2,
    currentPassengers := 50, delayMinutes := 3 }

/-- A freshly reset engine whose only train is waiting, worn to condition 3/10. -/
def wornEngine : SimulationEngine :=
  SimulationEngine.reset
    { gameState :=
        { trains := [{ id := "M1", status := TrainStatus.WAITING, condition := 3 / 10 }] } }

/-- The sample engine with its train broken down. -/
def brokenEngine : SimulationEngine :=
  { gameState :=
      { trains := [{ sampleTrain with status := TrainStatus.BROKEN, currentStationId := "A" }],
        stations := [sampleStation, { id := "B" }],
        timetables := [sampleTimetable] } }

/-- A timetable without stops. -/
def emptyTimetable : Timetable := { id := "EMPTY", trainId := "T1" }

/-- A timetable whose first stop is at a station that is not registered. -/
def nowhereTimetable : Timetable :=
  { id := "NOWHERE", trainId := "T1",
    stops := [{ stationId := "Z", arrivalTime := 0, departureTime := 5, platform := 1 }] }

/-- The sample engine with the two timetables above registered as well. -/
def looseEngine : SimulationEngine :=
  { gameState :=
      { trains := [sampleTrain], stations := [sampleStation, { id := "B" }],
        timetables := [sampleTimetable, emptyTimetable, nowhereTimetable] } }

/-- A freshly reset engine whose only train is in service, 7 minutes late. -/
def lateEngine : SimulationEngine :=
  SimulationEngine.reset
    { gameState :=
        { trains := [{ id := "D1", status := TrainStatus.IN_SERVICE, delayMinutes := 7 }] } }

/-- An engine whose only train has no driver. -/
def crewlessEngine : SimulationEngine :=
  { gameState := { trains := [crewlessTrain], stations := [sampleStation],
                   timetables := [sampleTimetable] } }

end RailwayManager

/-! # Theorems -/

namespace RailwayManager

/-! ## Registry lemmas -/

theorem find?_modifyFirst {α : Type} (p : α → Bool) (f : α → α)
    (hf : ∀ x, p (f x) = p x) (l : List α) :
    (modifyFirst p f l).find? p = (l.find? p).map f := by
  induction l with
  | nil => rfl
  | cons x xs ih =>
    by_cases hx : p x = true
    · simp [modifyFirst, hx, List.find?_cons, hf]
    · simp only [Bool.not_eq_true] at hx
      simp [modifyFirst, hx, List.find?_cons, ih]

theorem find?_modifyFirst_other {α : Type} (p q : α → Bool) (f : α → α)
    (hf : ∀ x, q (f x) = q x) (hpq : ∀ x, p x = true → q x = false) (l : List α) :
    (modifyFirst p f l).find? q = l.find? q := by
  induction l with
  | nil => rfl
  | cons x xs ih =>
    by_cases hx : p x = true
    · have h1 : q x = false := hpq x hx
      have h2 : q (f x) = false := by rw [hf, h1]
      simp [modifyFirst, hx, List.find?_cons, h1, h2]
    · simp only [Bool.not_eq_true] at hx
      cases hq : q x <;> simp [modifyFirst, hx, List.find?_cons, hq, ih]

namespace SimulationEngine

theorem getTrain_modifyTrain (eng : SimulationEngine) (trainId : String) (f : Train → Train)
    (hf : ∀ t, (f t).id = t.id) :
    (eng.modifyTrain trainId f).gameState.getTrain trainId =
      (eng.gameState.getTrain trainId).map f := by
  unfold modifyTrain GameState.getTrain
  exact find?_modifyFirst _ f (fun x => by simp [hf]) _

theorem getStation_modifyTrain (eng : SimulationEngine) (trainId : String) (f : Train → Train)
    (stId : String) :
    (eng.modifyTrain trainId f).gameState.getStation stId = eng.gameState.getStation stId :=
  rfl

theorem getTrain_modifyStation (eng : SimulationEngine) (stId : String) (f : Station → Station)
    (trainId : String) :
    (eng.modifyStation stId f).gameState.getTrain trainId = eng.gameState.getTrain trainId :=
  rfl

theorem getStation_modifyStation (eng : SimulationEngine) (stId : String)
    (f : Station → Station) (hf : ∀ s, (f s).id = s.id) :
    (eng.modifyStation stId f).gameState.getStation stId =
      (eng.gameState.getStation stId).map f := by
  unfold modifyStation GameState.getStation
  exact find?_modifyFirst _ f (fun x => by simp [hf]) _

end SimulationEngine

/-! ## C1: event ordering -/

theorem queueTop_mem : ∀ {q : List SimulationEvent} {m : SimulationEvent},
    queueTop q = some m → m ∈ q := by
  intro q
  induction q with
  | nil => intro m h; simp [queueTop] at h
  | cons e es ih =>
    intro m h
    unfold queueTop at h
    cases hq : queueTop es with
    | none =>
      rw [hq] at h
      have : e = m := Option.some.inj h
      rw [this]; exact List.mem_cons_self _ _
    | some m' =>
      rw [hq] at h
      by_cases hg : e.gt m' = true
      · simp only [hg, if_true] at h
        have : m' = m := Option.some.inj h
        rw [← this]; exact List.mem_cons_of_mem _ (ih hq)
      · simp only [hg, if_false] at h
        have : e = m := Option.some.inj h
        rw [this]; exact List.mem_cons_self _ _

theorem queuePop_of_top {q : List SimulationEvent} {m : SimulationEvent}
    (h : queueTop q = some m) : queuePop q = q.erase m := by
  unfold queuePop
  rw [h]

theorem queueWeight_perm {now : Int} {q q' : List SimulationEvent} (h : q.Perm q') :
    queueWeight now q = queueWeight now q' := by
  unfold queueWeight
  exact (h.map _).sum_eq

theorem queueWeight_erase {now : Int} {q : List SimulationEvent} {m : SimulationEvent}
    (h : m ∈ q) : queueWeight now q = dueWeight now m + queueWeight now (q.erase m) := by
  rw [queueWeight_perm (List.perm_cons_erase h)]
  simp [queueWeight]

theorem queueWeight_append (now : Int) (q q' : List SimulationEvent) :
    queueWeight now (q ++ q') = queueWeight now q + queueWeight now q' := by
  simp [queueWeight]

namespace SimulationEngine

theorem eventQueue_alightPassengers (ai : PassengerAI) (eng : SimulationEngine)
    (trainId stationId : String) :
    (eng.alightPassengers ai trainId stationId).eventQueue = eng.eventQueue := by
  unfold alightPassengers
  split <;> rfl

theorem eventQueue_boardPassengers (ai : PassengerAI) (eng : SimulationEngine)
    (trainId stationId : String) :
    (eng.boardPassengers ai trainId stationId).eventQueue = eng.eventQueue := by
  unfold boardPassengers
  split
  · dsimp only
    split <;> rfl
  · rfl

end SimulationEngine

namespace SimulationEngine

theorem minutes_pos {m : Int} (h : 0 < m) : 0 < minutes m := by
  unfold minutes ticksPerSecond
  omega

theorem processTrainArrival_queue (ai : PassengerAI) (c : Int) (eng : SimulationEngine)
    (trainId stationId : String) :
    ∃ fs, (eng.processTrainArrival ai c trainId stationId).eventQueue = eng.eventQueue ++ fs ∧
      (fs = [] ∨ ∃ f, fs = [f] ∧ f.type = "departure" ∧ c < f.time) := by
  unfold processTrainArrival
  cases ht : eng.gameState.getTrain trainId with
  | none => exact ⟨[], by simp, Or.inl rfl⟩
  | some train =>
    cases hs : eng.gameState.getStation stationId with
    | none => exact ⟨[], by simp, Or.inl rfl⟩
    | some station =>
      dsimp only
      cases htt : (eng.modifyTrain trainId
          (fun t => (t.setCurrentSpeed 0).setCurrentStation station.id)).gameState.getTimetable
          train.assignedTimetableId with
      | none =>
        refine ⟨[], ?_, Or.inl rfl⟩
        simp only [eventQueue_boardPassengers, eventQueue_alightPassengers, List.append_nil]
        rfl
      | some tt =>
        dsimp only
        cases hstop : tt.findStop station.id with
        | none =>
          refine ⟨[], ?_, Or.inl rfl⟩
          simp only [eventQueue_boardPassengers, eventQueue_alightPassengers, List.append_nil]
          rfl
        | some stop =>
          dsimp only
          by_cases hd : stop.departureTime > stop.arrivalTime
          · simp only [hd, if_true]
            refine ⟨[{ time := c + minutes (stop.departureTime - stop.arrivalTime),
                       type := "departure", entityId := train.id, data := station.id }],
              ?_, Or.inr ⟨_, rfl, rfl, ?_⟩⟩
            · show (SimulationEngine.boardPassengers ai _ trainId stationId).eventQueue ++ [_] = _
              simp only [eventQueue_boardPassengers, eventQueue_alightPassengers]
              rfl
            · show c < c + minutes (stop.departureTime - stop.arrivalTime)
              have := minutes_pos (show 0 < stop.departureTime - stop.arrivalTime by omega)
              omega
          · simp only [hd, if_false]
            refine ⟨[], ?_, Or.inl rfl⟩
            simp only [eventQueue_boardPassengers, eventQueue_alightPassengers, List.append_nil]
            rfl

theorem processTrainDeparture_queue (c : Int) (eng : SimulationEngine)
    (trainId stationId : String) :
    ∃ fs, (eng.processTrainDeparture c trainId stationId).eventQueue = eng.eventQueue ++ fs ∧
      (fs = [] ∨ ∃ f, fs = [f] ∧ f.type = "arrival") := by
  unfold processTrainDeparture
  cases ht : eng.gameState.getTrain trainId with
  | none => exact ⟨[], by simp, Or.inl rfl⟩
  | some train =>
    cases hs : eng.gameState.getStation stationId with
    | none => exact ⟨[], by simp, Or.inl rfl⟩
    | some station =>
      dsimp only
      cases htt : eng.gameState.getTimetable train.assignedTimetableId with
      | none => exact ⟨[], by simp, Or.inl rfl⟩
      | some tt =>
        dsimp only
        have hfree : ∀ e : SimulationEngine,
            e = (match tt.findStop station.id with
              | some stop => eng.modifyStation stationId (fun s => s.freePlatform stop.platform)
              | none => eng) → e.eventQueue = eng.eventQueue := by
          intro e he
          rw [he]
          cases tt.findStop station.id <;> rfl
        generalize hE : (match tt.findStop station.id with
              | some stop => eng.modifyStation stationId (fun s => s.freePlatform stop.platform)
              | none => eng) = eng1
        have hq1 : eng1.eventQueue = eng.eventQueue := hfree eng1 hE.symm
        split
        · split
          · split
            · rename_i nextStop thisStop _ _ _ _ _
              refine ⟨[{ time := c + minutes (nextStop.arrivalTime - thisStop.departureTime),
                         type := "arrival", entityId := train.id,
                         data := nextStop.stationId }], ?_, Or.inr ⟨_, rfl, rfl⟩⟩
              show eng1.eventQueue ++ [_] = _
              rw [hq1]
            · exact ⟨[], by simp [hq1], Or.inl rfl⟩
          · exact ⟨[], by simp [hq1], Or.inl rfl⟩
        · refine ⟨[], ?_, Or.inl rfl⟩
          show eng1.eventQueue = _
          simp [hq1]

theorem handleEvent_queue (ai : PassengerAI) (c : Int) (eng : SimulationEngine)
    (e : SimulationEvent) :
    ∃ fs, (eng.handleEvent ai c e).eventQueue = eng.eventQueue ++ fs ∧ FollowUps c e fs := by
  unfold handleEvent
  by_cases h1 : e.type = "departure"
  · simp only [h1, if_true]
    split
    · obtain ⟨fs, hq, hfs⟩ := processTrainDeparture_queue c eng e.entityId e.data
      refine ⟨fs, hq, ?_⟩
      rcases hfs with h | ⟨f, hf, hty⟩
      · exact Or.inl h
      · exact Or.inr ⟨f, hf, Or.inl ⟨h1, hty⟩⟩
    · exact ⟨[], by simp, Or.inl rfl⟩
  · simp only [h1, if_false]
    by_cases h2 : e.type = "arrival"
    · simp only [h2, if_true]
      split
      · obtain ⟨fs, hq, hfs⟩ := processTrainArrival_queue ai c eng e.entityId e.data
        refine ⟨fs, hq, ?_⟩
        rcases hfs with h | ⟨f, hf, hty, hlt⟩
        · exact Or.inl h
        · exact Or.inr ⟨f, hf, Or.inr ⟨h2, hty, hlt⟩⟩
      · exact ⟨[], by simp, Or.inl rfl⟩
    · simp only [h2, if_false]
      by_cases h3 : e.type = "maintenance"
      · simp only [h3, if_true]
        split
        · exact ⟨[], by simp [modifyTrain], Or.inl rfl⟩
        · exact ⟨[], by simp, Or.inl rfl⟩
      · simp only [h3, if_false]
        by_cases h4 : e.type = "breakdown"
        · simp only [h4, if_true]
          split
          · exact ⟨[], by simp [handleTrainBreakdown, modifyTrain], Or.inl rfl⟩
          · exact ⟨[], by simp, Or.inl rfl⟩
        · simp only [h4, if_false]
          exact ⟨[], by simp, Or.inl rfl⟩

end SimulationEngine

theorem dueWeight_pos {now : Int} {m : SimulationEvent} (h : m.time ≤ now) :
    1 ≤ dueWeight now m := by
  unfold dueWeight
  simp only [h, if_true]
  split <;> decide

theorem followUps_weight {now c : Int} {m : SimulationEvent} {fs : List SimulationEvent}
    (hc : now ≤ c) (hm : m.time ≤ now) (h : FollowUps c m fs) :
    queueWeight now fs + 1 ≤ dueWeight now m := by
  rcases h with h | ⟨f, hf, h | h⟩
  · rw [h]
    exact dueWeight_pos hm
  · have hne : f.type ≠ "departure" := by rw [h.2]; decide
    rw [hf]
    unfold queueWeight dueWeight
    simp only [List.map_cons, List.map_nil, List.sum_cons, List.sum_nil, hm, h.1, hne, if_true,
      if_false]
    split <;> omega
  · have hnd : ¬ f.time ≤ now := by omega
    rw [hf]
    unfold queueWeight dueWeight
    simp only [List.map_cons, List.map_nil, List.sum_cons, List.sum_nil, hm, hnd, if_true,
      if_false]
    split <;> omega

namespace SimulationEngine

theorem processEventsLoop_mono (ai : PassengerAI) (now : Int) (clock : Nat → Int) :
    ∀ (fuel : Nat) (eng : SimulationEngine) (handled : List SimulationEvent)
      (r : SimulationEngine × List SimulationEvent),
      processEventsLoop ai now clock fuel eng handled = some r →
      ∀ fuel', fuel ≤ fuel' → processEventsLoop ai now clock fuel' eng handled = some r := by
  intro fuel
  induction fuel with
  | zero => intro eng handled r h; simp [processEventsLoop] at h
  | succ fuel ih =>
    intro eng handled r h fuel' hle
    cases fuel' with
    | zero => omega
    | succ fuel' =>
      unfold processEventsLoop at h ⊢
      cases hq : queueTop eng.eventQueue with
      | none => rw [hq] at h; exact h
      | some m =>
        rw [hq] at h
        dsimp only at h ⊢
        by_cases hdue : m.time ≤ now
        · simp only [hdue, if_true] at h ⊢
          exact ih _ _ _ h fuel' (by omega)
        · simp only [hdue, if_false] at h ⊢
          exact h

end SimulationEngine

/-- C2. For a registered train whose condition is below 0.1, or whose status is
Broken, or that lacks its required crew, `dispatchTrain` changes nothing at all
for any timetable id: the train (status and assigned timetable included) and the
event queue are as before. -/
theorem dispatchTrain_precondition_failure (now : Int) (eng : SimulationEngine)
    (trainId timetableId : String) (train : Train)
    (hreg : eng.gameState.getTrain trainId = some train)
    (hbad : train.condition < 1 / 10 ∨ train.status = TrainStatus.BROKEN ∨
      train.hasRequiredCrew = false) :
    (eng.dispatchTrain now trainId timetableId).gameState.getTrain trainId = some train ∧
    (eng.dispatchTrain now trainId timetableId).eventQueue = eng.eventQueue ∧
    eng.dispatchTrain now trainId timetableId = eng := by
  have hcd : train.canDepart = false := by
    unfold Train.canDepart Train.isOperational f0_1
    rcases hbad with h | h | h
    · have hc : decide (train.condition > 1 / 10) = false :=
        decide_eq_false (not_lt.mpr (le_of_lt h))
      rw [hc]
      simp
    · simp [h]
    · simp [h]
  have key : eng.dispatchTrain now trainId timetableId = eng := by
    unfold SimulationEngine.dispatchTrain
    rw [hreg]
    cases eng.gameState.getTimetable timetableId with
    | none => rfl
    | some tt => simp [hcd]
  rw [key]
  exact ⟨hreg, rfl, rfl⟩

/-- Witness for C2: a registered train without a driver is not dispatched. -/
theorem dispatchTrain_precondition_failure_witness :
    (crewlessEngine.dispatchTrain 0 "T1" "TT1").gameState.getTrain "T1" = some crewlessTrain ∧
    (crewlessEngine.dispatchTrain 0 "T1" "TT1").eventQueue = crewlessEngine.eventQueue ∧
    crewlessEngine.dispatchTrain 0 "T1" "TT1" = crewlessEngine :=
  dispatchTrain_precondition_failure 0 crewlessEngine "T1" "TT1" crewlessTrain
    (by decide) (Or.inr (Or.inr (by decide)))

/-! ## C3: successful dispatch -/

theorem int32_eq (x : Int) (h : -2147483648 ≤ x ∧ x ≤ 2147483647) : int32 x = x := by
  unfold int32
  omega

theorem int64_eq (x : Int)
    (h : -9223372036854775808 ≤ x ∧ x ≤ 9223372036854775807) : int64 x = x := by
  unfold int64
  omega

theorem addMinutes_eq (tp m : Int)
    (hm : -153722867 ≤ m ∧ m ≤ 153722867)
    (hsum : -9223372036854775808 ≤ tp + minutes m ∧ tp + minutes m ≤ 9223372036854775807) :
    addMinutes tp m = tp + minutes m := by
  unfold addMinutes
  rw [int64_eq (minutes m) (by unfold minutes ticksPerSecond; omega), int64_eq _ hsum]

/-- C3 (counterexample). The registered train `T1` has `canDepart()` true and the
registered timetable `TT1` has its first stop, with departure time 200000000, at
the registered station `A`. `dispatchTrain` at clock reading 0 queues the
departure event at tick -6446744073709551616, before the clock reading, and not
at 200000000 minutes (12000000000000000000 ticks) after it: the 64-bit tick
count of the minutes has wrapped around. -/
theorem dispatchTrain_event_time_counterexample :
    (farEngine.gameState.getTrain "T1").map (fun t => t.canDepart) = some true ∧
    (farEngine.gameState.getTimetable "TT1").map (fun tt => tt.stops.head?) =
      some (some { stationId := "A", arrivalTime := 0, departureTime := 200000000,
                   platform := 1 }) ∧
    (farEngine.gameState.getStation "A").isSome = true ∧
    (farEngine.dispatchTrain 0 "T1" "TT1").eventQueue =
      [{ time := -6446744073709551616, type := "departure", entityId := "T1", data := "A" }] ∧
    (farEngine.dispatchTrain 0 "T1" "TT1").eventQueue ≠
      [{ time := 0 + minutes 200000000, type := "departure", entityId := "T1", data := "A" }] ∧
    0 + minutes 200000000 = 12000000000000000000 := by
  decide!

/-- C3 (amended). For a registered train with `canDepart()` true and a registered
timetable whose first stop is at a registered station, with a departure time of
at most 153722867 minutes in absolute value (so that the minutes fit the 64-bit
tick count) and `now + firstStop.departureTime` minutes within the range of the
clock, `dispatchTrain` sets the train's assigned timetable to the given id, its
status to InService, its position to the coordinates of the first stop's station
and its current station to that station, and appends exactly one event to the
queue: a departure event for that train and station at
`now + firstStop.departureTime` minutes. -/
theorem dispatchTrain_success (now : Int) (eng : SimulationEngine)
    (trainId timetableId : String) (train : Train) (tt : Timetable)
    (stop0 : TimetableStop) (rest : List TimetableStop) (st : Station)
    (hreg : eng.gameState.getTrain trainId = some train)
    (hcan : train.canDepart = true)
    (htt : eng.gameState.getTimetable timetableId = some tt)
    (hstops : tt.stops = stop0 :: rest)
    (hst : eng.gameState.getStation stop0.stationId = some st)
    (hm : -153722867 ≤ stop0.departureTime ∧ stop0.departureTime ≤ 153722867)
    (hsum : -9223372036854775808 ≤ now + minutes stop0.departureTime ∧
      now + minutes stop0.departureTime ≤ 9223372036854775807) :
    (eng.dispatchTrain now trainId timetableId).gameState.getTrain trainId =
      some { train with
        assignedTimetableId := timetableId,
        status := TrainStatus.IN_SERVICE,
        currentLat := st.latitude,
        currentLon := st.longitude,
        currentStationId := stop0.stationId } ∧
    (eng.dispatchTrain now trainId timetableId).eventQueue =
      eng.eventQueue ++
        [{ time := now + minutes stop0.departureTime,
           type := "departure",
           entityId := trainId,
           data := stop0.stationId }] := by
  unfold SimulationEngine.dispatchTrain
  rw [hreg, htt]
  simp only [hcan, Bool.not_true, Bool.false_eq_true, if_false, hstops,
    SimulationEngine.getStation_modifyTrain, hst]
  constructor
  · show ((eng.modifyTrain trainId _).modifyTrain trainId _).gameState.getTrain trainId = _
    rw [SimulationEngine.getTrain_modifyTrain, SimulationEngine.getTrain_modifyTrain, hreg]
    · rfl
    · intro t; rfl
    · intro t; rfl
  · rw [← addMinutes_eq now stop0.departureTime hm hsum]
    rfl

/-- Witness for C3: dispatching `sampleTrain` on `sampleTimetable`. -/
theorem dispatchTrain_success_witness :
    (sampleEngine.dispatchTrain 7 "T1" "TT1").gameState.getTrain "T1" =
      some { sampleTrain with
        assignedTimetableId := "TT1",
        status := TrainStatus.IN_SERVICE,
        currentLat := sampleStation.latitude,
        currentLon := sampleStation.longitude,
        currentStationId := "A" } ∧
    (sampleEngine.dispatchTrain 7 "T1" "TT1").eventQueue =
      sampleEngine.eventQueue ++
        [{ time := 7 + minutes 5, type := "departure", entityId := "T1", data := "A" }] :=
  dispatchTrain_success 7 sampleEngine "T1" "TT1" sampleTrain sampleTimetable
    { stationId := "A", arrivalTime := 0, departureTime := 5, platform := 1 }
    [{ stationId := "B", arrivalTime := 30, departureTime := 32, platform := 2 }]
    sampleStation (by decide) (by decide!) (by decide) (by decide) (by decide)
    (by decide) (by decide)

/-! ## C4: departure eligibility -/

/-- C4 (counterexample). A fully crewed, operational, electric train that has no
assigned timetable meets the three stated conditions and still has `canDepart()`
false. -/
theorem canDepart_three_conditions_counterexample :
    ¬ (freshTrain.canDepart = true ↔
        (freshTrain.isOperational = true ∧ freshTrain.hasRequiredCrew = true ∧
          (freshTrain.isElectric = true ∨ freshTrain.fuelLevel > 1 / 10))) := by
  have h1 : freshTrain.canDepart = false := by decide!
  have h2 : freshTrain.isOperational = true := by decide!
  have h3 : freshTrain.hasRequiredCrew = true := by decide
  have h4 : freshTrain.isElectric = true := by decide
  intro h
  have := h.mpr ⟨h2, h3, Or.inl h4⟩
  rw [h1] at this
  exact Bool.noConfusion this

/-- C4 (amended). `canDepart()` is true exactly when the train is operational
(status neither Broken nor Maintenance and condition above 0.1), has its required
crew (a driver, plus a conductor unless the type is Freight or Maintenance), is
electric or has a fuel level above 10%, and has a non-empty assigned timetable
id. -/
theorem canDepart_iff (t : Train) :
    t.canDepart = true ↔
      ((t.status ≠ TrainStatus.BROKEN ∧ t.status ≠ TrainStatus.MAINTENANCE ∧
          t.condition > 1 / 10) ∧
        (t.assignedDriverId ≠ "" ∧
          (t.type = TrainType.FREIGHT ∨ t.type = TrainType.MAINTENANCE ∨
            t.assignedConductorId ≠ "")) ∧
        (t.isElectric = true ∨ t.fuelLevel > 1 / 10) ∧
        t.assignedTimetableId ≠ "") := by
  unfold Train.canDepart Train.isOperational Train.hasRequiredCrew f0_1
  by_cases hd : t.assignedDriverId = ""
  · simp [hd]
  · by_cases hf : t.type = TrainType.FREIGHT
    · simp [hd, hf]
      tauto
    · by_cases hm : t.type = TrainType.MAINTENANCE
      · simp [hd, hm]
        tauto
      · simp [hd, hf, hm]
        tauto

/-! ## Registry lemmas: the other entries -/

namespace SimulationEngine

theorem getStation_modifyStation_other (eng : SimulationEngine) (stationId other : String)
    (f : Station → Station) (hf : ∀ s, (f s).id = s.id) (hne : other ≠ stationId) :
    (eng.modifyStation stationId f).gameState.getStation other =
      eng.gameState.getStation other := by
  unfold modifyStation GameState.getStation
  refine find?_modifyFirst_other _ _ f (fun x => by simp [hf]) ?_ _
  intro x hx
  have hx' : x.id = stationId := by simpa using hx
  simp only [beq_eq_false_iff_ne, ne_eq]
  intro h
  exact hne (h.symm.trans hx')

end SimulationEngine

/-! ## C6: capacity invariant -/

namespace SimulationEngine

theorem getTrain_alightPassengers (ai : PassengerAI) (eng : SimulationEngine)
    (trainId stationId : String) (train : Train) (station : Station)
    (ht : eng.gameState.getTrain trainId = some train)
    (hs : eng.gameState.getStation stationId = some station) :
    (eng.alightPassengers ai trainId stationId).gameState.getTrain trainId =
      some (train.alightPassengers (ai.getAlightingPassengers train station)) := by
  unfold alightPassengers
  rw [ht, hs]
  show ((eng.modifyTrain trainId _).modifyStation stationId _).gameState.getTrain trainId = _
  rw [getTrain_modifyStation, getTrain_modifyTrain, ht]
  · rfl
  · intro t; rfl

theorem getStation_alightPassengers (ai : PassengerAI) (eng : SimulationEngine)
    (trainId stationId : String) (train : Train) (station : Station)
    (ht : eng.gameState.getTrain trainId = some train)
    (hs : eng.gameState.getStation stationId = some station) :
    (eng.alightPassengers ai trainId stationId).gameState.getStation stationId =
      some (station.addPassengers (ai.getAlightingPassengers train station)) := by
  unfold alightPassengers
  rw [ht, hs]
  show ((eng.modifyTrain trainId _).modifyStation stationId _).gameState.getStation stationId = _
  rw [getStation_modifyStation, getStation_modifyTrain, hs]
  · rfl
  · intro t; rfl

theorem getTrain_boardPassengers (ai : PassengerAI) (eng : SimulationEngine)
    (trainId stationId : String) (train : Train) (station : Station)
    (ht : eng.gameState.getTrain trainId = some train)
    (hs : eng.gameState.getStation stationId = some station) :
    (eng.boardPassengers ai trainId stationId).gameState.getTrain trainId =
      some (if train.getTotalCapacity - train.currentPassengers ≤ 0 then train
        else train.boardPassengers
          (min (train.getTotalCapacity - train.currentPassengers)
            (ai.getWaitingPassengers station train))) := by
  unfold boardPassengers
  rw [ht, hs]
  by_cases h : train.getTotalCapacity - train.currentPassengers ≤ 0
  · simp only [h, if_true]
    exact ht
  · simp only [h, if_false]
    show ((eng.modifyTrain trainId _).modifyStation stationId _).gameState.getTrain trainId = _
    rw [getTrain_modifyStation, getTrain_modifyTrain, ht]
    · rfl
    · intro t; rfl

end SimulationEngine

/-- C6 (counterexample). With a passenger-flow provider that reports a negative
number of waiting passengers, an empty train of capacity 100 ends
`alightPassengers` followed by `boardPassengers` with -3 passengers on board. -/
theorem engine_boarding_bounds_counterexample :
    sampleEngine.gameState.getTrain "T1" = some sampleTrain ∧
    0 ≤ sampleTrain.currentPassengers ∧
    sampleTrain.currentPassengers ≤ sampleTrain.getTotalCapacity ∧
    (((sampleEngine.alightPassengers negativeAI "T1" "A").boardPassengers negativeAI "T1" "A"
      ).gameState.getTrain "T1").map (fun t => t.currentPassengers) = some (-3) := by
  decide

/-- C6 (amended). For a train with `0 <= currentPassengers <= getTotalCapacity()`
and any integer count, `Train::boardPassengers` leaves `currentPassengers` at most
the capacity and `Train::alightPassengers` leaves it at least 0; and when the
passenger-flow provider returns non-negative counts, both bounds hold for the
registered train after `SimulationEngine::alightPassengers` followed by
`SimulationEngine::boardPassengers`. -/
theorem capacity_invariant (ai : PassengerAI) (eng : SimulationEngine)
    (trainId stationId : String) (train : Train) (count : Int)
    (hreg : eng.gameState.getTrain trainId = some train)
    (h0 : 0 ≤ train.currentPassengers)
    (h1 : train.currentPassengers ≤ train.getTotalCapacity)
    (hw : ∀ s t, 0 ≤ ai.getWaitingPassengers s t)
    (ha : ∀ t s, 0 ≤ ai.getAlightingPassengers t s) :
    (train.boardPassengers count).currentPassengers ≤
        (train.boardPassengers count).getTotalCapacity ∧
    0 ≤ (train.alightPassengers count).currentPassengers ∧
    ∃ train',
      ((eng.alightPassengers ai trainId stationId).boardPassengers ai trainId stationId
        ).gameState.getTrain trainId = some train' ∧
      0 ≤ train'.currentPassengers ∧
      train'.currentPassengers ≤ train'.getTotalCapacity ∧
      train'.getTotalCapacity = train.getTotalCapacity := by
  refine ⟨?_, ?_, ?_⟩
  · show train.currentPassengers + min count (train.getTotalCapacity - train.currentPassengers)
      ≤ train.getTotalCapacity
    have := min_le_right count (train.getTotalCapacity - train.currentPassengers)
    omega
  · exact le_max_left 0 _
  · cases hs : eng.gameState.getStation stationId with
    | none =>
      refine ⟨train, ?_, h0, h1, rfl⟩
      have e1 : eng.alightPassengers ai trainId stationId = eng := by
        unfold SimulationEngine.alightPassengers
        rw [hreg, hs]
      have e2 : eng.boardPassengers ai trainId stationId = eng := by
        unfold SimulationEngine.boardPassengers
        rw [hreg, hs]
      rw [e1, e2]
      exact hreg
    | some station =>
      have ht1 := SimulationEngine.getTrain_alightPassengers ai eng trainId stationId
        train station hreg hs
      have hs1 := SimulationEngine.getStation_alightPassengers ai eng trainId stationId
        train station hreg hs
      have ht2 := SimulationEngine.getTrain_boardPassengers ai _ trainId stationId _ _ ht1 hs1
      refine ⟨_, ht2, ?_⟩
      have hA := ha train station
      generalize ai.getAlightingPassengers train station = a at *
      have hcap : (train.alightPassengers a).getTotalCapacity = train.getTotalCapacity := rfl
      have hcur : (train.alightPassengers a).currentPassengers =
          max 0 (train.currentPassengers - a) := rfl
      have hW := hw (station.addPassengers a) (train.alightPassengers a)
      generalize ai.getWaitingPassengers (station.addPassengers a)
        (train.alightPassengers a) = w at *
      have hm : max 0 (train.currentPassengers - a) ≤ train.currentPassengers :=
        max_le h0 (by omega)
      have hm0 : 0 ≤ max 0 (train.currentPassengers - a) := le_max_left 0 _
      by_cases hfull : (train.alightPassengers a).getTotalCapacity -
          (train.alightPassengers a).currentPassengers ≤ 0
      · simp only [hfull, if_true]
        rw [hcur, hcap]
        exact ⟨hm0, le_trans hm h1, rfl⟩
      · simp only [hfull, if_false]
        rw [hcap, hcur] at hfull
        show 0 ≤ (train.alightPassengers a).currentPassengers + min _ _ ∧
          (train.alightPassengers a).currentPassengers + min _ _ ≤ train.getTotalCapacity ∧ _
        rw [hcur, hcap]
        generalize max 0 (train.currentPassengers - a) = c at *
        have hb : 0 ≤ min (train.getTotalCapacity - c) w := le_min (by omega) hW
        have hb2 : min (min (train.getTotalCapacity - c) w) (train.getTotalCapacity - c) ≤
            train.getTotalCapacity - c := min_le_right _ _
        have hb3 : 0 ≤ min (min (train.getTotalCapacity - c) w) (train.getTotalCapacity - c) :=
          le_min hb (by omega)
        refine ⟨by omega, by omega, rfl⟩

/-- Witness for C6: `sampleTrain` at station `A` with a well-behaved provider. -/
theorem capacity_invariant_witness :
    (sampleTrain.boardPassengers 500).currentPassengers ≤
        (sampleTrain.boardPassengers 500).getTotalCapacity ∧
    0 ≤ (sampleTrain.alightPassengers 500).currentPassengers ∧
    ∃ train',
      ((sampleEngine.alightPassengers sampleAI "T1" "A").boardPassengers sampleAI "T1" "A"
        ).gameState.getTrain "T1" = some train' ∧
      0 ≤ train'.currentPassengers ∧
      train'.currentPassengers ≤ train'.getTotalCapacity ∧
      train'.getTotalCapacity = sampleTrain.getTotalCapacity :=
  capacity_invariant sampleAI sampleEngine "T1" "A" sampleTrain 500 (by decide) (by decide)
    (by decide) (fun _ _ => show (0 : Int) ≤ 30 by decide) (fun _ _ => show (0 : Int) ≤ 10 by decide)

/-! ## C7: weekday and validity filter -/

/-- C7. If the date is outside `[validFrom, validTo]`, or the weekday of the date
is not in the running-days bitmask, `createInstance(date)` returns with the
timetable unchanged: no instance is added and `totalRuns` keeps its value. -/
theorem createInstance_filtered (wday : Int → Int) (fuel : Nat) (tt : Timetable) (date : Int)
    (h : tt.isValidOn date = false ∨ tt.runsOnDay (wday (to_time_t date)) = false) :
    ∃ tt', tt.createInstance wday fuel date = some tt' ∧
      tt'.instances = tt.instances ∧
      tt'.statistics.totalRuns = tt.statistics.totalRuns ∧
      tt' = tt := by
  refine ⟨tt, ?_, rfl, rfl, rfl⟩
  unfold Timetable.createInstance
  rcases h with h | h
  · simp [h]
  · by_cases hv : tt.isValidOn date = true
    · simp [hv, h]
    · simp only [Bool.not_eq_true] at hv
      simp [hv]

/-- Witness for C7: a Monday/Wednesday timetable on a Tuesday. -/
theorem createInstance_filtered_witness :
    ∃ tt', monWedTimetable.createInstance utc_wday 0 tuesdayDate = some tt' ∧
      tt'.instances = monWedTimetable.instances ∧
      tt'.statistics.totalRuns = monWedTimetable.statistics.totalRuns ∧
      tt' = monWedTimetable :=
  createInstance_filtered utc_wday 0 monWedTimetable tuesdayDate (Or.inr (by decide!))

/-! ## C9: weekday convention of `runsOnDay` -/

theorem nat_land_two_pow_ne_zero (a k : Nat) : a &&& 2 ^ k ≠ 0 ↔ a.testBit k = true := by
  rw [Nat.and_two_pow]
  cases h : a.testBit k <;> simp

theorem nat_ldiff_two_pow_ne_zero (a k : Nat) :
    Nat.ldiff (2 ^ k) a ≠ 0 ↔ a.testBit k = false := by
  constructor
  · intro h
    by_contra hk
    apply h
    apply Nat.eq_of_testBit_eq
    intro i
    rw [Nat.testBit_ldiff, Nat.testBit_two_pow, Nat.zero_testBit]
    by_cases hi : k = i
    · subst hi; simp at hk; simp [hk]
    · simp [hi]
  · intro h h0
    have := congrArg (fun n => Nat.testBit n k) h0
    simp [Nat.testBit_ldiff, Nat.testBit_two_pow, h] at this

theorem int_land_two_pow_ne_zero (m : Int) (k : Nat) :
    Int.land m ((2 ^ k : Nat) : Int) ≠ 0 ↔ m.testBit k = true := by
  cases m with
  | ofNat a =>
    show ((a &&& 2 ^ k : Nat) : Int) ≠ 0 ↔ a.testBit k = true
    rw [← nat_land_two_pow_ne_zero]
    exact Int.natCast_ne_zero
  | negSucc a =>
    show ((Nat.ldiff (2 ^ k) a : Nat) : Int) ≠ 0 ↔ (!a.testBit k) = true
    rw [Int.natCast_ne_zero, nat_ldiff_two_pow_ne_zero]
    simp

theorem decide_land_two_pow (m : Int) (k : Nat) :
    decide (TimetableDays.and m ((2 ^ k : Nat) : Int) ≠ TimetableDays.NONE) = m.testBit k := by
  have h := int_land_two_pow_ne_zero m k
  unfold TimetableDays.and TimetableDays.NONE
  cases hb : m.testBit k
  · rw [hb] at h
    exact decide_eq_false (fun hne => Bool.noConfusion (h.mp hne))
  · exact decide_eq_true (h.mpr hb)

/-- C9. With Sunday = 0, Monday = 1, ..., Saturday = 6, `runsOnDay(dayOfWeek)` is
the bit of that weekday in the running-days bitmask (the enumerators being
MONDAY = bit 0, ..., SATURDAY = bit 5, SUNDAY = bit 6), and it is false for every
`dayOfWeek` outside 0..6. -/
theorem runsOnDay_weekday_convention (tt : Timetable) :
    (TimetableDays.MONDAY = 2 ^ 0 ∧ TimetableDays.TUESDAY = 2 ^ 1 ∧
      TimetableDays.WEDNESDAY = 2 ^ 2 ∧ TimetableDays.THURSDAY = 2 ^ 3 ∧
      TimetableDays.FRIDAY = 2 ^ 4 ∧ TimetableDays.SATURDAY = 2 ^ 5 ∧
      TimetableDays.SUNDAY = 2 ^ 6) ∧
    tt.runsOnDay 0 = tt.runningDays.testBit 6 ∧
    tt.runsOnDay 1 = tt.runningDays.testBit 0 ∧
    tt.runsOnDay 2 = tt.runningDays.testBit 1 ∧
    tt.runsOnDay 3 = tt.runningDays.testBit 2 ∧
    tt.runsOnDay 4 = tt.runningDays.testBit 3 ∧
    tt.runsOnDay 5 = tt.runningDays.testBit 4 ∧
    tt.runsOnDay 6 = tt.runningDays.testBit 5 ∧
    (∀ dayOfWeek : Int, (dayOfWeek < 0 ∨ 6 < dayOfWeek) → tt.runsOnDay dayOfWeek = false) := by
  have e0 := decide_land_two_pow tt.runningDays 6
  have e1 := decide_land_two_pow tt.runningDays 0
  have e2 := decide_land_two_pow tt.runningDays 1
  have e3 := decide_land_two_pow tt.runningDays 2
  have e4 := decide_land_two_pow tt.runningDays 3
  have e5 := decide_land_two_pow tt.runningDays 4
  have e6 := decide_land_two_pow tt.runningDays 5
  refine ⟨by decide, e0, e1, e2, e3, e4, e5, e6, ?_⟩
  · intro d hd
    unfold Timetable.runsOnDay
    have h0 : d ≠ 0 := by omega
    have h1 : d ≠ 1 := by omega
    have h2 : d ≠ 2 := by omega
    have h3 : d ≠ 3 := by omega
    have h4 : d ≠ 4 := by omega
    have h5 : d ≠ 5 := by omega
    have h6 : d ≠ 6 := by omega
    simp [h0, h1, h2, h3, h4, h5, h6]

/-- Witness for C9: day 7 is no weekday, and the Monday/Wednesday timetable runs
on day 1 and not on day 2. -/
theorem runsOnDay_weekday_convention_witness :
    monWedTimetable.runsOnDay 7 = false ∧
    monWedTimetable.runsOnDay 1 = monWedTimetable.runningDays.testBit 0 ∧
    monWedTimetable.runsOnDay 2 = monWedTimetable.runningDays.testBit 1 :=
  ⟨(runsOnDay_weekday_convention monWedTimetable).2.2.2.2.2.2.2.2 7 (Or.inr (by decide)),
   (runsOnDay_weekday_convention monWedTimetable).2.2.1,
   (runsOnDay_weekday_convention monWedTimetable).2.2.2.1⟩

/-! ## C8: number of instances created -/

namespace Timetable

theorem departureTimesLoop_spec (lastRun f : Int) (hf : 0 < f) :
    ∀ (fuel : Nat) (time : Int) (acc : List Int),
      (if time ≤ lastRun then ((lastRun - time) / f + 1).toNat else 0) < fuel →
      departureTimesLoop lastRun f fuel time acc =
        some (acc ++ (List.range
          (if time ≤ lastRun then ((lastRun - time) / f + 1).toNat else 0)).map
            (fun (i : Nat) => time + (i : Int) * f)) := by
  intro fuel
  induction fuel with
  | zero => intro time acc h; exact absurd h (Nat.not_lt_zero _)
  | succ fuel ih =>
    intro time acc h
    unfold departureTimesLoop
    by_cases hle : time ≤ lastRun
    · simp only [hle, if_true] at h ⊢
      have hq : 0 ≤ (lastRun - time) / f := Int.ediv_nonneg (by omega) (le_of_lt hf)
      have hstep : (if time + f ≤ lastRun then ((lastRun - (time + f)) / f + 1).toNat else 0) + 1
          = ((lastRun - time) / f + 1).toNat := by
        by_cases hle2 : time + f ≤ lastRun
        · simp only [hle2, if_true]
          have e : lastRun - (time + f) = (lastRun - time) + (-1) * f := by ring
          rw [e, Int.add_mul_ediv_right _ _ (ne_of_gt hf)]
          omega
        · simp only [hle2, if_false]
          have : (lastRun - time) / f = 0 :=
            Int.ediv_eq_zero_of_lt (by omega) (by omega)
          rw [this]
          rfl
      rw [← hstep] at h ⊢
      rw [ih (time + f) (acc ++ [time]) (by omega)]
      rw [List.range_succ_eq_map, List.map_cons, List.map_map, List.append_assoc]
      congr 2
      simp only [List.singleton_append, Nat.cast_zero, zero_mul, add_zero, List.cons.injEq,
        true_and]
      apply List.map_congr_left
      intro i _
      simp only [Function.comp, Nat.succ_eq_add_one, Nat.cast_add, Nat.cast_one]
      ring
    · simp [hle]

theorem foldl_addInstance (date : Int) (ts : List Int) :
    ∀ tt : Timetable,
      ts.foldl (addInstance date) tt =
        { tt with
          instances := tt.instances ++ ts.map (tt.newInstance date),
          statistics := { tt.statistics with
            totalRuns := tt.statistics.totalRuns + (ts.length : Int) } } := by
  induction ts with
  | nil => intro tt; simp
  | cons t ts ih =>
    intro tt
    rw [List.foldl_cons, ih]
    have e : (addInstance date tt t).newInstance date = tt.newInstance date := rfl
    rw [e]
    simp only [addInstance, List.map_cons, List.append_assoc, List.singleton_append,
      List.length_cons, Nat.cast_add, Nat.cast_one]
    congr 2
    ring

end Timetable

/-- Instance count with exact integers: the instances that `createInstance`
appends when neither the loop counter nor `totalRuns` is bounded. -/
theorem createInstance_exact (wday : Int → Int) (tt : Timetable) (date : Int)
    (hv : tt.isValidOn date = true)
    (hr : tt.runsOnDay (wday (to_time_t date)) = true) :
    (tt.frequency = 0 → ∀ (s : TimetableStop) (rest : List TimetableStop),
      tt.stops = s :: rest → ∀ fuel : Nat,
        tt.createInstance wday fuel date = some
          { tt with
            instances := tt.instances ++
              [{ id := Timetable.instanceId tt.id date s.departureTime,
                 date := date,
                 actualDepartureTime := s.departureTime,
                 delay := 0,
                 cancelled := false,
                 trainId := tt.trainId }],
            statistics := { tt.statistics with totalRuns := tt.statistics.totalRuns + 1 } }) ∧
    (0 < tt.frequency → tt.firstRun ≤ tt.lastRun →
      ∃ n : Nat, (n : Int) = (tt.lastRun - tt.firstRun) / tt.frequency + 1 ∧
        (∀ i : Nat, i < n → tt.firstRun + (i : Int) * tt.frequency ≤ tt.lastRun) ∧
        ∀ fuel : Nat, n < fuel →
          tt.createInstance wday fuel date = some
            { tt with
              instances := tt.instances ++
                (List.range n).map (fun (i : Nat) =>
                  { id := Timetable.instanceId tt.id date (tt.firstRun + (i : Int) * tt.frequency),
                    date := date,
                    actualDepartureTime := tt.firstRun + (i : Int) * tt.frequency,
                    delay := 0,
                    cancelled := false,
                    trainId := tt.trainId }),
              statistics := { tt.statistics with
                totalRuns := tt.statistics.totalRuns + (n : Int) } }) := by
  constructor
  · intro hfreq s rest hstops fuel
    have hrun : tt.createInstance wday fuel date =
        some ([s.departureTime].foldl (Timetable.addInstance date) tt) := by
      unfold Timetable.createInstance Timetable.getDepartureTimes
      simp only [hv, hr, hfreq, hstops, Bool.not_true, Bool.false_eq_true, if_false, if_true]
    rw [hrun]
    rfl
  · intro hfreq hle
    have hq : 0 ≤ (tt.lastRun - tt.firstRun) / tt.frequency :=
      Int.ediv_nonneg (by omega) (le_of_lt hfreq)
    refine ⟨((tt.lastRun - tt.firstRun) / tt.frequency + 1).toNat, by omega, ?_, ?_⟩
    · intro i hi
      have hi' : (i : Int) ≤ (tt.lastRun - tt.firstRun) / tt.frequency := by omega
      have h1 : (i : Int) * tt.frequency ≤
          (tt.lastRun - tt.firstRun) / tt.frequency * tt.frequency :=
        mul_le_mul_of_nonneg_right hi' (le_of_lt hfreq)
      have h2 := Int.ediv_mul_le (tt.lastRun - tt.firstRun) (ne_of_gt hfreq)
      omega
    · intro fuel hfuel
      have hne : tt.frequency ≠ 0 := ne_of_gt hfreq
      have hloop := Timetable.departureTimesLoop_spec tt.lastRun tt.frequency hfreq fuel
        tt.firstRun [] (by simp only [hle, if_true]; exact hfuel)
      simp only [hle, if_true, List.nil_append] at hloop
      have hrun : tt.createInstance wday fuel date =
          some (((List.range ((tt.lastRun - tt.firstRun) / tt.frequency + 1).toNat).map
            (fun (i : Nat) => tt.firstRun + (i : Int) * tt.frequency)).foldl
              (Timetable.addInstance date) tt) := by
        unfold Timetable.createInstance Timetable.getDepartureTimes
        simp only [hv, hr, hne, Bool.not_true, Bool.false_eq_true, if_false, hloop]
      rw [hrun, Timetable.foldl_addInstance]
      simp only [List.map_map, List.length_map, List.length_range]
      rfl

namespace Timetable

theorem departureTimesLoopBuilt_never (frequency : Int) :
    ∀ (fuel : Nat) (time : Int) (acc : List Int), time ≤ 2147483647 →
      departureTimesLoopBuilt 2147483647 frequency fuel time acc = none := by
  intro fuel
  induction fuel with
  | zero => intro time acc _; rfl
  | succ fuel ih =>
    intro time acc h
    unfold departureTimesLoopBuilt
    rw [if_pos h]
    exact ih _ _ (by unfold int32; omega)

theorem departureTimesLoopBuilt_eq (lastRun frequency : Int) (hf : 0 < frequency)
    (hb : lastRun + frequency ≤ 2147483647) :
    ∀ (fuel : Nat) (time : Int) (acc : List Int), -2147483648 ≤ time →
      departureTimesLoopBuilt lastRun frequency fuel time acc =
        departureTimesLoop lastRun frequency fuel time acc := by
  intro fuel
  induction fuel with
  | zero => intro time acc _; rfl
  | succ fuel ih =>
    intro time acc h
    unfold departureTimesLoopBuilt departureTimesLoop
    by_cases hle : time ≤ lastRun
    · rw [if_pos hle, if_pos hle, int32_eq (time + frequency) (by omega)]
      exact ih _ _ (by omega)
    · rw [if_neg hle, if_neg hle]

theorem foldl_addInstanceBuilt (date : Int) :
    ∀ (ts : List Int) (tt : Timetable),
      -2147483648 ≤ tt.statistics.totalRuns →
      tt.statistics.totalRuns + (ts.length : Int) ≤ 2147483647 →
      ts.foldl (addInstanceBuilt date) tt = ts.foldl (addInstance date) tt := by
  intro ts
  induction ts with
  | nil => intro tt _ _; rfl
  | cons t ts ih =>
    intro tt h1 h2
    rw [List.length_cons] at h2
    have hstep : addInstanceBuilt date tt t = addInstance date tt t := by
      unfold addInstanceBuilt addInstance
      rw [int32_eq (tt.statistics.totalRuns + 1) (by omega)]
    rw [List.foldl_cons, List.foldl_cons, hstep]
    refine ih _ ?_ ?_
    · show -2147483648 ≤ tt.statistics.totalRuns + 1
      omega
    · show tt.statistics.totalRuns + 1 + (ts.length : Int) ≤ 2147483647
      push_cast at h2
      omega

end Timetable

/-- C8 (counterexample). The timetable has frequency 1000000000, first run 0 and
last run 2147483647, and the date is inside its validity window on a running
day, so that `(lastRun - firstRun) / frequency + 1` is 3. With the 32-bit loop
counter of the build `createInstance` does not return for any bound on the
rounds of the departure-time loop: the counter wraps around before it exceeds
`lastRun` (after 2000000000 it holds -1294967296), and no three instances are
ever delivered. -/
theorem createInstance_counter_wraps_counterexample :
    wrapTimetable.isValidOn mondayDate = true ∧
    wrapTimetable.runsOnDay (utc_wday (to_time_t mondayDate)) = true ∧
    0 < wrapTimetable.frequency ∧ wrapTimetable.firstRun ≤ wrapTimetable.lastRun ∧
    (wrapTimetable.lastRun - wrapTimetable.firstRun) / wrapTimetable.frequency + 1 = 3 ∧
    (∀ fuel : Nat, wrapTimetable.createInstanceBuilt utc_wday fuel mondayDate = none) ∧
    int32 (2000000000 + wrapTimetable.frequency) = -1294967296 := by
  refine ⟨by decide!, by decide!, by decide, by decide, by decide, ?_, by decide⟩
  intro fuel
  have hloop := Timetable.departureTimesLoopBuilt_never 1000000000 fuel 0 [] (by decide)
  have hv : wrapTimetable.isValidOn mondayDate = true := by decide!
  have hr : wrapTimetable.runsOnDay (utc_wday (to_time_t mondayDate)) = true := by decide!
  have hf : wrapTimetable.frequency ≠ 0 := by decide
  unfold Timetable.createInstanceBuilt Timetable.getDepartureTimesBuilt
  simp only [hv, hr, hf, Bool.not_true, Bool.false_eq_true, if_false]
  show (match Timetable.departureTimesLoopBuilt 2147483647 1000000000 fuel 0 [] with
    | none => none
    | some departureTimes =>
      some (departureTimes.foldl (Timetable.addInstanceBuilt mondayDate) wrapTimetable)) = none
  rw [hloop]

/-- C8 (amended). On a date inside `[validFrom, validTo]` that falls on a running
day, `createInstance(date)`, with the 32-bit arithmetic of the build, appends
exactly one instance, departing at the first stop's departure time, when
`frequency == 0` and there is at least one stop; and when `frequency > 0`,
`firstRun <= lastRun` and `lastRun + frequency` is at most 2147483647 (the loop
counter does not wrap around) it appends exactly
`(lastRun - firstRun) / frequency + 1` instances with the departure times
`firstRun + i * frequency`, all at most `lastRun`. Every created instance has
delay 0, cancelled false and the template's train id, `totalRuns` grows by the
number created as long as it stays a 32-bit `int`, and the rest of the timetable
is unchanged. -/
theorem createInstance_count (wday : Int → Int) (tt : Timetable) (date : Int)
    (hv : tt.isValidOn date = true)
    (hr : tt.runsOnDay (wday (to_time_t date)) = true)
    (hruns : -2147483648 ≤ tt.statistics.totalRuns)
    (hfirst : -2147483648 ≤ tt.firstRun) :
    (tt.frequency = 0 → tt.statistics.totalRuns + 1 ≤ 2147483647 →
      ∀ (s : TimetableStop) (rest : List TimetableStop),
      tt.stops = s :: rest → ∀ fuel : Nat,
        tt.createInstanceBuilt wday fuel date = some
          { tt with
            instances := tt.instances ++
              [{ id := Timetable.instanceId tt.id date s.departureTime,
                 date := date,
                 actualDepartureTime := s.departureTime,
                 delay := 0,
                 cancelled := false,
                 trainId := tt.trainId }],
            statistics := { tt.statistics with totalRuns := tt.statistics.totalRuns + 1 } }) ∧
    (0 < tt.frequency → tt.firstRun ≤ tt.lastRun →
      tt.lastRun + tt.frequency ≤ 2147483647 →
      tt.statistics.totalRuns + ((tt.lastRun - tt.firstRun) / tt.frequency + 1) ≤ 2147483647 →
      ∃ n : Nat, (n : Int) = (tt.lastRun - tt.firstRun) / tt.frequency + 1 ∧
        (∀ i : Nat, i < n → tt.firstRun + (i : Int) * tt.frequency ≤ tt.lastRun) ∧
        ∀ fuel : Nat, n < fuel →
          tt.createInstanceBuilt wday fuel date = some
            { tt with
              instances := tt.instances ++
                (List.range n).map (fun (i : Nat) =>
                  { id := Timetable.instanceId tt.id date (tt.firstRun + (i : Int) * tt.frequency),
                    date := date,
                    actualDepartureTime := tt.firstRun + (i : Int) * tt.frequency,
                    delay := 0,
                    cancelled := false,
                    trainId := tt.trainId }),
              statistics := { tt.statistics with
                totalRuns := tt.statistics.totalRuns + (n : Int) } }) := by
  have hex := createInstance_exact wday tt date hv hr
  constructor
  · intro hfreq htot s rest hstops fuel
    rw [← hex.1 hfreq s rest hstops fuel]
    unfold Timetable.createInstanceBuilt Timetable.createInstance
      Timetable.getDepartureTimesBuilt Timetable.getDepartureTimes
    simp only [hv, hr, hfreq, hstops, Bool.not_true, Bool.false_eq_true, if_false, if_true]
    rw [Timetable.foldl_addInstanceBuilt date _ tt hruns (by simpa using htot)]
  · intro hfreq hle hb htot
    obtain ⟨n, hn, hall, hrun⟩ := hex.2 hfreq hle
    refine ⟨n, hn, hall, ?_⟩
    intro fuel hfuel
    rw [← hrun fuel hfuel]
    have hne : tt.frequency ≠ 0 := ne_of_gt hfreq
    have hloop := Timetable.departureTimesLoop_spec tt.lastRun tt.frequency hfreq fuel
      tt.firstRun [] (by simp only [hle, if_true]; omega)
    simp only [hle, if_true, List.nil_append] at hloop
    unfold Timetable.createInstanceBuilt Timetable.createInstance
      Timetable.getDepartureTimesBuilt Timetable.getDepartureTimes
    simp only [hv, hr, hne, Bool.not_true, Bool.false_eq_true, if_false]
    rw [Timetable.departureTimesLoopBuilt_eq tt.lastRun tt.frequency hfreq hb fuel
      tt.firstRun [] hfirst, hloop]
    simp only
    rw [Timetable.foldl_addInstanceBuilt date _ tt hruns
      (by simp only [List.length_map, List.length_range]; omega)]

/-- Witness for C8: the sample single-run timetable and a repeating timetable on
a Monday. -/
theorem createInstance_count_witness :
    (sampleTimetable.createInstanceBuilt utc_wday 0 mondayDate).map
        (fun t => t.instances.map (fun i => i.actualDepartureTime)) = some [5] ∧
    (repeatingTimetable.createInstanceBuilt utc_wday 5 mondayDate).map
        (fun t => t.instances.map (fun i => i.actualDepartureTime)) =
      some [360, 380, 400, 420] := by
  have h := createInstance_count utc_wday sampleTimetable mondayDate (by decide!) (by decide!)
    (by decide) (by decide)
  have h' := createInstance_count utc_wday repeatingTimetable mondayDate (by decide!)
    (by decide!) (by decide) (by decide)
  constructor
  · rw [h.1 rfl (by decide) _ _ rfl 0]
    rfl
  · obtain ⟨n, hn, _, hrun⟩ := h'.2 (by decide) (by decide) (by decide) (by decide)
    have hn4 : n = 4 := by
      have : (n : Int) = 4 := by rw [hn]; decide
      exact_mod_cast this
    subst hn4
    rw [hrun 5 (by decide)]
    rfl

/-! ## C10: instance ids -/

theorem digitChar_facts : ∀ d, d < 10 → digitChar d ≠ '_' ∧ digitChar d ≠ '-' ∧
    ∀ e, e < 10 → digitChar d = digitChar e → d = e := by decide

theorem map_digitChar_inj : ∀ (l1 l2 : List Nat), (∀ x ∈ l1, x < 10) → (∀ x ∈ l2, x < 10) →
    l1.map digitChar = l2.map digitChar → l1 = l2 := by
  intro l1
  induction l1 with
  | nil => intro l2 _ _ h; cases l2 with
    | nil => rfl
    | cons b l2 => simp at h
  | cons a l1 ih =>
    intro l2 h1 h2 h
    cases l2 with
    | nil => simp at h
    | cons b l2 =>
      simp only [List.map_cons, List.cons.injEq] at h
      have hab : a = b := (digitChar_facts a (h1 a (List.mem_cons_self _ _))).2.2 b
        (h2 b (List.mem_cons_self _ _)) h.1
      rw [hab, ih l2 (fun x hx => h1 x (List.mem_cons_of_mem _ hx))
        (fun x hx => h2 x (List.mem_cons_of_mem _ hx)) h.2]

theorem natToDigits_mem (n : Nat) : ∀ c ∈ natToDigits n, ∃ d, d < 10 ∧ c = digitChar d := by
  intro c hc
  unfold natToDigits at hc
  split at hc
  · simp at hc; exact ⟨0, by decide, hc⟩
  · simp only [List.mem_map, List.mem_reverse] at hc
    obtain ⟨d, hd, rfl⟩ := hc
    exact ⟨d, Nat.digits_lt_base (by decide) hd, rfl⟩

theorem natToDigits_inj (n m : Nat) (h : natToDigits n = natToDigits m) : n = m := by
  have key : ∀ a b : Nat, a = 0 → b ≠ 0 → natToDigits a ≠ natToDigits b := by
    intro a b ha hb hab
    unfold natToDigits at hab
    simp only [ha, hb, if_true, if_false] at hab
    have h1 : [0].map digitChar = ((Nat.digits 10 b).reverse).map digitChar := hab
    have h2 := map_digitChar_inj [0] (Nat.digits 10 b).reverse (by simp)
      (fun x hx => Nat.digits_lt_base (by decide) (List.mem_reverse.mp hx)) h1
    have h3 : Nat.digits 10 b = [0] := by
      have := congrArg List.reverse h2
      simpa using this.symm
    have h4 := Nat.ofDigits_digits 10 b
    rw [h3] at h4
    simp at h4
    exact hb h4.symm
  by_cases hn : n = 0
  · by_cases hm : m = 0
    · rw [hn, hm]
    · exact absurd h (key n m hn hm)
  · by_cases hm : m = 0
    · exact absurd h.symm (key m n hm hn)
    · unfold natToDigits at h
      simp only [hn, hm, if_false] at h
      have h2 := map_digitChar_inj _ _
        (fun x hx => Nat.digits_lt_base (by decide) (List.mem_reverse.mp hx))
        (fun x hx => Nat.digits_lt_base (by decide) (List.mem_reverse.mp hx)) h
      have h3 : Nat.digits 10 n = Nat.digits 10 m := by
        have := congrArg List.reverse h2
        simpa using this
      exact Nat.digits_inj_iff.mp h3

theorem to_chars_no_underscore (i : Int) : '_' ∉ to_chars i := by
  intro h
  unfold to_chars at h
  split at h
  · rcases List.mem_cons.mp h with h | h
    · exact absurd h (by decide)
    · obtain ⟨d, hd, e⟩ := natToDigits_mem _ _ h
      exact (digitChar_facts d hd).1 e.symm
  · obtain ⟨d, hd, e⟩ := natToDigits_mem _ _ h
    exact (digitChar_facts d hd).1 e.symm

theorem to_chars_inj (i j : Int) (h : to_chars i = to_chars j) : i = j := by
  have head_ne : ∀ n : Nat, ∀ l, natToDigits n ≠ '-' :: l := by
    intro n l hl
    have hm : '-' ∈ natToDigits n := by rw [hl]; exact List.mem_cons_self _ _
    obtain ⟨d, hd, e⟩ := natToDigits_mem _ _ hm
    exact (digitChar_facts d hd).2.1 e.symm
  unfold to_chars at h
  by_cases hi : i < 0 <;> by_cases hj : j < 0
  · simp only [hi, hj, if_true, List.cons.injEq, true_and] at h
    have := natToDigits_inj _ _ h
    omega
  · simp only [hi, hj, if_true, if_false] at h
    exact absurd h.symm (head_ne _ _)
  · simp only [hi, hj, if_true, if_false] at h
    exact absurd h (head_ne _ _)
  · simp only [hi, hj, if_false] at h
    have := natToDigits_inj _ _ h
    omega

theorem split_at_first {α : Type} (c : α) : ∀ (l1 l2 r1 r2 : List α), c ∉ l1 → c ∉ l2 →
    l1 ++ c :: r1 = l2 ++ c :: r2 → l1 = l2 ∧ r1 = r2 := by
  intro l1
  induction l1 with
  | nil =>
    intro l2 r1 r2 _ h2 h
    cases l2 with
    | nil => simpa using h
    | cons b l2 =>
      simp only [List.nil_append, List.cons_append, List.cons.injEq] at h
      exact absurd (h.1 ▸ List.mem_cons_self _ _) h2
  | cons a l1 ih =>
    intro l2 r1 r2 h1 h2 h
    cases l2 with
    | nil =>
      simp only [List.nil_append, List.cons_append, List.cons.injEq] at h
      exact absurd (h.1 ▸ List.mem_cons_self _ _) h1
    | cons b l2 =>
      simp only [List.cons_append, List.cons.injEq] at h
      obtain ⟨e1, e2⟩ := ih l2 r1 r2 (fun hc => h1 (List.mem_cons_of_mem _ hc))
        (fun hc => h2 (List.mem_cons_of_mem _ hc)) h.2
      exact ⟨by rw [h.1, e1], e2⟩

theorem instanceId_data (id : String) (date t : Int) :
    ((Timetable.instanceId id date t).data).reverse =
      (to_chars t).reverse ++ '_' :: ((to_chars (to_time_t date)).reverse ++ '_' :: id.data.reverse) := by
  unfold Timetable.instanceId to_string
  simp only [String.data_append, List.reverse_append]
  show (to_chars t).reverse ++ (['_'].reverse ++
    ((to_chars (to_time_t date)).reverse ++ (['_'].reverse ++ id.data.reverse))) = _
  simp

theorem instanceId_eq_iff (id1 id2 : String) (d1 d2 t1 t2 : Int) :
    Timetable.instanceId id1 d1 t1 = Timetable.instanceId id2 d2 t2 ↔
      (id1 = id2 ∧ to_time_t d1 = to_time_t d2 ∧ t1 = t2) := by
  constructor
  · intro h
    have hrev := congrArg (fun s : String => s.data.reverse) h
    simp only [instanceId_data] at hrev
    have hno : ∀ i : Int, '_' ∉ (to_chars i).reverse :=
      fun i hc => to_chars_no_underscore i (List.mem_reverse.mp hc)
    obtain ⟨e1, e2⟩ := split_at_first '_' _ _ _ _ (hno t1) (hno t2) hrev
    obtain ⟨e3, e4⟩ := split_at_first '_' _ _ _ _ (hno _) (hno _) e2
    refine ⟨?_, ?_, ?_⟩
    · exact String.ext (List.reverse_injective e4)
    · exact to_chars_inj _ _ (List.reverse_injective e3)
    · exact to_chars_inj _ _ (List.reverse_injective e1)
  · rintro ⟨h1, h2, h3⟩
    unfold Timetable.instanceId
    rw [h1, h2, h3]

namespace Timetable

theorem departureTimesLoop_shape (lastRun f : Int) :
    ∀ (fuel : Nat) (time : Int) (acc r : List Int),
      departureTimesLoop lastRun f fuel time acc = some r →
      ∃ n : Nat, r = acc ++ (List.range n).map (fun (i : Nat) => time + (i : Int) * f) := by
  intro fuel
  induction fuel with
  | zero => intro time acc r h; simp [departureTimesLoop] at h
  | succ fuel ih =>
    intro time acc r h
    unfold departureTimesLoop at h
    by_cases hle : time ≤ lastRun
    · simp only [hle, if_true] at h
      obtain ⟨n, hn⟩ := ih _ _ _ h
      refine ⟨n + 1, ?_⟩
      rw [hn, List.range_succ_eq_map, List.map_cons, List.map_map, List.append_assoc]
      congr 1
      simp only [List.singleton_append, Nat.cast_zero, zero_mul, add_zero, List.cons.injEq,
        true_and]
      apply List.map_congr_left
      intro i _
      simp only [Function.comp, Nat.succ_eq_add_one, Nat.cast_add, Nat.cast_one]
      ring
    · simp only [hle, if_false, Option.some.injEq] at h
      exact ⟨0, by simp [h]⟩

theorem getDepartureTimes_nodup (tt : Timetable) (fuel : Nat) (ts : List Int)
    (h : tt.getDepartureTimes fuel = some ts) : ts.Nodup := by
  unfold getDepartureTimes at h
  by_cases hf : tt.frequency = 0
  · simp only [hf, if_true] at h
    cases hs : tt.stops with
    | nil =>
      rw [hs] at h
      have e : ts = [] := (Option.some.inj h).symm
      rw [e]
      exact List.nodup_nil
    | cons s rest =>
      rw [hs] at h
      have e : ts = [s.departureTime] := (Option.some.inj h).symm
      rw [e]
      exact List.nodup_singleton _
  · simp only [hf, if_false] at h
    obtain ⟨n, hn⟩ := departureTimesLoop_shape _ _ _ _ _ _ h
    rw [hn, List.nil_append]
    refine List.Nodup.map_on ?_ (List.nodup_range n)
    intro x _ y _ hxy
    have hmul : (x : Int) * tt.frequency = (y : Int) * tt.frequency := by omega
    have := mul_right_cancel₀ hf hmul
    exact_mod_cast this

end Timetable

/-- C10 (counterexample). Two dates one clock tick apart (so within the same
second) give the same instance id for the same template and departure time. -/
theorem instanceId_collision_counterexample :
    (0 : Int) ≠ 1 ∧ Timetable.instanceId "TT1" 0 0 = Timetable.instanceId "TT1" 1 0 := by
  decide

/-- C10 (amended). The id that `createInstance` gives an instance is a function
of the template id, the date truncated to whole seconds (`to_time_t`) and the
departure time, and is injective in that triple, whatever characters the template
id contains; and all instances created by one `createInstance` call have pairwise
distinct ids. -/
theorem instanceId_unique :
    (∀ (id1 id2 : String) (d1 d2 t1 t2 : Int),
      Timetable.instanceId id1 d1 t1 = Timetable.instanceId id2 d2 t2 ↔
        (id1 = id2 ∧ to_time_t d1 = to_time_t d2 ∧ t1 = t2)) ∧
    (∀ (wday : Int → Int) (fuel : Nat) (tt tt' : Timetable) (date : Int),
      tt.createInstance wday fuel date = some tt' →
      ∃ created : List TimetableInstance,
        tt'.instances = tt.instances ++ created ∧
        (created.map (fun i => i.id)).Nodup ∧
        ∀ i ∈ created, i.id = Timetable.instanceId tt.id date i.actualDepartureTime) := by
  refine ⟨instanceId_eq_iff, ?_⟩
  intro wday fuel tt tt' date h
  unfold Timetable.createInstance at h
  by_cases hv : tt.isValidOn date = true
  · by_cases hr : tt.runsOnDay (wday (to_time_t date)) = true
    · simp only [hv, hr, Bool.not_true, Bool.false_eq_true, if_false] at h
      cases hts : tt.getDepartureTimes fuel with
      | none => rw [hts] at h; simp at h
      | some ts =>
        rw [hts] at h
        simp only [Option.some.injEq] at h
        rw [Timetable.foldl_addInstance] at h
        refine ⟨ts.map (tt.newInstance date), by rw [← h], ?_, ?_⟩
        · rw [List.map_map]
          refine List.Nodup.map_on ?_ (Timetable.getDepartureTimes_nodup tt fuel ts hts)
          intro x _ y _ hxy
          exact ((instanceId_eq_iff _ _ _ _ _ _).mp hxy).2.2
        · intro i hi
          obtain ⟨t, _, rfl⟩ := List.mem_map.mp hi
          rfl
    · simp only [Bool.not_eq_true] at hr
      simp only [hv, hr, Bool.not_true, Bool.not_false, Bool.false_eq_true, if_false,
        if_true, Option.some.injEq] at h
      exact ⟨[], by simp [← h], by simp, by simp⟩
  · simp only [Bool.not_eq_true] at hv
    simp only [hv, Bool.not_false, if_true, Option.some.injEq] at h
    exact ⟨[], by simp [← h], by simp, by simp⟩

/-- Witness for C10: the instances created for the repeating timetable on a
Monday. -/
theorem instanceId_unique_witness :
    ∃ created : List TimetableInstance,
      ([360, 380, 400, 420].foldl (Timetable.addInstance mondayDate) repeatingTimetable
        ).instances = repeatingTimetable.instances ++ created ∧
      (created.map (fun i => i.id)).Nodup ∧
      ∀ i ∈ created,
        i.id = Timetable.instanceId repeatingTimetable.id mondayDate i.actualDepartureTime :=
  instanceId_unique.2 utc_wday 5 repeatingTimetable
    ([360, 380, 400, 420].foldl (Timetable.addInstance mondayDate) repeatingTimetable)
    mondayDate (by rfl)

/-! ## C19: reset -/

/-- C19. For every engine state and registry, `reset()` leaves the event queue
empty, `simulationTime` and the three interval timers at 0, all statistics at 0,
`paused` false and `timeScale` 1, keeps the registry, and re-derives the caches
from it (active trains: the registry's trains with status InService or Waiting,
in registry order; all stations; the active timetables). `reset` is idempotent,
and on a freshly constructed engine it yields the caches of the registry with
everything else at its initial value. -/
theorem reset_spec (eng : SimulationEngine) :
    eng.reset.eventQueue = [] ∧
    eng.reset.simulationTime = 0 ∧
    eng.reset.passengerGenerationTimer = 0 ∧
    eng.reset.timetableUpdateTimer = 0 ∧
    eng.reset.statisticsUpdateTimer = 0 ∧
    eng.reset.statistics =
      { trainsRunning := 0, trainsDelayed := 0, passengersTransported := 0,
        passengersWaiting := 0, averageDelay := 0, punctualityRate := 0,
        systemUtilization := 0 } ∧
    eng.reset.paused = false ∧
    eng.reset.timeScale = 1 ∧
    eng.reset.gameState = eng.gameState ∧
    eng.reset.activeTrains =
      (eng.gameState.trains.filter (fun t =>
        t.status == TrainStatus.IN_SERVICE || t.status == TrainStatus.WAITING)).map
        (fun t => t.id) ∧
    eng.reset.activeStations = eng.gameState.stations.map (fun s => s.id) ∧
    eng.reset.activeTimetables =
      (eng.gameState.timetables.filter (fun t => t.active)).map (fun t => t.id) ∧
    eng.reset.reset = eng.reset ∧
    (∀ gs : GameState,
      ({ gameState := gs } : SimulationEngine).reset =
        { gameState := gs,
          activeTrains :=
            (gs.trains.filter (fun t =>
              t.status == TrainStatus.IN_SERVICE || t.status == TrainStatus.WAITING)).map
              (fun t => t.id),
          activeStations := gs.stations.map (fun s => s.id),
          activeTimetables := (gs.timetables.filter (fun t => t.active)).map (fun t => t.id) }) :=
  ⟨rfl, rfl, rfl, rfl, rfl, rfl, rfl, rfl, rfl, rfl, rfl, rfl, rfl, fun _ => rfl⟩

/-! ## C20: emergency stop -/

namespace SimulationEngine

end SimulationEngine

namespace SimulationEngine

theorem collisionRisk_iff (t1 t2 : Train) :
    collisionRisk t1 t2 = true ↔
      (t1.currentLineId = t2.currentLineId ∧
        doubleDistance t1.currentLat t1.currentLon t2.currentLat t2.currentLon <
          float64 (1 / 100)) := by
  unfold collisionRisk
  simp only [Bool.and_eq_true, beq_iff_eq, decide_eq_true_eq]

theorem findCollisionPartner_eq_none (eng : SimulationEngine) (train1 : Train) :
    ∀ l : List String, findCollisionPartner eng train1 l = none ↔
      ∀ (j : Nat) (id2 : String) (train2 : Train), l.get? j = some id2 →
        eng.gameState.getTrain id2 = some train2 → collisionRisk train1 train2 = false := by
  intro l
  induction l with
  | nil =>
    constructor
    · intro _ j id2 train2 hj; simp at hj
    · intro _; rfl
  | cons a l ih =>
    unfold findCollisionPartner
    cases ha : eng.gameState.getTrain a with
    | none =>
      dsimp only
      rw [ih]
      constructor
      · intro h j id2 train2 hj ht
        cases j with
        | zero =>
          have : a = id2 := by simpa using hj
          rw [this] at ha; rw [ha] at ht; exact Option.noConfusion ht
        | succ j => exact h j id2 train2 (by simpa using hj) ht
      · intro h j id2 train2 hj ht
        exact h (j + 1) id2 train2 (by simpa using hj) ht
    | some ta =>
      dsimp only
      by_cases hr : collisionRisk train1 ta = true
      · rw [if_pos hr]
        constructor
        · intro h; exact Option.noConfusion h
        · intro h
          have := h 0 a ta (by simp) ha
          rw [hr] at this; exact Bool.noConfusion this
      · rw [if_neg hr, ih]
        constructor
        · intro h j id2 train2 hj ht
          cases j with
          | zero =>
            have : a = id2 := by simpa using hj
            rw [this] at ha; rw [ha] at ht
            have : ta = train2 := Option.some.inj ht
            rw [← this]; simpa using hr
          | succ j => exact h j id2 train2 (by simpa using hj) ht
        · intro h j id2 train2 hj ht
          exact h (j + 1) id2 train2 (by simpa using hj) ht

theorem checkTrainCollisionsFrom_iff (eng : SimulationEngine) :
    ∀ l : List String, (checkTrainCollisionsFrom eng l).1 = true ↔
      ∃ (i j : Nat) (id1 id2 : String) (train1 train2 : Train), i < j ∧
        l.get? i = some id1 ∧ l.get? j = some id2 ∧
        eng.gameState.getTrain id1 = some train1 ∧
        eng.gameState.getTrain id2 = some train2 ∧
        collisionRisk train1 train2 = true := by
  intro l
  induction l with
  | nil =>
    constructor
    · intro h; simp [checkTrainCollisionsFrom] at h
    · rintro ⟨i, j, id1, id2, t1, t2, _, hi, _⟩; simp at hi
  | cons a l ih =>
    have shift : (∃ (i j : Nat) (id1 id2 : String) (train1 train2 : Train), i < j ∧
        l.get? i = some id1 ∧ l.get? j = some id2 ∧
        eng.gameState.getTrain id1 = some train1 ∧
        eng.gameState.getTrain id2 = some train2 ∧ collisionRisk train1 train2 = true) →
        ∃ (i j : Nat) (id1 id2 : String) (train1 train2 : Train), i < j ∧
        (a :: l).get? i = some id1 ∧ (a :: l).get? j = some id2 ∧
        eng.gameState.getTrain id1 = some train1 ∧
        eng.gameState.getTrain id2 = some train2 ∧ collisionRisk train1 train2 = true := by
      rintro ⟨i, j, id1, id2, t1, t2, hij, hi, hj, h1, h2, hr⟩
      exact ⟨i + 1, j + 1, id1, id2, t1, t2, by omega, by simpa using hi, by simpa using hj,
        h1, h2, hr⟩
    unfold checkTrainCollisionsFrom
    cases ha : eng.gameState.getTrain a with
    | none =>
      dsimp only
      rw [ih]
      constructor
      · exact shift
      · rintro ⟨i, j, id1, id2, t1, t2, hij, hi, hj, h1, h2, hr⟩
        cases i with
        | zero =>
          have : a = id1 := by simpa using hi
          rw [this] at ha; rw [ha] at h1; exact Option.noConfusion h1
        | succ i =>
          cases j with
          | zero => omega
          | succ j =>
            exact ⟨i, j, id1, id2, t1, t2, by omega, by simpa using hi, by simpa using hj,
              h1, h2, hr⟩
    | some ta =>
      dsimp only
      cases hp : findCollisionPartner eng ta l with
      | some id2 =>
        dsimp only
        constructor
        · intro _
          have hne : findCollisionPartner eng ta l ≠ none := by rw [hp]; simp
          rw [Ne, findCollisionPartner_eq_none] at hne
          push_neg at hne
          obtain ⟨j, id2', t2, hj, ht2, hr⟩ := hne
          exact ⟨0, j + 1, a, id2', ta, t2, by omega, by simp, by simpa using hj, ha, ht2,
            by simpa using hr⟩
        · intro _; rfl
      | none =>
        dsimp only
        rw [ih]
        constructor
        · exact shift
        · rintro ⟨i, j, id1, id2, t1, t2, hij, hi, hj, h1, h2, hr⟩
          cases j with
          | zero => omega
          | succ j =>
            cases i with
            | zero =>
              have hid : a = id1 := by simpa using hi
              rw [hid] at ha; rw [ha] at h1
              have ht : ta = t1 := Option.some.inj h1
              have := (findCollisionPartner_eq_none eng ta l).mp hp j id2 t2
                (by simpa using hj) h2
              rw [ht, hr] at this; exact Bool.noConfusion this
            | succ i =>
              exact ⟨i, j, id1, id2, t1, t2, by omega, by simpa using hi, by simpa using hj,
                h1, h2, hr⟩

end SimulationEngine

/-! ## C17: collision response -/

/-- C17 (the code at the failing input). With four active trains of which `T1`,
`T2` are at collision risk on line `L1` and `T3`, `T4` are at collision risk on
line `L2`, `checkTrainCollisions` returns true after stopping `T1` and `T2`
only: `T3` and `T4` keep their speed of 50. -/
theorem checkTrainCollisions_second_pair_not_stopped :
    SimulationEngine.collisionRisk (movingTrain "T3" "L2" 50 19)
      (movingTrain "T4" "L2" 50 (19 + 1 / 1000)) = true ∧
    fourTrainEngine.checkTrainCollisions.1 = true ∧
    (["T1", "T2", "T3", "T4"].map (fun id =>
      (fourTrainEngine.checkTrainCollisions.2.gameState.getTrain id).map
        (fun t => t.currentSpeed))) = [some 0, some 0, some 50, some 50] := by
  decide!

/-! ## C13, C15: departure handling -/

namespace SimulationEngine

theorem freePlatform_id (s : Station) (n : Int) : (s.freePlatform n).id = s.id := by
  unfold Station.freePlatform
  cases s.getPlatform n <;> rfl

end SimulationEngine

/-- C13 (the code at the failing input). On a timetable `A`, `B`, `A`, `C` the
departing station `A` is at stop index 2 with the following stop 3 at the
registered station `C`, yet processing the departure event schedules an arrival
at `B`, 10 minutes ahead (the travel time from stop 0 to stop 1), and not at
`C`, 8 minutes ahead. -/
theorem departure_from_revisited_station :
    loopTimetable.stops.get? 2 =
      some { stationId := "A", arrivalTime := 20, departureTime := 22, platform := 2 } ∧
    loopTimetable.stops.get? 3 =
      some { stationId := "C", arrivalTime := 30, departureTime := 30, platform := 1 } ∧
    (loopEngine.gameState.getStation "C").isSome = true ∧
    (loopEngine.handleEventBuilt sampleAI 0
        { time := 0, type := "departure", entityId := "T1", data := "A" }).eventQueue =
      [{ time := 0 + minutes (10 - 0), type := "arrival", entityId := "T1", data := "B" }] ∧
    (loopEngine.handleEventBuilt sampleAI 0
        { time := 0, type := "departure", entityId := "T1", data := "A" }).eventQueue ≠
      [{ time := 0 + minutes (30 - 22), type := "arrival", entityId := "T1", data := "C" }] := by
  decide!

/-- C15 (the code at the failing input). On the round trip `A`, `B`, `A` the last
stop is at station `A`; processing the departure event of the train at `A`
leaves the train InService with its timetable assigned and schedules an arrival
at `B`: the route is not completed. -/
theorem round_trip_last_stop_not_completed :
    roundTripTimetable.stops.getLast? =
      some { stationId := "A", arrivalTime := 20, departureTime := 22, platform := 2 } ∧
    ((roundTripEngine.handleEventBuilt sampleAI 0
        { time := 0, type := "departure", entityId := "T1", data := "A" }
      ).gameState.getTrain "T1").map (fun t => (t.status, t.assignedTimetableId)) =
      some (TrainStatus.IN_SERVICE, "RT") ∧
    (roundTripEngine.handleEventBuilt sampleAI 0
        { time := 0, type := "departure", entityId := "T1", data := "A" }).eventQueue =
      [{ time := 0 + minutes (10 - 0), type := "arrival", entityId := "T1", data := "B" }] := by
  decide!

/-! ## C11: instancing is idempotent per date -/

namespace Timetable

theorem departureTimesLoop_fuel_mono (lastRun f : Int) :
    ∀ (fuel : Nat) (time : Int) (acc r : List Int),
      departureTimesLoop lastRun f fuel time acc = some r →
      ∀ fuel', fuel ≤ fuel' → departureTimesLoop lastRun f fuel' time acc = some r := by
  intro fuel
  induction fuel with
  | zero => intro time acc r h; simp [departureTimesLoop] at h
  | succ fuel ih =>
    intro time acc r h fuel' hle
    cases fuel' with
    | zero => omega
    | succ fuel' =>
      unfold departureTimesLoop at h ⊢
      by_cases hle2 : time ≤ lastRun
      · rw [if_pos hle2] at h ⊢
        exact ih _ _ _ h fuel' (by omega)
      · rw [if_neg hle2] at h ⊢
        exact h

theorem getDepartureTimes_total (tt : Timetable) (hf : 0 ≤ tt.frequency) :
    ∃ (N : Nat) (ts : List Int), ∀ fuel, N ≤ fuel → tt.getDepartureTimes fuel = some ts := by
  unfold getDepartureTimes
  by_cases h0 : tt.frequency = 0
  · simp only [h0, if_true]
    cases tt.stops with
    | nil => exact ⟨0, [], fun _ _ => rfl⟩
    | cons s rest => exact ⟨0, [s.departureTime], fun _ _ => rfl⟩
  · simp only [h0, if_false]
    have hpos : 0 < tt.frequency := lt_of_le_of_ne hf (Ne.symm h0)
    have h := departureTimesLoop_spec tt.lastRun tt.frequency hpos
      ((if tt.firstRun ≤ tt.lastRun then
          ((tt.lastRun - tt.firstRun) / tt.frequency + 1).toNat else 0) + 1)
      tt.firstRun [] (Nat.lt_succ_self _)
    exact ⟨_, _, fun fuel hfuel => departureTimesLoop_fuel_mono _ _ _ _ _ _ h fuel hfuel⟩

theorem createInstance_total (wday : Int → Int) (tt : Timetable) (date : Int)
    (hf : 0 ≤ tt.frequency) :
    ∃ (N : Nat) (tt1 : Timetable), ∀ fuel, N ≤ fuel →
      tt.createInstance wday fuel date = some tt1 := by
  obtain ⟨N, ts, hts⟩ := getDepartureTimes_total tt hf
  unfold createInstance
  by_cases hv : tt.isValidOn date = true
  · by_cases hr : tt.runsOnDay (wday (to_time_t date)) = true
    · refine ⟨N, ts.foldl (addInstance date) tt, ?_⟩
      intro fuel hfuel
      simp only [hv, hr, Bool.not_true, Bool.false_eq_true, if_false, hts fuel hfuel]
    · refine ⟨0, tt, ?_⟩
      intro fuel _
      simp only [Bool.not_eq_true] at hr
      simp [hv, hr]
  · refine ⟨0, tt, ?_⟩
    intro fuel _
    simp only [Bool.not_eq_true] at hv
    simp [hv]

theorem createInstance_shape (wday : Int → Int) (fuel : Nat) (tt tt1 : Timetable) (date : Int)
    (h : tt.createInstance wday fuel date = some tt1) :
    tt1 = tt ∨ ∃ (t : Int) (ts : List Int),
      tt1 = { tt with
        instances := tt.instances ++ (t :: ts).map (tt.newInstance date),
        statistics := { tt.statistics with
          totalRuns := tt.statistics.totalRuns + (((t :: ts).length : Nat) : Int) } } := by
  unfold createInstance at h
  by_cases hv : tt.isValidOn date = true
  · by_cases hr : tt.runsOnDay (wday (to_time_t date)) = true
    · simp only [hv, hr, Bool.not_true, Bool.false_eq_true, if_false] at h
      cases hts : tt.getDepartureTimes fuel with
      | none => rw [hts] at h; exact Option.noConfusion h
      | some ts =>
        rw [hts] at h
        have h' : ts.foldl (addInstance date) tt = tt1 := Option.some.inj h
        cases ts with
        | nil => exact Or.inl h'.symm
        | cons t ts =>
          rw [foldl_addInstance] at h'
          exact Or.inr ⟨t, ts, h'.symm⟩
    · simp only [Bool.not_eq_true] at hr
      simp only [hv, hr, Bool.not_true, Bool.not_false, Bool.false_eq_true, if_false,
        if_true, Option.some.injEq] at h
      exact Or.inl h.symm
  · simp only [Bool.not_eq_true] at hv
    simp only [hv, Bool.not_false, if_true, Option.some.injEq] at h
    exact Or.inl h.symm

end Timetable

namespace SimulationEngine

theorem mapOpt_forall₂ {α β : Type} (f : α → Option β) :
    ∀ (l : List α) (l1 : List β), mapOpt f l = some l1 →
      List.Forall₂ (fun x y => f x = some y) l l1 := by
  intro l
  induction l with
  | nil =>
    intro l1 h
    have : l1 = [] := (Option.some.inj h).symm
    rw [this]; exact List.Forall₂.nil
  | cons x xs ih =>
    intro l1 h
    unfold mapOpt at h
    cases hx : f x with
    | none => rw [hx] at h; exact Option.noConfusion h
    | some y =>
      rw [hx] at h
      cases hxs : mapOpt f xs with
      | none => rw [hxs] at h; exact Option.noConfusion h
      | some ys =>
        rw [hxs] at h
        have : l1 = y :: ys := (Option.some.inj h).symm
        rw [this]
        exact List.Forall₂.cons hx (ih ys hxs)

end SimulationEngine

/-! ## C12: conflict detection -/

theorem int_ne_zero_iff_testBit (x : Int) : x ≠ 0 ↔ ∃ k, x.testBit k = true := by
  constructor
  · intro hx
    cases x with
    | ofNat n =>
      have hn : n ≠ 0 := by
        intro h; apply hx; rw [h]; rfl
      obtain ⟨k, hk⟩ := Nat.ne_zero_implies_bit_true hn
      exact ⟨k, hk⟩
    | negSucc n =>
      refine ⟨n, ?_⟩
      show (!n.testBit n) = true
      rw [Nat.testBit_lt_two_pow (Nat.lt_two_pow n)]
      rfl
  · rintro ⟨k, hk⟩ h0
    rw [h0] at hk
    have : Int.testBit 0 k = Nat.testBit 0 k := rfl
    rw [this, Nat.zero_testBit] at hk
    exact Bool.noConfusion hk

theorem TimetableDays.and_ne_none_iff (a b : Int) :
    TimetableDays.and a b ≠ TimetableDays.NONE ↔
      ∃ k, a.testBit k = true ∧ b.testBit k = true := by
  unfold TimetableDays.and TimetableDays.NONE
  rw [int_ne_zero_iff_testBit]
  constructor
  · rintro ⟨k, hk⟩
    rw [Int.testBit_land] at hk
    exact ⟨k, by simpa using hk⟩
  · rintro ⟨k, hka, hkb⟩
    exact ⟨k, by rw [Int.testBit_land, hka, hkb]; rfl⟩

theorem day_mask_bit_lt_seven (m : Int) (h0 : 0 ≤ m) (h1 : m < 128) (k : Nat)
    (hk : m.testBit k = true) : k < 7 := by
  by_contra hge
  have hge7 : 7 ≤ k := by omega
  obtain ⟨n, rfl⟩ := Int.eq_ofNat_of_zero_le h0
  have hn : n < 2 ^ k := by
    have h128 : n < 2 ^ 7 := by omega
    exact lt_of_lt_of_le h128 (Nat.pow_le_pow_right (by decide) hge7)
  have : Int.testBit (n : Int) k = Nat.testBit n k := rfl
  rw [this, Nat.testBit_lt_two_pow hn] at hk
  exact Bool.noConfusion hk

namespace Timetable

theorem runsOverlap_iff (s1 f1 s2 f2 : Int) (h1 : s1 ≤ f1) (h2 : s2 ≤ f2) :
    runsOverlap s1 f1 s2 f2 = true ↔ ∃ m : Int, s1 ≤ m ∧ m ≤ f1 ∧ s2 ≤ m ∧ m ≤ f2 := by
  unfold runsOverlap
  simp only [Bool.or_eq_true, Bool.and_eq_true, decide_eq_true_eq, ge_iff_le]
  constructor
  · rintro ((⟨ha, hb⟩ | ⟨ha, hb⟩) | ⟨ha, hb⟩)
    · exact ⟨s1, le_refl _, h1, ha, hb⟩
    · exact ⟨f1, h1, le_refl _, ha, hb⟩
    · exact ⟨s2, ha, by omega, le_refl _, h2⟩
  · rintro ⟨m, ha, hb, hc, hd⟩
    by_cases hs : s2 ≤ s1
    · exact Or.inl (Or.inl ⟨hs, by omega⟩)
    · by_cases hf : f1 ≤ f2
      · exact Or.inl (Or.inr ⟨by omega, hf⟩)
      · exact Or.inr ⟨by omega, by omega⟩

end Timetable

namespace Timetable

theorem getDepartureTimesBuilt_spec (tt : Timetable) (f0 : TimetableStop)
    (hhead : tt.stops.head? = some f0)
    (hr : 0 ≤ tt.firstRun ∧ tt.lastRun ≤ 1000000000 ∧
      0 ≤ tt.frequency ∧ tt.frequency ≤ 1000000000) :
    ∃ (N : Nat) (ts : List Int),
      (∀ fuel, N ≤ fuel → tt.getDepartureTimesBuilt fuel = some ts) ∧
      ∀ t, t ∈ ts ↔
        ((tt.frequency = 0 ∧ t = f0.departureTime) ∨
         (0 < tt.frequency ∧
           ∃ i : Nat, t = tt.firstRun + (i : Int) * tt.frequency ∧ t ≤ tt.lastRun)) := by
  obtain ⟨h1, h2, h3, h4⟩ := hr
  by_cases h0 : tt.frequency = 0
  · refine ⟨0, [f0.departureTime], ?_, ?_⟩
    · intro fuel _
      unfold getDepartureTimesBuilt
      rw [if_pos h0]
      cases hs : tt.stops with
      | nil => rw [hs] at hhead; simp at hhead
      | cons s rest =>
        rw [hs] at hhead
        simp only [List.head?_cons, Option.some.injEq] at hhead
        rw [hhead]
    · intro t
      simp only [List.mem_singleton]
      constructor
      · intro h; exact Or.inl ⟨h0, h⟩
      · rintro (⟨_, h⟩ | ⟨h, _⟩)
        · exact h
        · omega
  · have hpos : 0 < tt.frequency := lt_of_le_of_ne h3 (Ne.symm h0)
    have h := departureTimesLoop_spec tt.lastRun tt.frequency hpos
      ((if tt.firstRun ≤ tt.lastRun then
          ((tt.lastRun - tt.firstRun) / tt.frequency + 1).toNat else 0) + 1)
      tt.firstRun [] (Nat.lt_succ_self _)
    refine ⟨(if tt.firstRun ≤ tt.lastRun then
          ((tt.lastRun - tt.firstRun) / tt.frequency + 1).toNat else 0) + 1,
      [] ++ (List.range (if tt.firstRun ≤ tt.lastRun then
          ((tt.lastRun - tt.firstRun) / tt.frequency + 1).toNat else 0)).map
            (fun (i : Nat) => tt.firstRun + (i : Int) * tt.frequency), ?_, ?_⟩
    · intro fuel hfuel
      unfold getDepartureTimesBuilt
      rw [if_neg h0, departureTimesLoopBuilt_eq tt.lastRun tt.frequency hpos (by omega) fuel
        tt.firstRun [] (by omega)]
      exact departureTimesLoop_fuel_mono _ _ _ _ _ _ h fuel hfuel
    · intro t
      simp only [List.nil_append, List.mem_map, List.mem_range]
      constructor
      · rintro ⟨i, hi, rfl⟩
        refine Or.inr ⟨hpos, i, rfl, ?_⟩
        by_cases hle : tt.firstRun ≤ tt.lastRun
        · simp only [hle, if_true] at hi
          have hq : 0 ≤ (tt.lastRun - tt.firstRun) / tt.frequency :=
            Int.ediv_nonneg (by omega) (le_of_lt hpos)
          have hi2 : (i : Int) ≤ (tt.lastRun - tt.firstRun) / tt.frequency := by omega
          have := (Int.le_ediv_iff_mul_le hpos).mp hi2
          omega
        · simp only [hle, if_false] at hi
          omega
      · rintro (⟨h, _⟩ | ⟨_, i, rfl, hle⟩)
        · exact absurd h h0
        · refine ⟨i, ?_, rfl⟩
          have hnn : 0 ≤ (i : Int) * tt.frequency :=
            mul_nonneg (Int.ofNat_nonneg i) (le_of_lt hpos)
          have hfl : tt.firstRun ≤ tt.lastRun := by omega
          simp only [hfl, if_true]
          have hi2 : (i : Int) ≤ (tt.lastRun - tt.firstRun) / tt.frequency :=
            (Int.le_ediv_iff_mul_le hpos).mpr (by omega)
          omega

theorem getFirstDepartureTime_head (tt : Timetable) (f0 : TimetableStop)
    (hhead : tt.stops.head? = some f0) : tt.getFirstDepartureTime = f0.departureTime := by
  unfold getFirstDepartureTime
  cases hs : tt.stops with
  | nil => rw [hs] at hhead; simp at hhead
  | cons s rest =>
    rw [hs] at hhead
    simp only [List.head?_cons, Option.some.injEq] at hhead
    rw [hhead]

theorem getLastArrivalTime_last (tt : Timetable) (l0 : TimetableStop)
    (hlast : tt.stops.getLast? = some l0) : tt.getLastArrivalTime = l0.arrivalTime := by
  unfold getLastArrivalTime
  rw [hlast]

end Timetable

/-- C12 (counterexample). The timetable `wrapTimetable` (frequency 1000000000,
first run 0, last run 2147483647) has a run of non-negative duration, and
compared with itself it has the same train id, overlapping validity windows, a
common running day and overlapping run intervals; yet with the 32-bit loop
counter of the build `hasConflicts` does not return for any bound on the rounds
of the departure-time loop, so it does not answer true. -/
theorem hasConflicts_counter_wraps_counterexample :
    wrapTimetable.stops.head?.map (fun s => s.departureTime) = some 5 ∧
    wrapTimetable.stops.getLast?.map (fun s => s.arrivalTime) = some 30 ∧
    wrapTimetable.trainId = wrapTimetable.trainId ∧
    (wrapTimetable.validFrom ≤ wrapTimetable.validTo) ∧
    wrapTimetable.runningDays.testBit 0 = true ∧
    (0 < wrapTimetable.frequency ∧ wrapTimetable.firstRun ≤ wrapTimetable.lastRun) ∧
    (∀ fuel : Nat, wrapTimetable.hasConflictsBuilt fuel (some wrapTimetable) = none) := by
  refine ⟨by decide, by decide, rfl, by decide, by decide, by decide, ?_⟩
  intro fuel
  have hloop := Timetable.departureTimesLoopBuilt_never 1000000000 fuel 0 [] (by decide)
  have hget : wrapTimetable.getDepartureTimesBuilt fuel = none := by
    unfold Timetable.getDepartureTimesBuilt
    rw [if_neg (by decide)]
    exact hloop
  have hw : ¬ (wrapTimetable.validTo < wrapTimetable.validFrom ∨
      wrapTimetable.validFrom > wrapTimetable.validTo) := by decide
  have hd : ¬ (TimetableDays.and wrapTimetable.runningDays wrapTimetable.runningDays =
      TimetableDays.NONE) := by decide
  unfold Timetable.hasConflictsBuilt
  simp only []
  rw [if_neg (by simp), if_neg hw, if_neg hd, hget]

/-- C12 (amended). Let `a` and `b` be timetables with at least one stop each, `fa`
and `la` the first and the last stop of `a`, `fb` and `lb` those of `b`, the
first departure not after the last arrival, and the first departure, last
arrival, `firstRun`, `lastRun` and `frequency` all between 0 and 1000000000
minutes, so that no 32-bit sum wraps around. Then `a.hasConflicts(b)` returns,
and it is true exactly when the two have the same train id, their validity
windows overlap, their running-day masks share a set day bit, and some run
interval `[ta, ta + (la.arrivalTime - fa.departureTime)]` of `a` shares a minute
with some run interval of `b`, where the departure times of a timetable are the
first stop's departure time when `frequency == 0` and the times
`firstRun + i * frequency` up to `lastRun` otherwise; `hasConflicts(null)` is
false. A set bit of a mask built from the seven day enumerators is one of the
seven days. -/
theorem hasConflicts_iff (a b : Timetable) (fa la fb lb : TimetableStop)
    (hfa : a.stops.head? = some fa) (hla : a.stops.getLast? = some la)
    (hfb : b.stops.head? = some fb) (hlb : b.stops.getLast? = some lb)
    (hda : fa.departureTime ≤ la.arrivalTime)
    (hdb : fb.departureTime ≤ lb.arrivalTime)
    (hra : 0 ≤ fa.departureTime ∧ la.arrivalTime ≤ 1000000000 ∧ 0 ≤ a.firstRun ∧
      a.lastRun ≤ 1000000000 ∧ 0 ≤ a.frequency ∧ a.frequency ≤ 1000000000)
    (hrb : 0 ≤ fb.departureTime ∧ lb.arrivalTime ≤ 1000000000 ∧ 0 ≤ b.firstRun ∧
      b.lastRun ≤ 1000000000 ∧ 0 ≤ b.frequency ∧ b.frequency ≤ 1000000000) :
    (∀ fuel, a.hasConflictsBuilt fuel none = some false) ∧
    (∃ (N : Nat) (r : Bool),
      (∀ fuel, N ≤ fuel → a.hasConflictsBuilt fuel (some b) = some r) ∧
      (r = true ↔
        a.trainId = b.trainId ∧
        (a.validFrom ≤ b.validTo ∧ b.validFrom ≤ a.validTo) ∧
        (∃ k, a.runningDays.testBit k = true ∧ b.runningDays.testBit k = true) ∧
        ∃ ta tb m : Int,
          ((a.frequency = 0 ∧ ta = fa.departureTime) ∨
           (0 < a.frequency ∧
             ∃ i : Nat, ta = a.firstRun + (i : Int) * a.frequency ∧ ta ≤ a.lastRun)) ∧
          ((b.frequency = 0 ∧ tb = fb.departureTime) ∨
           (0 < b.frequency ∧
             ∃ i : Nat, tb = b.firstRun + (i : Int) * b.frequency ∧ tb ≤ b.lastRun)) ∧
          ta ≤ m ∧ m ≤ ta + (la.arrivalTime - fa.departureTime) ∧
          tb ≤ m ∧ m ≤ tb + (lb.arrivalTime - fb.departureTime))) ∧
    (∀ k, 0 ≤ a.runningDays → a.runningDays < 128 →
      a.runningDays.testBit k = true → k < 7) := by
  obtain ⟨Na, tsa, hNa, hma⟩ := Timetable.getDepartureTimesBuilt_spec a fa hfa
    ⟨hra.2.2.1, hra.2.2.2.1, hra.2.2.2.2.1, hra.2.2.2.2.2⟩
  obtain ⟨Nb, tsb, hNb, hmb⟩ := Timetable.getDepartureTimesBuilt_spec b fb hfb
    ⟨hrb.2.2.1, hrb.2.2.2.1, hrb.2.2.2.2.1, hrb.2.2.2.2.2⟩
  have hfirstA := Timetable.getFirstDepartureTime_head a fa hfa
  have hlastA := Timetable.getLastArrivalTime_last a la hla
  have hfirstB := Timetable.getFirstDepartureTime_head b fb hfb
  have hlastB := Timetable.getLastArrivalTime_last b lb hlb
  have hrangeA : ∀ t ∈ tsa, 0 ≤ t ∧ t ≤ 1000000000 := by
    intro t ht
    rcases (hma t).mp ht with ⟨_, h⟩ | ⟨hpos, i, h, hle⟩
    · omega
    · have hnn : 0 ≤ (i : Int) * a.frequency :=
        mul_nonneg (Int.ofNat_nonneg i) (le_of_lt hpos)
      omega
  have hrangeB : ∀ t ∈ tsb, 0 ≤ t ∧ t ≤ 1000000000 := by
    intro t ht
    rcases (hmb t).mp ht with ⟨_, h⟩ | ⟨hpos, i, h, hle⟩
    · omega
    · have hnn : 0 ≤ (i : Int) * b.frequency :=
        mul_nonneg (Int.ofNat_nonneg i) (le_of_lt hpos)
      omega
  have hpair : ∀ ta ∈ tsa, ∀ tb ∈ tsb,
      (Timetable.runsOverlap ta
        (int32 (int32 (a.getLastArrivalTime - a.getFirstDepartureTime) + ta)) tb
        (int32 (int32 (b.getLastArrivalTime - b.getFirstDepartureTime) + tb)) = true ↔
      ∃ m : Int, ta ≤ m ∧ m ≤ ta + (la.arrivalTime - fa.departureTime) ∧
        tb ≤ m ∧ m ≤ tb + (lb.arrivalTime - fb.departureTime)) := by
    intro ta hta tb htb
    have hA := hrangeA ta hta
    have hB := hrangeB tb htb
    rw [hfirstA, hlastA, hfirstB, hlastB,
      int32_eq (la.arrivalTime - fa.departureTime) (by omega),
      int32_eq (lb.arrivalTime - fb.departureTime) (by omega),
      int32_eq (la.arrivalTime - fa.departureTime + ta) (by omega),
      int32_eq (lb.arrivalTime - fb.departureTime + tb) (by omega),
      Timetable.runsOverlap_iff _ _ _ _ (by omega) (by omega)]
    constructor
    · rintro ⟨m, h1, h2, h3, h4⟩
      exact ⟨m, h1, by omega, h3, by omega⟩
    · rintro ⟨m, h1, h2, h3, h4⟩
      exact ⟨m, h1, by omega, h3, by omega⟩
  refine ⟨fun _ => rfl, ?_, fun k h0 h1 hk => day_mask_bit_lt_seven _ h0 h1 k hk⟩
  by_cases hid : b.trainId ≠ a.trainId
  · refine ⟨0, false, ?_, ?_⟩
    · intro fuel _
      unfold Timetable.hasConflictsBuilt
      simp only []
      rw [if_pos hid]
    · constructor
      · intro h; exact Bool.noConfusion h
      · rintro ⟨h, _⟩; exact absurd h.symm hid
  · have hid2 : b.trainId = a.trainId := not_not.mp hid
    by_cases hwin : a.validTo < b.validFrom ∨ a.validFrom > b.validTo
    · refine ⟨0, false, ?_, ?_⟩
      · intro fuel _
        unfold Timetable.hasConflictsBuilt
        simp only []
        rw [if_neg hid, if_pos hwin]
      · constructor
        · intro h; exact Bool.noConfusion h
        · rintro ⟨_, ⟨h1, h2⟩, _⟩
          rcases hwin with h | h <;> omega
    · have hwin2 : a.validFrom ≤ b.validTo ∧ b.validFrom ≤ a.validTo := by
        constructor
        · by_contra hc; exact hwin (Or.inr (by omega))
        · by_contra hc; exact hwin (Or.inl (by omega))
      by_cases hdays : TimetableDays.and a.runningDays b.runningDays = TimetableDays.NONE
      · refine ⟨0, false, ?_, ?_⟩
        · intro fuel _
          unfold Timetable.hasConflictsBuilt
          simp only []
          rw [if_neg hid, if_neg hwin, if_pos hdays]
        · constructor
          · intro h; exact Bool.noConfusion h
          · rintro ⟨_, _, hbits, _⟩
            exact absurd hdays ((TimetableDays.and_ne_none_iff _ _).mpr hbits)
      · have hbits := (TimetableDays.and_ne_none_iff _ _).mp hdays
        refine ⟨max Na Nb,
          tsa.any (fun thisTime =>
            tsb.any (fun otherTime =>
              Timetable.runsOverlap thisTime
                (int32 (int32 (a.getLastArrivalTime - a.getFirstDepartureTime) + thisTime))
                otherTime
                (int32 (int32 (b.getLastArrivalTime - b.getFirstDepartureTime) + otherTime)))),
          ?_, ?_⟩
        · intro fuel hfuel
          unfold Timetable.hasConflictsBuilt
          simp only []
          rw [if_neg hid, if_neg hwin, if_neg hdays,
            hNa fuel (le_trans (le_max_left _ _) hfuel),
            hNb fuel (le_trans (le_max_right _ _) hfuel)]
        · rw [List.any_eq_true]
          constructor
          · rintro ⟨ta, hta_mem, hany⟩
            rw [List.any_eq_true] at hany
            obtain ⟨tb, htb_mem, hov⟩ := hany
            obtain ⟨m, hm⟩ := (hpair ta hta_mem tb htb_mem).mp hov
            exact ⟨hid2.symm, hwin2, hbits, ta, tb, m, (hma ta).mp hta_mem,
              (hmb tb).mp htb_mem, hm⟩
          · rintro ⟨_, _, _, ta, tb, m, hta, htb, hm⟩
            have hta_mem := (hma ta).mpr hta
            have htb_mem := (hmb tb).mpr htb
            refine ⟨ta, hta_mem, ?_⟩
            rw [List.any_eq_true]
            exact ⟨tb, htb_mem, (hpair ta hta_mem tb htb_mem).mpr ⟨m, hm⟩⟩

/-- Witness for C12: the sample timetable (run 5..30) conflicts with a timetable
of the same train running 20..50, and not with one running 31..60. -/
theorem hasConflicts_iff_witness :
    (∃ N : Nat, ∀ fuel, N ≤ fuel →
      sampleTimetable.hasConflictsBuilt fuel (some conflictingTimetable) = some true) ∧
    (∃ N : Nat, ∀ fuel, N ≤ fuel →
      sampleTimetable.hasConflictsBuilt fuel (some laterTimetable) = some false) ∧
    sampleTimetable.hasConflictsBuilt 1 none = some false := by
  have h1 := hasConflicts_iff sampleTimetable conflictingTimetable
    { stationId := "A", arrivalTime := 0, departureTime := 5, platform := 1 }
    { stationId := "B", arrivalTime := 30, departureTime := 32, platform := 2 }
    { stationId := "A", arrivalTime := 20, departureTime := 20, platform := 1 }
    { stationId := "B", arrivalTime := 50, departureTime := 52, platform := 2 }
    (by decide) (by decide) (by decide) (by decide) (by decide) (by decide)
    (by decide) (by decide)
  have h2 := hasConflicts_iff sampleTimetable laterTimetable
    { stationId := "A", arrivalTime := 0, departureTime := 5, platform := 1 }
    { stationId := "B", arrivalTime := 30, departureTime := 32, platform := 2 }
    { stationId := "A", arrivalTime := 31, departureTime := 31, platform := 1 }
    { stationId := "B", arrivalTime := 60, departureTime := 62, platform := 2 }
    (by decide) (by decide) (by decide) (by decide) (by decide) (by decide)
    (by decide) (by decide)
  refine ⟨?_, ?_, h1.1 1⟩
  · obtain ⟨N, r, hrun, hiff⟩ := h1.2.1
    have hr : r = true :=
      hiff.mpr ⟨by decide, by decide, ⟨0, by decide, by decide⟩, 5, 20, 20,
        Or.inl ⟨by decide, by decide⟩, Or.inl ⟨by decide, by decide⟩,
        by decide, by decide, by decide, by decide⟩
    subst hr
    exact ⟨N, hrun⟩
  · obtain ⟨N, r, hrun, hiff⟩ := h2.2.1
    have hr : r = false := by
      cases r with
      | false => rfl
      | true =>
        obtain ⟨_, _, _, ta, tb, m, hta, htb, h3, h4, h5, _⟩ := hiff.mp rfl
        have hta5 : ta = 5 := by
          rcases hta with ⟨_, h⟩ | ⟨h, _⟩
          · exact h
          · exact absurd h (by decide)
        have htb31 : tb = 31 := by
          rcases htb with ⟨_, h⟩ | ⟨h, _⟩
          · exact h
          · exact absurd h (by decide)
        subst hta5
        subst htb31
        have h4b : m ≤ 5 + (30 - 5) := h4
        omega
    subst hr
    exact ⟨N, hrun⟩

/-! ## C18: congestion penalty -/

namespace SimulationEngine

theorem getStation_id (eng : SimulationEngine) (stationId : String) (station : Station)
    (h : eng.gameState.getStation stationId = some station) : station.id = stationId := by
  unfold GameState.getStation at h
  have := List.find?_some h
  simpa using this

end SimulationEngine

/-! ## C29: platform occupation is unchecked -/

theorem modifyFirst_at {α : Type} (q : α → Bool) (f : α → α) (x : α) (post : List α) :
    ∀ pre : List α, (∀ y ∈ pre, q y = false) → q x = true →
      modifyFirst q f (pre ++ x :: post) = pre ++ f x :: post := by
  intro pre
  induction pre with
  | nil =>
    intro _ hx
    simp [modifyFirst, hx]
  | cons y ys ih =>
    intro hpre hx
    have hy : q y = false := hpre y (List.mem_cons_self _ _)
    have := ih (fun z hz => hpre z (List.mem_cons_of_mem _ hz)) hx
    simp [modifyFirst, hy, this]

theorem find?_split {α : Type} (q : α → Bool) :
    ∀ (l : List α) (x : α), l.find? q = some x →
      ∃ pre post, l = pre ++ x :: post ∧ (∀ y ∈ pre, q y = false) ∧ q x = true := by
  intro l
  induction l with
  | nil => intro x h; simp at h
  | cons y ys ih =>
    intro x h
    by_cases hy : q y = true
    · rw [List.find?_cons_of_pos _ hy] at h
      have hxy : y = x := Option.some.inj h
      exact ⟨[], ys, by rw [hxy]; rfl, by simp, by rw [← hxy]; exact hy⟩
    · rw [List.find?_cons_of_neg _ hy] at h
      obtain ⟨pre, post, hl, hpre, hx⟩ := ih x h
      refine ⟨y :: pre, post, by rw [hl]; rfl, ?_, hx⟩
      intro z hz
      rcases List.mem_cons.mp hz with h1 | h1
      · rw [h1]; simpa using hy
      · exact hpre z h1

theorem find?_at {α : Type} (q : α → Bool) (x : α) (post : List α) :
    ∀ pre : List α, (∀ y ∈ pre, q y = false) → q x = true →
      (pre ++ x :: post).find? q = some x := by
  intro pre
  induction pre with
  | nil => intro _ hx; simp [hx]
  | cons y ys ih =>
    intro hpre hx
    have hy : q y = false := hpre y (List.mem_cons_self _ _)
    have := ih (fun z hz => hpre z (List.mem_cons_of_mem _ hz)) hx
    simp [List.find?_cons, hy, this]

/-- C29. For every station, platform number `n` and train id `t`:
when the station has a platform numbered `n`, `occupyPlatform(n, t)` makes `t`
the recorded occupant of that platform (the first one numbered `n`) whatever its
previous state, so also when another train `u` holds it, changes no other
platform and nothing else of the station but the counter `totalTrainsToday`;
when the station has no platform numbered `n`, the call changes nothing. -/
theorem occupyPlatform_last_arrival_wins (s : Station) (n : Int) (t : String) :
    (∀ p : Platform, s.getPlatform n = some p →
      p.number = n ∧
      (s.occupyPlatform n t).getPlatform n = some { p with occupied := true, trainId := t } ∧
      ∃ pre post : List Platform,
        s.platforms = pre ++ p :: post ∧ (∀ q ∈ pre, q.number ≠ n) ∧
        s.occupyPlatform n t =
          { s with
            platforms := pre ++ { p with occupied := true, trainId := t } :: post,
            stats := { s.stats with totalTrainsToday := s.stats.totalTrainsToday + 1 } }) ∧
    (s.getPlatform n = none → s.occupyPlatform n t = s) := by
  constructor
  · intro p hp
    have hp0 := hp
    unfold Station.getPlatform at hp
    obtain ⟨pre, post, hl, hpre, hx⟩ := find?_split _ _ _ hp
    have hnum : p.number = n := by simpa using hx
    have hocc : s.occupyPlatform n t =
        { s with
          platforms := pre ++ { p with occupied := true, trainId := t } :: post,
          stats := { s.stats with totalTrainsToday := s.stats.totalTrainsToday + 1 } } := by
      unfold Station.occupyPlatform
      rw [hp0]
      dsimp only
      rw [hl, modifyFirst_at _ _ _ _ _ hpre hx]
    refine ⟨hnum, ?_, pre, post, hl, ?_, hocc⟩
    · rw [hocc]
      unfold Station.getPlatform
      dsimp only
      exact find?_at _ _ _ _ hpre (by simpa using hnum)
    · intro q hq
      have := hpre q hq
      simpa using this
  · intro h
    unfold Station.occupyPlatform
    rw [h]

/-- Witness for C29: platform 1 of the busy station, held by `U1`, is taken over
by `T1`; platform 7 does not exist. -/
theorem occupyPlatform_last_arrival_wins_witness :
    busyStation.getPlatform 1 = some { number := 1, occupied := true, trainId := "U1" } ∧
    (busyStation.occupyPlatform 1 "T1").getPlatform 1 =
      some { number := 1, occupied := true, trainId := "T1" } ∧
    (busyStation.occupyPlatform 1 "T1").getPlatform 2 = busyStation.getPlatform 2 ∧
    busyStation.occupyPlatform 7 "T1" = busyStation :=
  ⟨by decide,
    ((occupyPlatform_last_arrival_wins busyStation 1 "T1").1
      { number := 1, occupied := true, trainId := "U1" } (by decide)).2.1,
    by decide,
    (occupyPlatform_last_arrival_wins busyStation 7 "T1").2 (by decide)⟩

/-! ## C21: stale-platform reconciliation -/

namespace Station

theorem addPlatform_numbers_nodup (s : Station) (platform : Platform)
    (h : (s.platforms.map (fun p => p.number)).Nodup) :
    ((s.addPlatform platform).platforms.map (fun p => p.number)).Nodup := by
  unfold addPlatform
  cases hf : s.platforms.find? (fun p => p.number == platform.number) with
  | some _ => exact h
  | none =>
    dsimp only
    have hperm := List.perm_insertionSort (fun a b : Platform => a.number ≤ b.number)
      (s.platforms ++ [platform])
    refine (List.Perm.nodup_iff (List.Perm.map _ hperm)).mpr ?_
    rw [List.map_append, List.map_cons, List.map_nil]
    refine List.Nodup.append h (List.nodup_singleton _) ?_
    intro x hx hx2
    have hx3 : x = platform.number := by simpa using hx2
    obtain ⟨q, hq, hqx⟩ := List.mem_map.mp hx
    have := List.find?_eq_none.mp hf q hq
    apply this
    simp only [beq_iff_eq]
    rw [hqx, hx3]

theorem freePlatform_at (s : Station) (pre post : List Platform) (p : Platform)
    (hl : s.platforms = pre ++ p :: post) (hpre : ∀ q ∈ pre, q.number ≠ p.number) :
    s.freePlatform p.number =
      { s with platforms := pre ++ { p with occupied := false, trainId := "" } :: post } := by
  have hpre2 : ∀ q ∈ pre, (fun x : Platform => x.number == p.number) q = false := by
    intro q hq
    simpa using hpre q hq
  have hx : (fun x : Platform => x.number == p.number) p = true := by simp
  unfold freePlatform getPlatform
  rw [hl, find?_at _ _ _ _ hpre2 hx]
  dsimp only
  rw [modifyFirst_at _ _ _ _ _ hpre2 hx]

end Station

namespace SimulationEngine

theorem get?_length_append {α : Type} (pre : List α) (x : α) (post : List α) :
    (pre ++ x :: post).get? pre.length = some x := by
  induction pre with
  | nil => rfl
  | cons y ys ih => exact ih

theorem checkPlatformConflictsLoop_spec (gs : GameState) :
    ∀ (post pre : List Platform) (station : Station),
      station.platforms = pre ++ post →
      ((pre ++ post).map (fun p => p.number)).Nodup →
      checkPlatformConflictsLoop gs post.length pre.length station =
        { station with platforms := pre ++ post.map (Platform.reconciled gs station.id) } := by
  intro post
  induction post with
  | nil =>
    intro pre station hl _
    unfold checkPlatformConflictsLoop
    rw [List.map_nil, ← hl]
    rfl
  | cons p post ih =>
    intro pre station hl hnd
    have hget : station.platforms.get? pre.length = some p := by
      rw [hl]
      exact get?_length_append pre p post
    have hpre : ∀ q ∈ pre, q.number ≠ p.number := by
      intro q hq hqp
      rw [List.map_append, List.map_cons] at hnd
      have hdis := (List.nodup_append.mp hnd).2.2
      exact hdis (List.mem_map.mpr ⟨q, hq, rfl⟩) (by rw [hqp]; exact List.mem_cons_self _ _)
    have hstep :
        (if p.occupied = true then
          match gs.getTrain p.trainId with
          | some train =>
            if train.currentStationId ≠ station.id then station.freePlatform p.number
            else station
          | none => station.freePlatform p.number
        else station) =
        { station with platforms := pre ++ Platform.reconciled gs station.id p :: post } := by
      have hkeep : station = { station with platforms := pre ++ p :: post } := by
        rw [← hl]
      have hfree := Station.freePlatform_at station pre post p hl hpre
      unfold Platform.reconciled Platform.stale
      by_cases hocc : p.occupied = true
      · rw [if_pos hocc]
        cases hg : gs.getTrain p.trainId with
        | none =>
          dsimp only
          rw [hfree]
          simp [hocc]
        | some train =>
          dsimp only
          by_cases hcur : train.currentStationId ≠ station.id
          · rw [if_pos hcur, hfree]
            simp [hocc, hcur]
          · rw [if_neg hcur]
            have hcur2 : train.currentStationId = station.id := not_not.mp hcur
            simp only [hocc, hcur2, ne_eq, not_true_eq_false, decide_False, Bool.and_false,
              Bool.false_eq_true, if_false]
            exact hkeep
      · rw [if_neg hocc]
        simp only [Bool.not_eq_true] at hocc
        simp only [hocc, Bool.false_and, Bool.false_eq_true, if_false]
        exact hkeep
    show checkPlatformConflictsLoop gs (post.length + 1) pre.length station = _
    unfold checkPlatformConflictsLoop
    rw [hget]
    dsimp only
    rw [hstep]
    have hlen : pre.length + 1 = (pre ++ [Platform.reconciled gs station.id p]).length := by
      simp
    rw [hlen]
    have hnum : (Platform.reconciled gs station.id p).number = p.number := by
      unfold Platform.reconciled
      split <;> rfl
    rw [ih (pre ++ [Platform.reconciled gs station.id p])
      { station with platforms := pre ++ Platform.reconciled gs station.id p :: post }
      (by simp) (by
        simp only [List.map_append, List.map_cons, List.map_nil, hnum, List.append_assoc,
          List.singleton_append]
        simpa using hnd)]
    simp

end SimulationEngine

theorem checkPlatformConflictsLoop_id (gs : GameState) :
    ∀ (k i : Nat) (station : Station),
      (SimulationEngine.checkPlatformConflictsLoop gs k i station).id = station.id := by
  intro k
  induction k with
  | zero => intro i station; rfl
  | succ k ih =>
    intro i station
    unfold SimulationEngine.checkPlatformConflictsLoop
    cases station.platforms.get? i with
    | none => rfl
    | some platform =>
      dsimp only
      rw [ih]
      split
      · split
        · split
          · exact SimulationEngine.freePlatform_id _ _
          · rfl
        · exact SimulationEngine.freePlatform_id _ _
      · rfl

/-- C21. For every registered station with distinct platform numbers (the
invariant that `addPlatform` maintains), `checkPlatformConflicts(station)`
returns false and leaves the station with each platform reconciled in place: a
platform marked occupied whose recorded train is missing from the registry or
has another current station is freed (occupied false, train id empty), every
other platform is unchanged. Hence every platform still marked occupied
references a registered train whose current station is this station. Trains and
other stations are unchanged. -/
theorem checkPlatformConflicts_spec (eng : SimulationEngine) (stationId : String)
    (station : Station) (hst : eng.gameState.getStation stationId = some station)
    (hnum : (station.platforms.map (fun p => p.number)).Nodup) :
    (eng.checkPlatformConflicts stationId).1 = false ∧
    (eng.checkPlatformConflicts stationId).2.gameState.getStation stationId =
      some { station with
        platforms := station.platforms.map (Platform.reconciled eng.gameState stationId) } ∧
    (eng.checkPlatformConflicts stationId).2.gameState.trains = eng.gameState.trains ∧
    (∀ other, other ≠ stationId →
      (eng.checkPlatformConflicts stationId).2.gameState.getStation other =
        eng.gameState.getStation other) ∧
    (∀ p ∈ station.platforms.map (Platform.reconciled eng.gameState stationId),
      p.occupied = true →
      ∃ train, eng.gameState.getTrain p.trainId = some train ∧
        train.currentStationId = stationId) ∧
    (∀ p ∈ station.platforms, p.occupied = true →
      (eng.gameState.getTrain p.trainId = none ∨
        ∃ train, eng.gameState.getTrain p.trainId = some train ∧
          train.currentStationId ≠ stationId) →
      Platform.reconciled eng.gameState stationId p =
        { p with occupied := false, trainId := "" }) ∧
    (∀ p ∈ station.platforms,
      (p.occupied = false ∨
        ∃ train, eng.gameState.getTrain p.trainId = some train ∧
          train.currentStationId = stationId) →
      Platform.reconciled eng.gameState stationId p = p) := by
  have hid : station.id = stationId := SimulationEngine.getStation_id eng stationId station hst
  subst hid
  refine ⟨?_, ?_, ?_, ?_, ?_, ?_, ?_⟩
  · unfold SimulationEngine.checkPlatformConflicts
    rw [hst]
    rfl
  · unfold SimulationEngine.checkPlatformConflicts
    rw [hst]
    dsimp only
    rw [SimulationEngine.getStation_modifyStation, hst]
    · have h := SimulationEngine.checkPlatformConflictsLoop_spec eng.gameState
        station.platforms [] station rfl hnum
      simp only [Option.map_some', List.length_nil, List.nil_append] at h ⊢
      rw [h]
    · intro s
      exact checkPlatformConflictsLoop_id _ _ _ _
  · unfold SimulationEngine.checkPlatformConflicts
    rw [hst]
    rfl
  · intro other hne
    unfold SimulationEngine.checkPlatformConflicts
    rw [hst]
    dsimp only
    rw [SimulationEngine.getStation_modifyStation_other]
    · intro s
      exact checkPlatformConflictsLoop_id _ _ _ _
    · exact hne
  · intro p hp hocc
    obtain ⟨q, _, hq⟩ := List.mem_map.mp hp
    unfold Platform.reconciled at hq
    by_cases hc : (q.occupied && q.stale eng.gameState station.id) = true
    · rw [if_pos hc] at hq
      rw [← hq] at hocc
      exact Bool.noConfusion hocc
    · rw [if_neg hc] at hq
      rw [hq] at hc
      have hns : p.stale eng.gameState station.id = false := by
        simpa [hocc] using hc
      unfold Platform.stale at hns
      cases hg : eng.gameState.getTrain p.trainId with
      | none => rw [hg] at hns; exact Bool.noConfusion hns
      | some train =>
        rw [hg] at hns
        exact ⟨train, rfl, by simpa using hns⟩
  · intro p _ hocc hstale
    have hs : p.stale eng.gameState station.id = true := by
      unfold Platform.stale
      rcases hstale with h | ⟨train, h, hcur⟩
      · rw [h]
      · rw [h]; simpa using hcur
    unfold Platform.reconciled
    rw [if_pos (by rw [hocc, hs]; rfl)]
  · intro p _ h
    unfold Platform.reconciled
    rw [if_neg]
    rcases h with h | ⟨train, h, hcur⟩
    · rw [h]; simp
    · unfold Platform.stale
      rw [h]
      simp [hcur]

/-- Witness for C21: station `A` with platform 1 held by `T1` (at `A`),
platform 2 held by an unregistered train and platform 3 held by `T2` (at `B`). -/
theorem checkPlatformConflicts_spec_witness :
    staleEngine.gameState.getStation "A" = some staleStation ∧
    (staleStation.platforms.map (fun p => p.number)).Nodup ∧
    (staleEngine.checkPlatformConflicts "A").2.gameState.getStation "A" =
      some { staleStation with
        platforms := staleStation.platforms.map
          (Platform.reconciled staleEngine.gameState "A") } ∧
    staleStation.platforms.map (Platform.reconciled staleEngine.gameState "A") =
      [{ number := 1, occupied := true, trainId := "T1" }, { number := 2 }, { number := 3 }] :=
  ⟨by decide!, by decide,
    (checkPlatformConflicts_spec staleEngine "A" staleStation (by decide!) (by decide)).2.1,
    by decide!⟩

/-! ## C24: timetable validation -/

namespace Timetable

theorem validateStopTimesFrom_spec :
    ∀ (l : List TimetableStop) (prev : Option TimetableStop),
      validateStopTimesFrom prev l = true →
      (∀ s ∈ l, s.arrivalTime ≤ s.departureTime) ∧
      List.Chain' (fun a b : TimetableStop => a.departureTime ≤ b.arrivalTime) l ∧
      (∀ before first, prev = some before → l.head? = some first →
        before.departureTime ≤ first.arrivalTime) := by
  intro l
  induction l with
  | nil =>
    intro prev _
    refine ⟨by simp, List.chain'_nil, ?_⟩
    intro _ _ _ h
    simp at h
  | cons stop rest ih =>
    intro prev h
    unfold validateStopTimesFrom at h
    by_cases h1 : stop.arrivalTime > stop.departureTime
    · rw [if_pos h1] at h; exact Bool.noConfusion h
    · rw [if_neg h1] at h
      have hrest : validateStopTimesFrom (some stop) rest = true ∧
          (∀ before, prev = some before → before.departureTime ≤ stop.arrivalTime) := by
        cases prev with
        | none =>
          dsimp only at h
          exact ⟨h, fun _ hb => Option.noConfusion hb⟩
        | some before =>
          dsimp only at h
          by_cases h2 : stop.arrivalTime < before.departureTime
          · rw [if_pos h2] at h; exact Bool.noConfusion h
          · rw [if_neg h2] at h
            refine ⟨h, ?_⟩
            intro b hb
            have : before = b := Option.some.inj hb
            rw [← this]
            omega
      obtain ⟨hall, hchain, hhead⟩ := ih (some stop) hrest.1
      refine ⟨?_, ?_, ?_⟩
      · intro s hs
        rcases List.mem_cons.mp hs with hs1 | hs1
        · rw [hs1]; omega
        · exact hall s hs1
      · rw [List.chain'_cons']
        refine ⟨?_, hchain⟩
        intro y hy
        exact hhead stop y rfl hy
      · intro before first hb hf
        have : stop = first := by simpa using hf
        rw [← this]
        exact hrest.2 before hb

theorem chain'_get? {α : Type} (R : α → α → Prop) :
    ∀ (l : List α), List.Chain' R l →
      ∀ (i : Nat) (a b : α), l.get? i = some a → l.get? (i + 1) = some b → R a b := by
  intro l
  induction l with
  | nil => intro _ i a b h; simp at h
  | cons x xs ih =>
    intro hc i a b ha hb
    rw [List.chain'_cons'] at hc
    cases i with
    | zero =>
      have hxa : x = a := by simpa using ha
      have hb2 : xs.get? 0 = some b := hb
      have hhead : xs.head? = some b := by
        cases xs with
        | nil => simp at hb2
        | cons y ys => simpa using hb2
      rw [← hxa]
      exact hc.1 b hhead
    | succ j => exact ih hc.2 j a b ha hb

end Timetable

/-- C24 (counterexample). A timetable whose only stop has arrival time 10 and
departure time 5 (platform 1) passes `validate()`. -/
theorem validate_single_stop_counterexample :
    backwardsStopTimetable.validate = true ∧
    ∃ s ∈ backwardsStopTimetable.stops, s.arrivalTime > s.departureTime := by
  refine ⟨by decide, _, List.mem_cons_self _ _, by decide⟩

/-- C24 (amended). For every timetable for which `validate()` returns true:
there is at least one stop and every platform number is between 1 and 20; and
when the timetable has two stops or more, every stop has
`arrivalTime <= departureTime` and every stop after the first has
`arrivalTime >=` the previous stop's `departureTime`. -/
theorem validate_stop_times (tt : Timetable) (h : tt.validate = true) :
    tt.stops ≠ [] ∧
    (∀ s ∈ tt.stops, 1 ≤ s.platform ∧ s.platform ≤ 20) ∧
    (2 ≤ tt.stops.length →
      (∀ s ∈ tt.stops, s.arrivalTime ≤ s.departureTime) ∧
      ∀ (i : Nat) (a b : TimetableStop), tt.stops.get? i = some a →
        tt.stops.get? (i + 1) = some b → a.departureTime ≤ b.arrivalTime) := by
  unfold Timetable.validate at h
  simp only [Bool.and_eq_true, Bool.not_eq_true'] at h
  obtain ⟨⟨htimes, hplat⟩, hne⟩ := h
  refine ⟨?_, ?_, ?_⟩
  · intro hnil
    rw [hnil] at hne
    exact Bool.noConfusion hne
  · intro s hs
    unfold Timetable.validatePlatforms at hplat
    have := List.all_eq_true.mp hplat s hs
    simp only [Bool.not_eq_true', Bool.or_eq_false_iff, decide_eq_false_iff_not, not_lt,
      gt_iff_lt] at this
    exact this
  · intro hlen
    unfold Timetable.validateStopTimes at htimes
    rw [if_neg (by omega)] at htimes
    obtain ⟨hall, hchain, _⟩ := Timetable.validateStopTimesFrom_spec tt.stops none htimes
    exact ⟨hall, Timetable.chain'_get? _ tt.stops hchain⟩

/-- Witness for C24: the sample timetable (stops 0..5 and 30..32) is valid. -/
theorem validate_stop_times_witness :
    sampleTimetable.validate = true ∧
    (∀ s ∈ sampleTimetable.stops, s.arrivalTime ≤ s.departureTime) ∧
    ∀ (i : Nat) (a b : TimetableStop), sampleTimetable.stops.get? i = some a →
      sampleTimetable.stops.get? (i + 1) = some b → a.departureTime ≤ b.arrivalTime :=
  ⟨by decide, (validate_stop_times sampleTimetable (by decide)).2.2 (by decide)⟩

/-! ## C25: optimal speed -/

/-- C25. Over exact rational arithmetic, `calculateOptimalSpeed` returns 0 for
a null train and, for a train,
`min(maxSpeed, 0.8 * maxSpeed * d * (0.5 + 0.5 * condition) * (1 - 0.1 * occupancyRate))`
with `d = 1.1` when the train is delayed and `d = 1` otherwise; for
`maxSpeed >= 0`, condition in `[0, 1]` and occupancy rate in `[0, 1]` the result
lies in `[0, maxSpeed]`. -/
theorem calculateOptimalSpeed_spec (train : Train) :
    SimulationEngine.calculateOptimalSpeed none = 0 ∧
    SimulationEngine.calculateOptimalSpeed (some train) =
      min train.getMaxSpeed
        (8 / 10 * train.getMaxSpeed * (if train.isDelayed = true then 11 / 10 else 1) *
          (1 / 2 + 1 / 2 * train.condition) * (1 - 1 / 10 * train.getOccupancyRate)) ∧
    (0 ≤ train.getMaxSpeed → 0 ≤ train.condition → train.condition ≤ 1 →
      0 ≤ train.getOccupancyRate → train.getOccupancyRate ≤ 1 →
      0 ≤ SimulationEngine.calculateOptimalSpeed (some train) ∧
      SimulationEngine.calculateOptimalSpeed (some train) ≤ train.getMaxSpeed) := by
  have hform : SimulationEngine.calculateOptimalSpeed (some train) =
      min train.getMaxSpeed
        (8 / 10 * train.getMaxSpeed * (if train.isDelayed = true then 11 / 10 else 1) *
          (1 / 2 + 1 / 2 * train.condition) * (1 - 1 / 10 * train.getOccupancyRate)) := by
    unfold SimulationEngine.calculateOptimalSpeed
    dsimp only
    rw [min_comm]
    congr 1
    by_cases hd : train.isDelayed = true
    · simp only [hd, if_true]
      ring
    · simp only [hd, Bool.false_eq_true, if_false]
      ring
  refine ⟨rfl, hform, ?_⟩
  intro hmax hc0 _ ho0 ho1
  rw [hform]
  refine ⟨le_min hmax ?_, min_le_left _ _⟩
  have hd : (0 : Rat) ≤ (if train.isDelayed = true then 11 / 10 else 1) := by
    split <;> norm_num
  have h1 : (0 : Rat) ≤ 1 / 2 + 1 / 2 * train.condition := by linarith
  have h2 : (0 : Rat) ≤ 1 - 1 / 10 * train.getOccupancyRate := by linarith
  have h3 : (0 : Rat) ≤ 8 / 10 * train.getMaxSpeed := by linarith
  exact mul_nonneg (mul_nonneg (mul_nonneg h3 hd) h1) h2

/-- Witness for C25: a delayed train of maximum speed 100 at condition 1/2 and
occupancy 1/2 is given speed 627/10. -/
theorem calculateOptimalSpeed_spec_witness :
    SimulationEngine.calculateOptimalSpeed (some wornDelayedTrain) = 627 / 10 ∧
    0 ≤ SimulationEngine.calculateOptimalSpeed (some wornDelayedTrain) ∧
    SimulationEngine.calculateOptimalSpeed (some wornDelayedTrain) ≤
      wornDelayedTrain.getMaxSpeed :=
  ⟨by decide!,
    (calculateOptimalSpeed_spec wornDelayedTrain).2.2 (by decide!) (by decide!) (by decide!)
      (by decide!) (by decide!)⟩

/-! ## C26: draining terminates -/

theorem queueWeight_le_twice_due (now : Int) (q : List SimulationEvent) :
    queueWeight now q ≤ 2 * (q.filter (SimulationEvent.isDue now)).length := by
  induction q with
  | nil => simp [queueWeight]
  | cons e es ih =>
    unfold queueWeight at ih ⊢
    rw [List.map_cons, List.sum_cons, List.filter_cons]
    by_cases hdue : e.time ≤ now
    · have hi : SimulationEvent.isDue now e = true := by
        simp [SimulationEvent.isDue, hdue]
      have hd : dueWeight now e ≤ 2 := by
        unfold dueWeight
        rw [if_pos hdue]
        split <;> omega
      rw [if_pos hi, List.length_cons]
      omega
    · have hi : ¬ (SimulationEvent.isDue now e = true) := by
        simp [SimulationEvent.isDue, hdue]
      have hd : dueWeight now e = 0 := by
        unfold dueWeight
        rw [if_neg hdue]
      rw [if_neg hi, hd]
      omega

namespace SimulationEngine

theorem processEventsLoop_count (ai : PassengerAI) (now : Int) (clock : Nat → Int)
    (hclk : ∀ k, now ≤ clock k) :
    ∀ (fuel : Nat) (eng : SimulationEngine) (handled : List SimulationEvent),
      queueWeight now eng.eventQueue < fuel →
      ∃ (eng' : SimulationEngine) (handled' : List SimulationEvent),
        processEventsLoop ai now clock fuel eng handled = some (eng', handled ++ handled') ∧
        handled'.length ≤ queueWeight now eng.eventQueue := by
  intro fuel
  induction fuel with
  | zero => intro eng handled h; exact absurd h (Nat.not_lt_zero _)
  | succ fuel ih =>
    intro eng handled hw
    unfold processEventsLoop
    cases hq : queueTop eng.eventQueue with
    | none => exact ⟨eng, [], by simp, by simp⟩
    | some m =>
      dsimp only
      have hmem : m ∈ eng.eventQueue := queueTop_mem hq
      by_cases hdue : m.time ≤ now
      · simp only [hdue, if_true]
        rw [queuePop_of_top hq]
        obtain ⟨fs, hq2, hfu⟩ := handleEvent_queue ai (clock handled.length)
          { eng with eventQueue := eng.eventQueue.erase m } m
        have hq2' : (handleEvent ai (clock handled.length)
            { eng with eventQueue := eng.eventQueue.erase m } m).eventQueue =
            eng.eventQueue.erase m ++ fs := hq2
        have hwt := followUps_weight (hclk handled.length) hdue hfu
        have hsplit := @queueWeight_erase now _ _ hmem
        have hw2 : queueWeight now (eng.eventQueue.erase m ++ fs) < fuel := by
          rw [queueWeight_append]
          omega
        have hw3 : queueWeight now (eng.eventQueue.erase m ++ fs) + 1 ≤
            queueWeight now eng.eventQueue := by
          rw [queueWeight_append]
          omega
        rw [← hq2'] at hw2 hw3
        obtain ⟨eng', h'', hrun, hlen⟩ := ih _ (handled ++ [m]) hw2
        refine ⟨eng', m :: h'', ?_, ?_⟩
        · rw [hrun]
          simp
        · rw [List.length_cons]
          omega
      · simp only [hdue, if_false]
        exact ⟨eng, [], by simp, by simp⟩

end SimulationEngine

/-! ## C22: maintenance auto-trigger -/

/-- C22 (the code at the failing input). The only active train has condition
3/10, so `needsMaintenance()` holds. After one `update` tick the queue holds one
maintenance event for it, one hour ahead; a second tick, with that event still
pending, schedules another one: two maintenance events are pending for the same
train. -/
theorem maintenance_events_accumulate :
    wornEngine.activeTrains = ["M1"] ∧
    (wornEngine.gameState.getTrain "M1").map (fun t => t.needsMaintenance) = some true ∧
    wornEngine.pendingMaintenance "M1" = 0 ∧
    (wornEngine.update quietInputs 1).map (fun e => e.eventQueue) =
      some [{ time := hours 1, type := "maintenance", entityId := "M1" }] ∧
    ((wornEngine.update quietInputs 1).bind (fun e => e.update quietInputs 1)).map
      (fun e => e.pendingMaintenance "M1") = some 2 := by
  decide!

/-! ## C23: a broken train -/

/-- C23 (the code at the failing input). The registered train `T1` is Broken.
`stopTrain` and `emergencyStop` leave it Waiting, a processed maintenance event
leaves it in Maintenance, and the processed departure event of its timetable
from station `A` puts it back InService; `dispatchTrain` leaves it Broken. -/
theorem broken_train_leaves_broken :
    (brokenEngine.gameState.getTrain "T1").map (fun t => t.status) =
      some TrainStatus.BROKEN ∧
    ((brokenEngine.stopTrain "T1").gameState.getTrain "T1").map (fun t => t.status) =
      some TrainStatus.WAITING ∧
    ((brokenEngine.emergencyStop "T1").gameState.getTrain "T1").map (fun t => t.status) =
      some TrainStatus.WAITING ∧
    ((brokenEngine.handleEvent sampleAI 0
        { time := 0, type := "maintenance", entityId := "T1" }).gameState.getTrain "T1").map
      (fun t => t.status) = some TrainStatus.MAINTENANCE ∧
    ((brokenEngine.handleEvent sampleAI 0
        { time := 0, type := "departure", entityId := "T1", data := "A" }
      ).gameState.getTrain "T1").map (fun t => t.status) = some TrainStatus.IN_SERVICE ∧
    ((brokenEngine.dispatchTrain 0 "T1" "TT1").gameState.getTrain "T1").map
      (fun t => t.status) = some TrainStatus.BROKEN := by
  decide!

/-! ## C27: dispatch and the departure event -/

/-- C27 (the code at the failing input). The train `T1` can depart. Dispatched
on a registered timetable without stops, or on one whose first stop is at an
unregistered station, it is put InService with that timetable assigned, and the
event queue stays empty. -/
theorem dispatchTrain_without_departure_event :
    (looseEngine.gameState.getTrain "T1").map (fun t => (t.canDepart, t.status)) =
      some (true, TrainStatus.AVAILABLE) ∧
    looseEngine.eventQueue = [] ∧
    ((looseEngine.dispatchTrain 0 "T1" "EMPTY").gameState.getTrain "T1").map
      (fun t => (t.status, t.assignedTimetableId)) = some (TrainStatus.IN_SERVICE, "EMPTY") ∧
    (looseEngine.dispatchTrain 0 "T1" "EMPTY").eventQueue = [] ∧
    ((looseEngine.dispatchTrain 0 "T1" "NOWHERE").gameState.getTrain "T1").map
      (fun t => (t.status, t.assignedTimetableId)) =
        some (TrainStatus.IN_SERVICE, "NOWHERE") ∧
    (looseEngine.dispatchTrain 0 "T1" "NOWHERE").eventQueue = [] := by
  decide!

/-! ## C30: the delayed-train counter -/

/-- C30 (the code at the failing input). The only active train is InService and
7 minutes late. After one `update` tick of one second `trainsDelayed` is 1 while
`trainsRunning` is still 0, and after a second tick `trainsDelayed` is 2, with
one delayed train: the counter grows by one per delayed active train and tick
until the statistics are refreshed. -/
theorem trainsDelayed_accumulates :
    lateEngine.activeTrains = ["D1"] ∧
    (lateEngine.activeTrainObjects.filter
      (fun t => t.status == TrainStatus.IN_SERVICE && t.isDelayed)).length = 1 ∧
    (lateEngine.update quietInputs 1).map
      (fun e => (e.statistics.trainsDelayed, e.statistics.trainsRunning)) = some (1, 0) ∧
    ((lateEngine.update quietInputs 1).bind (fun e => e.update quietInputs 1)).map
      (fun e => (e.statistics.trainsDelayed, e.statistics.trainsRunning,
        (e.activeTrainObjects.filter
          (fun t => t.status == TrainStatus.IN_SERVICE && t.isDelayed)).length)) =
      some (2, 0, 1) := by
  decide!

/-! ## C28: dispatch and the active-train cache -/

namespace SimulationEngine

theorem handleEvent_caches (ai : PassengerAI) (c : Int) (eng : SimulationEngine)
    (e : SimulationEvent) :
    (eng.handleEvent ai c e).activeTrains = eng.activeTrains ∧
    (eng.handleEvent ai c e).gameState.timetables = eng.gameState.timetables := by
  unfold handleEvent processTrainDeparture processTrainArrival alightPassengers
    boardPassengers handleTrainBreakdown
  constructor <;> repeat' (first | rfl | split | (dsimp only))

end SimulationEngine

namespace SimulationEngine

end SimulationEngine

namespace SimulationEngine

end SimulationEngine

/-- C14 (the code at the failing input). The train runs on the timetable `A`,
`B`, `A`, `C`, whose second stop at `A` has platform 2, arrival 20 and departure
22. It leaves `B`, which schedules its arrival at `A`; when that arrival is
processed, platform 1 of `A` (the platform of the first stop at `A`) is marked
occupied and platform 2 is not, and no departure event is scheduled (the first
stop at `A` has departure 0 and arrival 0), so the queue is empty and the train
stays at `A`. -/
theorem arrival_at_revisited_station :
    loopTimetable.stops.get? 2 =
      some { stationId := "A", arrivalTime := 20, departureTime := 22, platform := 2 } ∧
    (loopEngine.handleEventBuilt sampleAI 0
        { time := 0, type := "departure", entityId := "T1", data := "B" }).eventQueue =
      [{ time := 0 + minutes (20 - 12), type := "arrival", entityId := "T1", data := "A" }] ∧
    ((loopEngineLeftB.handleEventBuilt sampleAI (minutes 8)
        { time := minutes 8, type := "arrival", entityId := "T1", data := "A" }
      ).gameState.getStation "A").map (fun s => s.platforms) =
      some [{ number := 1, occupied := true, trainId := "T1" }, { number := 2 }] ∧
    (loopEngineLeftB.handleEventBuilt sampleAI (minutes 8)
        { time := minutes 8, type := "arrival", entityId := "T1", data := "A" }
      ).eventQueue = [] := by
  decide!

/-! ## C11: instancing twice on one date -/

namespace Timetable

theorem departureTimesLoop_length (lastRun f : Int) (hf : 0 < f) (fuel : Nat) (time : Int)
    (ts : List Int) (h : departureTimesLoop lastRun f fuel time [] = some ts) :
    (ts.length : Int) ≤ (if time ≤ lastRun then (lastRun - time) / f + 1 else 0) := by
  have hbig := departureTimesLoop_spec lastRun f hf
    (max fuel ((if time ≤ lastRun then ((lastRun - time) / f + 1).toNat else 0) + 1))
    time [] (lt_of_lt_of_le (Nat.lt_succ_self _) (le_max_right _ _))
  have hmono := departureTimesLoop_fuel_mono lastRun f fuel time [] ts h
    (max fuel ((if time ≤ lastRun then ((lastRun - time) / f + 1).toNat else 0) + 1))
    (le_max_left _ _)
  rw [hmono] at hbig
  have hts := Option.some.inj hbig
  rw [hts]
  simp only [List.nil_append, List.length_map, List.length_range]
  by_cases hle : time ≤ lastRun
  · simp only [hle, if_true]
    have hq : 0 ≤ (lastRun - time) / f := Int.ediv_nonneg (by omega) (le_of_lt hf)
    omega
  · simp only [hle, if_false]
    rfl

theorem getDepartureTimes_length (tt : Timetable) (fuel : Nat) (ts : List Int)
    (hr : 0 ≤ tt.firstRun ∧ tt.lastRun ≤ 1000000000 ∧ 0 ≤ tt.frequency)
    (h : tt.getDepartureTimes fuel = some ts) : (ts.length : Int) ≤ 1000000001 := by
  obtain ⟨h1, h2, h3⟩ := hr
  unfold getDepartureTimes at h
  by_cases h0 : tt.frequency = 0
  · rw [if_pos h0] at h
    cases hs : tt.stops with
    | nil =>
      rw [hs] at h
      rw [← Option.some.inj h]
      decide
    | cons s rest =>
      rw [hs] at h
      rw [← Option.some.inj h]
      simp
  · rw [if_neg h0] at h
    have hpos : 0 < tt.frequency := lt_of_le_of_ne h3 (Ne.symm h0)
    have hlen := departureTimesLoop_length tt.lastRun tt.frequency hpos fuel tt.firstRun ts h
    by_cases hle : tt.firstRun ≤ tt.lastRun
    · simp only [hle, if_true] at hlen
      have hq : (tt.lastRun - tt.firstRun) / tt.frequency ≤ tt.lastRun - tt.firstRun :=
        Int.ediv_le_self _ (by omega)
      omega
    · simp only [hle, if_false] at hlen
      omega

theorem getDepartureTimesBuilt_eq (tt : Timetable) (fuel : Nat)
    (hr : 0 ≤ tt.firstRun ∧ tt.lastRun ≤ 1000000000 ∧ 0 ≤ tt.frequency ∧
      tt.frequency ≤ 1000000000) :
    tt.getDepartureTimesBuilt fuel = tt.getDepartureTimes fuel := by
  obtain ⟨h1, h2, h3, h4⟩ := hr
  unfold getDepartureTimesBuilt getDepartureTimes
  by_cases h0 : tt.frequency = 0
  · rw [if_pos h0, if_pos h0]
  · rw [if_neg h0, if_neg h0]
    exact departureTimesLoopBuilt_eq tt.lastRun tt.frequency
      (lt_of_le_of_ne h3 (Ne.symm h0)) (by omega) fuel tt.firstRun [] (by omega)

theorem createInstanceBuilt_eq (wday : Int → Int) (fuel : Nat) (tt : Timetable) (date : Int)
    (hr : 0 ≤ tt.firstRun ∧ tt.lastRun ≤ 1000000000 ∧ 0 ≤ tt.frequency ∧
      tt.frequency ≤ 1000000000 ∧ 0 ≤ tt.statistics.totalRuns ∧
      tt.statistics.totalRuns ≤ 1000000000) :
    tt.createInstanceBuilt wday fuel date = tt.createInstance wday fuel date := by
  obtain ⟨h1, h2, h3, h4, h5, h6⟩ := hr
  unfold createInstanceBuilt createInstance
  rw [getDepartureTimesBuilt_eq tt fuel ⟨h1, h2, h3, h4⟩]
  by_cases hv : tt.isValidOn date = true
  · by_cases hrun : tt.runsOnDay (wday (to_time_t date)) = true
    · simp only [hv, hrun, Bool.not_true, Bool.false_eq_true, if_false]
      cases hts : tt.getDepartureTimes fuel with
      | none => rfl
      | some ts =>
        have hlen := getDepartureTimes_length tt fuel ts ⟨h1, h2, h3⟩ hts
        simp only []
        rw [foldl_addInstanceBuilt date ts tt (by omega) (by omega)]
    · simp only [Bool.not_eq_true] at hrun
      simp only [hv, hrun, Bool.not_true, Bool.not_false, Bool.false_eq_true, if_false, if_true]
  · simp only [Bool.not_eq_true] at hv
    simp only [hv, Bool.not_false, if_true]

theorem getInstancesForDate_same_day (tt : Timetable) (d1 d2 : Int)
    (hday : floorDays d1 = floorDays d2) :
    tt.getInstancesForDate d2 = tt.getInstancesForDate d1 := by
  unfold getInstancesForDate
  simp only [hday]

/-- A call of `createInstance` that leaves the timetable as it was does so again
at a reading with the same validity and running-day verdicts. -/
theorem createInstance_unchanged_again (wday : Int → Int) (fuel : Nat) (tt : Timetable)
    (d1 d2 : Int)
    (h1 : tt.createInstance wday fuel d1 = some tt)
    (hv : tt.isValidOn d2 = tt.isValidOn d1)
    (hw : tt.runsOnDay (wday (to_time_t d2)) = tt.runsOnDay (wday (to_time_t d1))) :
    tt.createInstance wday fuel d2 = some tt := by
  unfold createInstance at h1 ⊢
  rw [hv, hw]
  by_cases hv1 : tt.isValidOn d1 = true
  · by_cases hr1 : tt.runsOnDay (wday (to_time_t d1)) = true
    · simp only [hv1, hr1, Bool.not_true, Bool.false_eq_true, if_false] at h1 ⊢
      cases hts : tt.getDepartureTimes fuel with
      | none => rw [hts] at h1; exact Option.noConfusion h1
      | some ts =>
        rw [hts] at h1
        have h' : ts.foldl (addInstance d1) tt = tt := Option.some.inj h1
        cases ts with
        | nil => rfl
        | cons t ts =>
          rw [foldl_addInstance] at h'
          have hi := congrArg (fun x => x.instances.length) h'
          simp only [List.length_append, List.length_map, List.length_cons] at hi
          omega
    · simp only [Bool.not_eq_true] at hr1
      simp only [hv1, hr1, Bool.not_true, Bool.not_false, Bool.false_eq_true, if_false,
        if_true]
  · simp only [Bool.not_eq_true] at hv1
    simp only [hv1, Bool.not_false, if_true]

end Timetable

namespace SimulationEngine

theorem createTimetableInstancesStepBuilt_eq (wday : Int → Int) (fuel : Nat) (date : Int)
    (tt : Timetable)
    (hr : 0 ≤ tt.firstRun ∧ tt.lastRun ≤ 1000000000 ∧ 0 ≤ tt.frequency ∧
      tt.frequency ≤ 1000000000 ∧ 0 ≤ tt.statistics.totalRuns ∧
      tt.statistics.totalRuns ≤ 1000000000) :
    createTimetableInstancesStepBuilt wday fuel date tt =
      createTimetableInstancesStep wday fuel date tt := by
  unfold createTimetableInstancesStepBuilt createTimetableInstancesStep
  rw [Timetable.createInstanceBuilt_eq wday fuel tt date hr]

/-- The two runs of the loop body of `createTimetableInstances` on one template,
at two readings of the same day. -/
theorem createTimetableInstancesStepBuilt_twice (wday : Int → Int) (d1 d2 : Int)
    (hday : Timetable.floorDays d1 = Timetable.floorDays d2) (tt : Timetable)
    (hr : 0 ≤ tt.firstRun ∧ tt.lastRun ≤ 1000000000 ∧ 0 ≤ tt.frequency ∧
      tt.frequency ≤ 1000000000 ∧ 0 ≤ tt.statistics.totalRuns ∧
      tt.statistics.totalRuns ≤ 1000000000) :
    ∃ (N : Nat) (tt1 tt2 : Timetable),
      (∀ fuel, N ≤ fuel →
        createTimetableInstancesStepBuilt wday fuel d1 tt = some tt1 ∧
        createTimetableInstancesStepBuilt wday fuel d2 tt1 = some tt2) ∧
      (tt.active = false → tt1 = tt ∧ tt2 = tt) ∧
      (tt.getInstancesForDate d1 ≠ [] → tt1 = tt ∧ tt2 = tt) ∧
      (tt1 ≠ tt →
        (∃ fuel, tt.createInstanceBuilt wday fuel d1 = some tt1) ∧
        tt1.getInstancesForDate d1 ≠ [] ∧ tt2 = tt1) ∧
      (tt2 ≠ tt1 → ∃ fuel, tt1.createInstanceBuilt wday fuel d2 = some tt2) ∧
      ((tt.isValidOn d2 = tt.isValidOn d1 ∧
        tt.runsOnDay (wday (to_time_t d2)) = tt.runsOnDay (wday (to_time_t d1))) →
        tt2 = tt1) := by
  have hf : 0 ≤ tt.frequency := hr.2.2.1
  by_cases ha : tt.active = true
  · by_cases he : (tt.getInstancesForDate d1).isEmpty = true
    · have hempty : tt.getInstancesForDate d1 = [] := List.isEmpty_iff.mp he
      have he2 : (tt.getInstancesForDate d2).isEmpty = true := by
        rw [Timetable.getInstancesForDate_same_day tt d1 d2 hday]; exact he
      obtain ⟨N1, tt1, h1⟩ := Timetable.createInstance_total wday tt d1 hf
      obtain ⟨N2, tt2, h2⟩ := Timetable.createInstance_total wday tt d2 hf
      have hstep1 : ∀ fuel, N1 ≤ fuel →
          createTimetableInstancesStepBuilt wday fuel d1 tt = some tt1 := by
        intro fuel hfuel
        rw [createTimetableInstancesStepBuilt_eq wday fuel d1 tt hr]
        unfold createTimetableInstancesStep
        simp only [ha, he, Bool.not_true, Bool.false_eq_true, if_false, if_true]
        exact h1 fuel hfuel
      have hstep2 : ∀ fuel, N2 ≤ fuel →
          createTimetableInstancesStepBuilt wday fuel d2 tt = some tt2 := by
        intro fuel hfuel
        rw [createTimetableInstancesStepBuilt_eq wday fuel d2 tt hr]
        unfold createTimetableInstancesStep
        simp only [ha, he2, Bool.not_true, Bool.false_eq_true, if_false, if_true]
        exact h2 fuel hfuel
      rcases Timetable.createInstance_shape wday N1 tt tt1 d1 (h1 N1 (le_refl _)) with
        hsame | ⟨t, ts, hnew⟩
      · -- the first run creates nothing
        subst hsame
        refine ⟨max N1 N2, tt1, tt2, ?_, ?_, ?_, ?_, ?_, ?_⟩
        · intro fuel hfuel
          exact ⟨hstep1 fuel (le_trans (le_max_left _ _) hfuel),
            hstep2 fuel (le_trans (le_max_right _ _) hfuel)⟩
        · intro hna; rw [hna] at ha; exact Bool.noConfusion ha
        · intro hne; exact absurd hempty hne
        · intro hne; exact absurd rfl hne
        · intro _
          refine ⟨N2, ?_⟩
          rw [Timetable.createInstanceBuilt_eq wday N2 tt1 d2 hr]
          exact h2 N2 (le_refl _)
        · rintro ⟨hv, hw⟩
          have hagain := Timetable.createInstance_unchanged_again wday (max N1 N2) tt1 d1 d2
            (h1 _ (le_max_left _ _)) hv hw
          rw [h2 _ (le_max_right _ _)] at hagain
          exact Option.some.inj hagain
      · -- the first run creates instances dated `d1`
        have hact : tt1.active = true := by rw [hnew]; exact ha
        have hmem : tt.newInstance d1 t ∈ tt1.getInstancesForDate d1 := by
          unfold Timetable.getInstancesForDate
          rw [hnew]
          simp only [List.mem_filter, List.mem_append, List.map_cons, List.mem_cons,
            true_or, or_true, true_and]
          show (Timetable.floorDays d1 == Timetable.floorDays d1) = true
          simp
        have hne1 : tt1.getInstancesForDate d1 ≠ [] := by
          intro hnil; rw [hnil] at hmem; simp at hmem
        have hne2 : (tt1.getInstancesForDate d2).isEmpty = false := by
          rw [Timetable.getInstancesForDate_same_day tt1 d1 d2 hday]
          cases hl : tt1.getInstancesForDate d1 with
          | nil => exact absurd hl hne1
          | cons x xs => rfl
        have hchanged : tt1 ≠ tt := by
          intro heq
          have hi := congrArg (fun x => x.instances.length) heq
          rw [hnew] at hi
          simp only [List.length_append, List.length_map, List.length_cons] at hi
          omega
        refine ⟨N1, tt1, tt1, ?_, ?_, ?_, ?_, ?_, ?_⟩
        · intro fuel hfuel
          refine ⟨hstep1 fuel hfuel, ?_⟩
          unfold createTimetableInstancesStepBuilt
          simp only [hact, hne2, Bool.not_true, Bool.false_eq_true, if_false]
        · intro hna; rw [hna] at ha; exact Bool.noConfusion ha
        · intro hne; exact absurd hempty hne
        · intro _
          refine ⟨⟨N1, ?_⟩, hne1, rfl⟩
          rw [Timetable.createInstanceBuilt_eq wday N1 tt d1 hr]
          exact h1 N1 (le_refl _)
        · intro hne; exact absurd rfl hne
        · intro _; rfl
    · simp only [Bool.not_eq_true] at he
      have he2 : (tt.getInstancesForDate d2).isEmpty = false := by
        rw [Timetable.getInstancesForDate_same_day tt d1 d2 hday]; exact he
      refine ⟨0, tt, tt, ?_, fun _ => ⟨rfl, rfl⟩, fun _ => ⟨rfl, rfl⟩,
        fun hne => absurd rfl hne, fun hne => absurd rfl hne, fun _ => rfl⟩
      intro fuel _
      unfold createTimetableInstancesStepBuilt
      simp only [ha, he, he2, Bool.not_true, Bool.false_eq_true, if_false, and_self]
  · simp only [Bool.not_eq_true] at ha
    refine ⟨0, tt, tt, ?_, fun _ => ⟨rfl, rfl⟩, fun _ => ⟨rfl, rfl⟩,
      fun hne => absurd rfl hne, fun hne => absurd rfl hne, fun _ => rfl⟩
    intro fuel _
    unfold createTimetableInstancesStepBuilt
    simp only [ha, Bool.not_false, if_true, and_self]

/-- Two passes of fuel-bounded steps over a list, with a relation between each
entry and its two successive images. -/
theorem mapOpt_twice {α : Type} (f g : Nat → α → Option α) (R : α → α × α → Prop)
    (l : List α)
    (h : ∀ x ∈ l, ∃ (N : Nat) (y z : α),
      (∀ fuel, N ≤ fuel → f fuel x = some y ∧ g fuel y = some z) ∧ R x (y, z)) :
    ∃ (N : Nat) (l1 l2 : List α),
      (∀ fuel, N ≤ fuel → mapOpt (f fuel) l = some l1 ∧ mapOpt (g fuel) l1 = some l2) ∧
      List.Forall₂ R l (l1.zip l2) := by
  induction l with
  | nil => exact ⟨0, [], [], fun _ _ => ⟨rfl, rfl⟩, List.Forall₂.nil⟩
  | cons x xs ih =>
    obtain ⟨N1, y, z, hyz, hR⟩ := h x (List.mem_cons_self _ _)
    obtain ⟨N2, ys, zs, hrest, hF⟩ := ih (fun w hw => h w (List.mem_cons_of_mem _ hw))
    refine ⟨max N1 N2, y :: ys, z :: zs, ?_, ?_⟩
    · intro fuel hfuel
      have h1 := hyz fuel (le_trans (le_max_left _ _) hfuel)
      have h2 := hrest fuel (le_trans (le_max_right _ _) hfuel)
      constructor
      · unfold mapOpt
        rw [h1.1, h2.1]
      · unfold mapOpt
        rw [h1.2, h2.2]
    · rw [List.zip_cons_cons]
      exact List.Forall₂.cons hR hF

theorem forall₂_zip_eq {α : Type} (R : α → α × α → Prop) :
    ∀ (l l1 l2 : List α), l1.length = l2.length → List.Forall₂ R l (l1.zip l2) →
      (∀ x p, x ∈ l → R x p → p.2 = p.1) → l2 = l1 := by
  intro l l1
  induction l1 generalizing l with
  | nil =>
    intro l2 hlen _ _
    cases l2 with
    | nil => rfl
    | cons b l2 => simp at hlen
  | cons a l1 ih =>
    intro l2 hlen hF hall
    cases l2 with
    | nil => simp at hlen
    | cons b l2 =>
      rw [List.zip_cons_cons] at hF
      cases hF with
      | cons hR hrest =>
        rename_i x xs
        have hab : b = a := hall x (a, b) (List.mem_cons_self _ _) hR
        have := ih xs l2 (by simpa using hlen) hrest
          (fun y p hy hp => hall y p (List.mem_cons_of_mem _ hy) hp)
        rw [hab, this]

theorem mapOpt_length {α β : Type} (f : α → Option β) :
    ∀ (l : List α) (l1 : List β), mapOpt f l = some l1 → l1.length = l.length := by
  intro l l1 h
  exact (List.Forall₂.length_eq (mapOpt_forall₂ f l l1 h)).symm

end SimulationEngine

/-- C11 (counterexample). The only template is active, has no instance and is
valid from noon of Monday 5 January 1970. The clock readings 10:00 and 13:00 of
that Monday are on the same date. `createTimetableInstances` run once, at 10:00,
leaves the template without instances; run a second time on the same date, at
13:00, it creates one: running twice on a date does not give what running once
gives. -/
theorem createTimetableInstances_same_date_counterexample :
    Timetable.floorDays (mondayDate + hours 10) = Timetable.floorDays (mondayDate + hours 13) ∧
    noonEngine.gameState.timetables.map (fun t => (t.active, t.instances.length)) =
      [(true, 0)] ∧
    (noonEngine.createTimetableInstancesBuilt utc_wday 5 (mondayDate + hours 10)).map
        (fun e => e.gameState.timetables.map
          (fun t => (t.instances.length, t.statistics.totalRuns))) = some [(0, 0)] ∧
    ((noonEngine.createTimetableInstancesBuilt utc_wday 5 (mondayDate + hours 10)).bind
        (fun e => e.createTimetableInstancesBuilt utc_wday 5 (mondayDate + hours 13))).map
        (fun e => e.gameState.timetables.map
          (fun t => (t.instances.length, t.statistics.totalRuns))) = some [(1, 1)] := by
  decide!

/-- C11 (amended). Let `d1` and `d2` be two clock readings on the same date, and
let every registered template have `firstRun`, `lastRun`, `frequency` and
`totalRuns` between 0 and 1000000000, so that no 32-bit sum wraps around. Then
`createTimetableInstances` run at `d1` and run again at `d2` both return, and
change nothing in the engine but the registered templates. An inactive template
and a template with an instance on the date are left as they are by both runs;
a template that the first run changes is changed by `createInstance` at `d1`,
has an instance on the date afterwards and is left as it is by the second run;
the second run changes a template only by `createInstance` at `d2`, and leaves
it as it is when its validity and running-day verdicts at `d2` are those at
`d1`. When that holds for every template, in particular when the two readings
are equal, the second run changes nothing: the instance lists and `totalRuns`
are those after the first run. -/
theorem createTimetableInstances_idempotent (wday : Int → Int) (d1 d2 : Int)
    (eng : SimulationEngine)
    (hday : Timetable.floorDays d1 = Timetable.floorDays d2)
    (hrange : ∀ tt ∈ eng.gameState.timetables,
      0 ≤ tt.firstRun ∧ tt.lastRun ≤ 1000000000 ∧ 0 ≤ tt.frequency ∧
      tt.frequency ≤ 1000000000 ∧ 0 ≤ tt.statistics.totalRuns ∧
      tt.statistics.totalRuns ≤ 1000000000) :
    ∃ (N : Nat) (eng1 eng2 : SimulationEngine),
      (∀ fuel, N ≤ fuel →
        eng.createTimetableInstancesBuilt wday fuel d1 = some eng1 ∧
        eng1.createTimetableInstancesBuilt wday fuel d2 = some eng2) ∧
      eng1 = { eng with gameState :=
        { eng.gameState with timetables := eng1.gameState.timetables } } ∧
      eng2 = { eng with gameState :=
        { eng.gameState with timetables := eng2.gameState.timetables } } ∧
      eng1.gameState.timetables.length = eng.gameState.timetables.length ∧
      eng2.gameState.timetables.length = eng.gameState.timetables.length ∧
      List.Forall₂
        (fun tt (p : Timetable × Timetable) =>
          (tt.active = false → p.1 = tt ∧ p.2 = tt) ∧
          (tt.getInstancesForDate d1 ≠ [] → p.1 = tt ∧ p.2 = tt) ∧
          (p.1 ≠ tt →
            (∃ fuel, tt.createInstanceBuilt wday fuel d1 = some p.1) ∧
            p.1.getInstancesForDate d1 ≠ [] ∧ p.2 = p.1) ∧
          (p.2 ≠ p.1 → ∃ fuel, p.1.createInstanceBuilt wday fuel d2 = some p.2) ∧
          ((tt.isValidOn d2 = tt.isValidOn d1 ∧
            tt.runsOnDay (wday (to_time_t d2)) = tt.runsOnDay (wday (to_time_t d1))) →
            p.2 = p.1))
        eng.gameState.timetables
        (eng1.gameState.timetables.zip eng2.gameState.timetables) ∧
      ((∀ tt ∈ eng.gameState.timetables,
          tt.isValidOn d2 = tt.isValidOn d1 ∧
          tt.runsOnDay (wday (to_time_t d2)) = tt.runsOnDay (wday (to_time_t d1))) →
        eng2 = eng1) := by
  obtain ⟨N, l1, l2, hrun, hF⟩ := SimulationEngine.mapOpt_twice
    (fun fuel => SimulationEngine.createTimetableInstancesStepBuilt wday fuel d1)
    (fun fuel => SimulationEngine.createTimetableInstancesStepBuilt wday fuel d2)
    (fun tt (p : Timetable × Timetable) =>
      (tt.active = false → p.1 = tt ∧ p.2 = tt) ∧
      (tt.getInstancesForDate d1 ≠ [] → p.1 = tt ∧ p.2 = tt) ∧
      (p.1 ≠ tt →
        (∃ fuel, tt.createInstanceBuilt wday fuel d1 = some p.1) ∧
        p.1.getInstancesForDate d1 ≠ [] ∧ p.2 = p.1) ∧
      (p.2 ≠ p.1 → ∃ fuel, p.1.createInstanceBuilt wday fuel d2 = some p.2) ∧
      ((tt.isValidOn d2 = tt.isValidOn d1 ∧
        tt.runsOnDay (wday (to_time_t d2)) = tt.runsOnDay (wday (to_time_t d1))) →
        p.2 = p.1))
    eng.gameState.timetables
    (fun tt htt => SimulationEngine.createTimetableInstancesStepBuilt_twice wday d1 d2 hday tt
      (hrange tt htt))
  have hlen1 : l1.length = eng.gameState.timetables.length :=
    SimulationEngine.mapOpt_length _ _ _ (hrun N (le_refl _)).1
  have hlen2 : l2.length = l1.length :=
    SimulationEngine.mapOpt_length _ _ _ (hrun N (le_refl _)).2
  refine ⟨N, { eng with gameState := { eng.gameState with timetables := l1 } },
    { eng with gameState := { eng.gameState with timetables := l2 } }, ?_, rfl, rfl, hlen1,
    hlen2.trans hlen1, hF, ?_⟩
  · intro fuel hfuel
    obtain ⟨h1, h2⟩ := hrun fuel hfuel
    constructor
    · unfold SimulationEngine.createTimetableInstancesBuilt
      rw [h1]
    · unfold SimulationEngine.createTimetableInstancesBuilt
      simp only []
      rw [h2]
  · intro hall
    have : l2 = l1 := SimulationEngine.forall₂_zip_eq _ eng.gameState.timetables l1 l2
      hlen2.symm hF (fun x p hx hR => hR.2.2.2.2 (hall x hx))
    rw [this]

/-- Witness for C11: an active repeating timetable and an inactive one, instanced
at midnight and again at 13:00 of the same Monday. -/
theorem createTimetableInstances_idempotent_witness :
    Timetable.floorDays mondayDate = Timetable.floorDays (mondayDate + hours 13) ∧
    ∃ (N : Nat) (eng1 : SimulationEngine), ∀ fuel, N ≤ fuel →
      instancingEngine.createTimetableInstancesBuilt utc_wday fuel mondayDate = some eng1 ∧
      eng1.createTimetableInstancesBuilt utc_wday fuel (mondayDate + hours 13) = some eng1 := by
  refine ⟨by decide!, ?_⟩
  obtain ⟨N, eng1, eng2, hrun, _, _, _, _, _, hsame⟩ :=
    createTimetableInstances_idempotent utc_wday mondayDate (mondayDate + hours 13)
      instancingEngine (by decide!) (by decide)
  have h21 : eng2 = eng1 := hsame (by decide!)
  subst h21
  exact ⟨N, eng2, hrun⟩

/-! ## C26: the drain and the width of the tick count -/

namespace SimulationEngine

theorem getTimetable_mem (eng : SimulationEngine) (timetableId : String) (tt : Timetable)
    (h : eng.gameState.getTimetable timetableId = some tt) :
    tt ∈ eng.gameState.timetables := by
  unfold GameState.getTimetable at h
  exact List.mem_of_find?_eq_some h

theorem findStop_mem (tt : Timetable) (stationId : String) (stop : TimetableStop)
    (h : tt.findStop stationId = some stop) : stop ∈ tt.stops := by
  unfold Timetable.findStop at h
  simp only [] at h
  split at h
  · exact List.get?_mem h
  · exact Option.noConfusion h

theorem processTrainArrivalBuilt_eq (ai : PassengerAI) (c : Int) (eng : SimulationEngine)
    (trainId stationId : String)
    (hc : -3000000000000000000 ≤ c ∧ c ≤ 3000000000000000000)
    (hb : ∀ tt ∈ eng.gameState.timetables, ∀ s ∈ tt.stops,
      0 ≤ s.arrivalTime ∧ s.arrivalTime ≤ 100000000 ∧
      0 ≤ s.departureTime ∧ s.departureTime ≤ 100000000) :
    eng.processTrainArrivalBuilt ai c trainId stationId =
      eng.processTrainArrival ai c trainId stationId := by
  unfold processTrainArrivalBuilt processTrainArrival
  cases ht : eng.gameState.getTrain trainId with
  | none => rfl
  | some train =>
    cases hs : eng.gameState.getStation stationId with
    | none => rfl
    | some station =>
      dsimp only
      cases htt : (eng.modifyTrain trainId
          (fun t => (t.setCurrentSpeed 0).setCurrentStation station.id)).gameState.getTimetable
          train.assignedTimetableId with
      | none => rfl
      | some tt =>
        dsimp only
        cases hstop : tt.findStop station.id with
        | none => rfl
        | some stop =>
          dsimp only
          have hmem : tt ∈ eng.gameState.timetables :=
            getTimetable_mem (eng.modifyTrain trainId
              (fun t => (t.setCurrentSpeed 0).setCurrentStation station.id)) _ tt htt
          obtain ⟨h1, h2, h3, h4⟩ := hb tt hmem stop (findStop_mem tt station.id stop hstop)
          rw [int32_eq (stop.departureTime - stop.arrivalTime) (by omega),
            addMinutes_eq c (stop.departureTime - stop.arrivalTime) (by omega)
              (by unfold minutes ticksPerSecond; omega)]

theorem processTrainDepartureBuilt_eq (c : Int) (eng : SimulationEngine)
    (trainId stationId : String)
    (hc : -3000000000000000000 ≤ c ∧ c ≤ 3000000000000000000)
    (hb : ∀ tt ∈ eng.gameState.timetables, ∀ s ∈ tt.stops,
      0 ≤ s.arrivalTime ∧ s.arrivalTime ≤ 100000000 ∧
      0 ≤ s.departureTime ∧ s.departureTime ≤ 100000000) :
    eng.processTrainDepartureBuilt c trainId stationId =
      eng.processTrainDeparture c trainId stationId := by
  unfold processTrainDepartureBuilt processTrainDeparture
  cases ht : eng.gameState.getTrain trainId with
  | none => rfl
  | some train =>
    cases hs : eng.gameState.getStation stationId with
    | none => rfl
    | some station =>
      dsimp only
      cases htt : eng.gameState.getTimetable train.assignedTimetableId with
      | none => rfl
      | some tt =>
        dsimp only
        have hmem : tt ∈ eng.gameState.timetables := getTimetable_mem eng _ tt htt
        generalize (match tt.findStop station.id with
              | some stop => eng.modifyStation stationId (fun s => s.freePlatform stop.platform)
              | none => eng) = eng1
        by_cases hidx : tt.findStopIndex station.id ≥ 0 ∧
            tt.findStopIndex station.id < (tt.stops.length : Int) - 1
        · rw [if_pos hidx, if_pos hidx]
          cases hn : tt.stops.get? ((tt.findStopIndex station.id).toNat + 1) with
          | none => rfl
          | some nextStop =>
            cases hth : tt.stops.get? (tt.findStopIndex station.id).toNat with
            | none => rfl
            | some thisStop =>
              dsimp only
              cases hst : eng1.gameState.getStation nextStop.stationId with
              | none => rfl
              | some st =>
                dsimp only
                obtain ⟨h1, h2, _, _⟩ := hb tt hmem nextStop (List.get?_mem hn)
                obtain ⟨_, _, h3, h4⟩ := hb tt hmem thisStop (List.get?_mem hth)
                rw [int32_eq (nextStop.arrivalTime - thisStop.departureTime) (by omega),
                  addMinutes_eq c (nextStop.arrivalTime - thisStop.departureTime) (by omega)
                    (by unfold minutes ticksPerSecond; omega)]
        · rw [if_neg hidx, if_neg hidx]

theorem handleEventBuilt_eq (ai : PassengerAI) (c : Int) (eng : SimulationEngine)
    (e : SimulationEvent)
    (hc : -3000000000000000000 ≤ c ∧ c ≤ 3000000000000000000)
    (hb : ∀ tt ∈ eng.gameState.timetables, ∀ s ∈ tt.stops,
      0 ≤ s.arrivalTime ∧ s.arrivalTime ≤ 100000000 ∧
      0 ≤ s.departureTime ∧ s.departureTime ≤ 100000000) :
    eng.handleEventBuilt ai c e = eng.handleEvent ai c e := by
  unfold handleEventBuilt handleEvent
  rw [processTrainDepartureBuilt_eq c eng e.entityId e.data hc hb,
    processTrainArrivalBuilt_eq ai c eng e.entityId e.data hc hb]

theorem processEventsLoopBuilt_eq (ai : PassengerAI) (now : Int) (clock : Nat → Int)
    (hclk : ∀ k, -3000000000000000000 ≤ clock k ∧ clock k ≤ 3000000000000000000) :
    ∀ (fuel : Nat) (eng : SimulationEngine) (handled : List SimulationEvent),
      (∀ tt ∈ eng.gameState.timetables, ∀ s ∈ tt.stops,
        0 ≤ s.arrivalTime ∧ s.arrivalTime ≤ 100000000 ∧
        0 ≤ s.departureTime ∧ s.departureTime ≤ 100000000) →
      processEventsLoopBuilt ai now clock fuel eng handled =
        processEventsLoop ai now clock fuel eng handled := by
  intro fuel
  induction fuel with
  | zero => intro eng handled _; rfl
  | succ fuel ih =>
    intro eng handled hb
    unfold processEventsLoopBuilt processEventsLoop
    cases hq : queueTop eng.eventQueue with
    | none => rfl
    | some event =>
      dsimp only
      by_cases hdue : event.time ≤ now
      · rw [if_pos hdue, if_pos hdue]
        have hb0 : ∀ tt ∈ ({ eng with eventQueue := queuePop eng.eventQueue } :
            SimulationEngine).gameState.timetables, ∀ s ∈ tt.stops,
            0 ≤ s.arrivalTime ∧ s.arrivalTime ≤ 100000000 ∧
            0 ≤ s.departureTime ∧ s.departureTime ≤ 100000000 := hb
        rw [handleEventBuilt_eq ai (clock handled.length) _ event (hclk _) hb0]
        refine ih _ _ ?_
        rw [(handleEvent_caches ai (clock handled.length) _ event).2]
        exact hb
      · rw [if_neg hdue, if_neg hdue]

theorem processEventsLoopBuilt_round (ai : PassengerAI) (now : Int) (clock : Nat → Int)
    (fuel : Nat) (eng : SimulationEngine) (handled : List SimulationEvent)
    (e : SimulationEvent) (htop : queueTop eng.eventQueue = some e) (hdue : e.time ≤ now) :
    processEventsLoopBuilt ai now clock (fuel + 1) eng handled =
      processEventsLoopBuilt ai now clock fuel
        (eng.drainRoundBuilt ai now (clock handled.length)) (handled ++ [e]) := by
  conv_lhs => unfold processEventsLoopBuilt
  unfold drainRoundBuilt
  simp only [htop, hdue, if_true]

end SimulationEngine

/-- The drain of `longDwellEngine` with the event times of the build never ends:
the four engines of its cycle are never left. -/
theorem longDwell_drain_never_ends :
    ∀ (fuel : Nat) (handled : List SimulationEvent),
      SimulationEngine.processEventsLoopBuilt idleAI 0 (fun _ => 0) fuel
        longDwellEngine handled = none ∧
      SimulationEngine.processEventsLoopBuilt idleAI 0 (fun _ => 0) fuel
        (longDwellEngine.drainRoundBuilt idleAI 0 0) handled = none ∧
      SimulationEngine.processEventsLoopBuilt idleAI 0 (fun _ => 0) fuel
        ((longDwellEngine.drainRoundBuilt idleAI 0 0).drainRoundBuilt idleAI 0 0)
        handled = none ∧
      SimulationEngine.processEventsLoopBuilt idleAI 0 (fun _ => 0) fuel
        (((longDwellEngine.drainRoundBuilt idleAI 0 0).drainRoundBuilt idleAI 0
          0).drainRoundBuilt idleAI 0 0) handled = none := by
  have hcycle : (((longDwellEngine.drainRoundBuilt idleAI 0 0).drainRoundBuilt idleAI 0
      0).drainRoundBuilt idleAI 0 0).drainRoundBuilt idleAI 0 0 = longDwellEngine := by
    decide!
  have h0 : queueTop longDwellEngine.eventQueue =
      some { time := 0, type := "arrival", entityId := "T1", data := "A" } := by decide!
  have h1 : queueTop (longDwellEngine.drainRoundBuilt idleAI 0 0).eventQueue =
      some { time := -6446744073709551616, type := "departure", entityId := "T1",
             data := "A" } := by decide!
  have h2 : queueTop ((longDwellEngine.drainRoundBuilt idleAI 0 0).drainRoundBuilt idleAI 0
      0).eventQueue =
      some { time := 0, type := "arrival", entityId := "T1", data := "B" } := by decide!
  have h3 : queueTop (((longDwellEngine.drainRoundBuilt idleAI 0 0).drainRoundBuilt idleAI 0
      0).drainRoundBuilt idleAI 0 0).eventQueue =
      some { time := -6446744073709551616, type := "departure", entityId := "T1",
             data := "B" } := by decide!
  intro fuel
  induction fuel with
  | zero => intro handled; exact ⟨rfl, rfl, rfl, rfl⟩
  | succ fuel ih =>
    intro handled
    refine ⟨?_, ?_, ?_, ?_⟩
    · rw [SimulationEngine.processEventsLoopBuilt_round idleAI 0 (fun _ => 0) fuel _ handled _
        h0 (by decide)]
      exact (ih _).2.1
    · rw [SimulationEngine.processEventsLoopBuilt_round idleAI 0 (fun _ => 0) fuel _ handled _
        h1 (by decide)]
      exact (ih _).2.2.1
    · rw [SimulationEngine.processEventsLoopBuilt_round idleAI 0 (fun _ => 0) fuel _ handled _
        h2 (by decide)]
      exact (ih _).2.2.2
    · rw [SimulationEngine.processEventsLoopBuilt_round idleAI 0 (fun _ => 0) fuel _ handled _
        h3 (by decide)]
      show SimulationEngine.processEventsLoopBuilt idleAI 0 (fun _ => 0) fuel
        ((((longDwellEngine.drainRoundBuilt idleAI 0 0).drainRoundBuilt idleAI 0
          0).drainRoundBuilt idleAI 0 0).drainRoundBuilt idleAI 0 0) _ = none
      rw [hcycle]
      exact (ih _).1

/-- C26 (counterexample). The registry holds the train `T1` on a timetable `A`,
`B`, `A` whose stop times are 32-bit values, with dwell times of 200000000
minutes and travel times of 0 minutes; one arrival event is queued and due at
`now = 0`, and the clock stands at 0. The handler of the arrival schedules the
departure at tick -6446744073709551616, which is not later than `now`: the
64-bit tick count of the dwell time has wrapped around. The drain then handles
an arrival and a departure in turn for ever: `processEvents` does not return
for any bound on the loop rounds. -/
theorem processEvents_tick_count_wraps_counterexample :
    (longDwellEngine.eventQueue.filter (SimulationEvent.isDue 0)).length = 1 ∧
    (longDwellEngine.gameState.timetables.map (fun tt => tt.stops.map
      (fun s => (s.stationId, s.arrivalTime, s.departureTime)))) =
      [[("A", 0, 200000000), ("B", 200000000, 400000000), ("A", 400000000, 600000000)]] ∧
    ((({ longDwellEngine with eventQueue := [] } : SimulationEngine).handleEventBuilt idleAI 0
        { time := 0, type := "arrival", entityId := "T1", data := "A" }).eventQueue =
      [{ time := -6446744073709551616, type := "departure", entityId := "T1", data := "A" }]) ∧
    (∀ fuel : Nat, longDwellEngine.processEventsBuilt idleAI 0 (fun _ => 0) fuel = none) := by
  refine ⟨by decide, by decide, by decide!, ?_⟩
  intro fuel
  exact (longDwell_drain_never_ends fuel []).1

/-- C26 (amended). Let every stop time of every registered timetable lie between
0 and 100000000 minutes and let the clock readings lie between `now` and
3000000000000000000 ticks, `now` being at least -3000000000000000000, so that no
tick count wraps around. Then `processEvents` terminates: it returns for every
large enough bound on the loop rounds and handles at most twice as many events
as were due at its start. The handler of an event appends to the queue nothing,
or one arrival after a departure (which may be due already), or one departure
strictly later than `now` after an arrival. -/
theorem processEvents_terminates (ai : PassengerAI) (now : Int) (clock : Nat → Int)
    (hclk : ∀ k, now ≤ clock k)
    (hnow : -3000000000000000000 ≤ now)
    (hmax : ∀ k, clock k ≤ 3000000000000000000)
    (eng : SimulationEngine)
    (hstops : ∀ tt ∈ eng.gameState.timetables, ∀ s ∈ tt.stops,
      0 ≤ s.arrivalTime ∧ s.arrivalTime ≤ 100000000 ∧
      0 ≤ s.departureTime ∧ s.departureTime ≤ 100000000) :
    (∃ (N : Nat) (eng' : SimulationEngine) (handled : List SimulationEvent),
      (∀ fuel, N ≤ fuel →
        eng.processEventsBuilt ai now clock fuel = some (eng', handled)) ∧
      handled.length ≤ 2 * (eng.eventQueue.filter (SimulationEvent.isDue now)).length) ∧
    (∀ (c : Int) (eng0 : SimulationEngine) (e : SimulationEvent),
      now ≤ c → c ≤ 3000000000000000000 →
      (∀ tt ∈ eng0.gameState.timetables, ∀ s ∈ tt.stops,
        0 ≤ s.arrivalTime ∧ s.arrivalTime ≤ 100000000 ∧
        0 ≤ s.departureTime ∧ s.departureTime ≤ 100000000) →
      ∃ fs : List SimulationEvent,
        (eng0.handleEventBuilt ai c e).eventQueue = eng0.eventQueue ++ fs ∧
        (fs = [] ∨ ∃ f, fs = [f] ∧
          ((e.type = "departure" ∧ f.type = "arrival") ∨
           (e.type = "arrival" ∧ f.type = "departure" ∧ now < f.time)))) := by
  have hrange : ∀ k, -3000000000000000000 ≤ clock k ∧ clock k ≤ 3000000000000000000 :=
    fun k => ⟨le_trans hnow (hclk k), hmax k⟩
  constructor
  · obtain ⟨eng', handled, hrun, hlen⟩ :=
      SimulationEngine.processEventsLoop_count ai now clock hclk
        (queueWeight now eng.eventQueue + 1) eng [] (Nat.lt_succ_self _)
    refine ⟨queueWeight now eng.eventQueue + 1, eng', handled, ?_, ?_⟩
    · intro fuel hfuel
      unfold SimulationEngine.processEventsBuilt
      rw [SimulationEngine.processEventsLoopBuilt_eq ai now clock hrange fuel eng [] hstops]
      have := SimulationEngine.processEventsLoop_mono ai now clock _ _ _ _ hrun fuel hfuel
      simpa using this
    · exact le_trans hlen (queueWeight_le_twice_due now eng.eventQueue)
  · intro c eng0 e hc hcmax hb
    rw [SimulationEngine.handleEventBuilt_eq ai c eng0 e ⟨le_trans hnow hc, hcmax⟩ hb]
    obtain ⟨fs, hq, hfu⟩ := SimulationEngine.handleEvent_queue ai c eng0 e
    refine ⟨fs, hq, ?_⟩
    rcases hfu with h | ⟨f, hf, h | h⟩
    · exact Or.inl h
    · exact Or.inr ⟨f, hf, Or.inl h⟩
    · exact Or.inr ⟨f, hf, Or.inr ⟨h.1, h.2.1, by have := h.2.2; omega⟩⟩

/-- Witness for C26: the sample engine with three queued events, two of them due
at time 100, with a clock standing at 100. -/
theorem processEvents_terminates_witness :
    ∃ (N : Nat) (eng' : SimulationEngine) (handled : List SimulationEvent),
      (∀ fuel, N ≤ fuel →
        (sampleEngine.scheduleAll sampleEvents).processEventsBuilt sampleAI 100
          (fun _ => 100) fuel = some (eng', handled)) ∧
      handled.length ≤ 2 * ((sampleEngine.scheduleAll sampleEvents).eventQueue.filter
        (SimulationEvent.isDue 100)).length :=
  (processEvents_terminates sampleAI 100 (fun _ => 100) (fun _ => le_refl _) (by decide)
    (fun _ => show (100 : Int) ≤ 3000000000000000000 by decide)
    (sampleEngine.scheduleAll sampleEvents) (by decide)).1

/-! ## C18: the congestion penalty in one tick -/

namespace Timetable

end Timetable

namespace SimulationEngine

end SimulationEngine

theorem log2Loop_spec : ∀ (fuel n : Nat), n ≤ fuel → 1 ≤ n →
    2 ^ log2Loop fuel n ≤ n ∧ n < 2 ^ (log2Loop fuel n + 1) := by
  intro fuel
  induction fuel with
  | zero => intro n h1 h2; omega
  | succ fuel ih =>
    intro n hle h1
    unfold log2Loop
    by_cases h2 : n < 2
    · rw [if_pos h2]
      have : n = 1 := by omega
      subst this
      exact ⟨by decide, by decide⟩
    · rw [if_neg h2]
      obtain ⟨a, b⟩ := ih (n / 2) (by omega) (by omega)
      constructor
      · rw [pow_succ]; omega
      · rw [pow_succ]; omega

theorem natLog2_spec (n : Nat) (h : 1 ≤ n) : 2 ^ natLog2 n ≤ n ∧ n < 2 ^ (natLog2 n + 1) :=
  log2Loop_spec n n (le_refl _) h

theorem binaryExponent_le (x : Rat) (hx : 0 < x) : (2 : Rat) ^ binaryExponent x ≤ x := by
  unfold binaryExponent
  simp only []
  have hneg : ¬ x < 0 := not_lt.mpr (le_of_lt hx)
  rw [if_neg hneg]
  split
  · assumption
  · have hnum : 0 < x.num := Rat.num_pos.mpr hx
    have hn1 : 1 ≤ x.num.natAbs := by omega
    have hd1 : 1 ≤ x.den := x.den_pos
    obtain ⟨ha, _⟩ := natLog2_spec x.num.natAbs hn1
    obtain ⟨_, hb⟩ := natLog2_spec x.den hd1
    have h1 : (x.num.natAbs : Int) = x.num := Int.natAbs_of_nonneg (le_of_lt hnum)
    have h2 : (x.num.natAbs : Rat) = (x.num : Rat) := by
      rw [← Int.cast_natCast, h1]
    have hxeq : (x.num.natAbs : Rat) / (x.den : Rat) = x := by
      rw [h2, Rat.num_div_den]
    have haR : (2 : Rat) ^ (natLog2 x.num.natAbs) ≤ (x.num.natAbs : Rat) := by exact_mod_cast ha
    have hbR : (x.den : Rat) < (2 : Rat) ^ (natLog2 x.den + 1) := by exact_mod_cast hb
    have hdpos : (0 : Rat) < (x.den : Rat) := by exact_mod_cast hd1
    have h2pos : (0 : Rat) < (2 : Rat) ^ (natLog2 x.den + 1) := by positivity
    have key : (2 : Rat) ^ ((natLog2 x.num.natAbs : Int) - (natLog2 x.den : Int) - 1) =
        (2 : Rat) ^ (natLog2 x.num.natAbs) / (2 : Rat) ^ (natLog2 x.den + 1) := by
      rw [show ((natLog2 x.num.natAbs : Int) - (natLog2 x.den : Int) - 1) =
        (natLog2 x.num.natAbs : Int) - ((natLog2 x.den + 1 : Nat) : Int) by push_cast; ring]
      rw [zpow_sub₀ (by norm_num : (2 : Rat) ≠ 0), zpow_natCast, zpow_natCast]
    have goal2 : (2 : Rat) ^ (natLog2 x.num.natAbs) / (2 : Rat) ^ (natLog2 x.den + 1) ≤
        (x.num.natAbs : Rat) / (x.den : Rat) := by
      rw [div_le_div_iff₀ h2pos hdpos]
      calc (2 : Rat) ^ (natLog2 x.num.natAbs) * (x.den : Rat)
          ≤ (x.num.natAbs : Rat) * (x.den : Rat) := by
            apply mul_le_mul_of_nonneg_right haR (le_of_lt hdpos)
        _ ≤ (x.num.natAbs : Rat) * (2 : Rat) ^ (natLog2 x.den + 1) := by
            apply mul_le_mul_of_nonneg_left (le_of_lt hbR)
            positivity
    rw [key]
    exact le_of_le_of_eq goal2 hxeq

theorem roundHalfEven_bounds (q : Rat) (hq : 0 ≤ q) :
    (0 : Rat) ≤ (roundHalfEven q : Rat) ∧ (roundHalfEven q : Rat) ≤ q + 1 / 2 := by
  have hden : (0 : Int) < (q.den : Int) := by exact_mod_cast q.den_pos
  have hnum : 0 ≤ q.num := Rat.num_nonneg.mpr hq
  have hf0 : 0 ≤ q.num / (q.den : Int) := Int.ediv_nonneg hnum (le_of_lt hden)
  have hfle : ((q.num / (q.den : Int) : Int) : Rat) ≤ q := by
    have h1 : q.num / (q.den : Int) * (q.den : Int) ≤ q.num := Int.ediv_mul_le _ (ne_of_gt hden)
    have h2 : ((q.num / (q.den : Int) : Int) : Rat) * (q.den : Rat) ≤ (q.num : Rat) := by
      exact_mod_cast h1
    have hdpos : (0 : Rat) < (q.den : Rat) := by exact_mod_cast q.den_pos
    calc ((q.num / (q.den : Int) : Int) : Rat)
        = ((q.num / (q.den : Int) : Int) : Rat) * (q.den : Rat) / (q.den : Rat) := by
          field_simp
      _ ≤ (q.num : Rat) / (q.den : Rat) := by
          apply div_le_div_of_nonneg_right h2 (le_of_lt hdpos)
      _ = q := Rat.num_div_den q
  have hf0R : (0 : Rat) ≤ ((q.num / (q.den : Int) : Int) : Rat) := by exact_mod_cast hf0
  unfold roundHalfEven
  simp only []
  split
  · exact ⟨hf0R, by linarith⟩
  · split
    · rename_i h1 h2
      constructor
      · push_cast; linarith
      · push_cast
        have hlt : q < ((q.num / (q.den : Int) : Int) : Rat) + 1 := by
          have h3 : q.num < (q.num / (q.den : Int) + 1) * (q.den : Int) :=
            Int.lt_ediv_add_one_mul_self _ hden
          have h4 : (q.num : Rat) < (((q.num / (q.den : Int) : Int) : Rat) + 1) * (q.den : Rat) := by
            exact_mod_cast h3
          have hdpos : (0 : Rat) < (q.den : Rat) := by exact_mod_cast q.den_pos
          calc q = (q.num : Rat) / (q.den : Rat) := (Rat.num_div_den q).symm
            _ < (((q.num / (q.den : Int) : Int) : Rat) + 1) * (q.den : Rat) / (q.den : Rat) := by
                apply div_lt_div_of_pos_right h4 hdpos
            _ = ((q.num / (q.den : Int) : Int) : Rat) + 1 := by field_simp
        linarith
    · rename_i h1 h2
      have hr : q - ((q.num / (q.den : Int) : Int) : Rat) = 1 / 2 := by
        push_neg at h1 h2
        linarith
      split
      · exact ⟨hf0R, by linarith⟩
      · constructor
        · push_cast; linarith
        · push_cast; linarith

theorem half_ulp (x u : Rat) (hu : 0 < u) : (x / u + 1 / 2) * u = x + u / 2 := by
  have : u ≠ 0 := ne_of_gt hu
  field_simp
  ring

theorem roundMagnitude_bounds (x : Rat) (hx : 0 ≤ x) :
    0 ≤ roundMagnitude 53 (-1022) x ∧
    roundMagnitude 53 (-1022) x ≤ x * (1 + 1 / 2 ^ 52) + 1 / 2 ^ 100 := by
  unfold roundMagnitude
  by_cases h0 : x = 0
  · rw [if_pos h0, h0]
    norm_num
  · rw [if_neg h0]
    have hpos : 0 < x := lt_of_le_of_ne hx (Ne.symm h0)
    have hB := binaryExponent_le x hpos
    simp only []
    have hcast : ((53 : Nat) : Int) - 1 = 52 := by norm_num
    rw [hcast]
    by_cases hlt : binaryExponent x < -1022
    · rw [if_pos hlt]
      have hu : (0 : Rat) < (2 : Rat) ^ ((-1022 : Int) - 52) := by positivity
      obtain ⟨r0, r1⟩ := roundHalfEven_bounds (x / (2 : Rat) ^ ((-1022 : Int) - 52))
        (div_nonneg hx (le_of_lt hu))
      constructor
      · exact mul_nonneg r0 (le_of_lt hu)
      · have h1 : (roundHalfEven (x / (2 : Rat) ^ ((-1022 : Int) - 52)) : Rat) *
            (2 : Rat) ^ ((-1022 : Int) - 52) ≤
            (x / (2 : Rat) ^ ((-1022 : Int) - 52) + 1 / 2) * (2 : Rat) ^ ((-1022 : Int) - 52) :=
          mul_le_mul_of_nonneg_right r1 (le_of_lt hu)
        have h2 : (x / (2 : Rat) ^ ((-1022 : Int) - 52) + 1 / 2) *
            (2 : Rat) ^ ((-1022 : Int) - 52) = x + (2 : Rat) ^ ((-1022 : Int) - 52) / 2 :=
          half_ulp _ _ hu
        have h3 : (2 : Rat) ^ ((-1022 : Int) - 52) ≤ 1 / 2 ^ 100 := by
          rw [show ((-1022 : Int) - 52) = -(1074 : Int) by norm_num, zpow_neg,
            show ((1074 : Int)) = ((1074 : Nat) : Int) by norm_num, zpow_natCast, one_div]
          apply inv_anti₀ (by positivity)
          exact pow_le_pow_right₀ (by norm_num) (by norm_num)
        have hx2 : 0 ≤ x * (1 / 2 ^ 52) := mul_nonneg hx (by positivity)
        have h4 : (0 : Rat) ≤ 1 / 2 ^ 100 := by positivity
        rw [h2] at h1
        linarith
    · rw [if_neg hlt]
      have hu : (0 : Rat) < (2 : Rat) ^ (binaryExponent x - 52) := by positivity
      obtain ⟨r0, r1⟩ := roundHalfEven_bounds (x / (2 : Rat) ^ (binaryExponent x - 52))
        (div_nonneg hx (le_of_lt hu))
      constructor
      · exact mul_nonneg r0 (le_of_lt hu)
      · have h1 : (roundHalfEven (x / (2 : Rat) ^ (binaryExponent x - 52)) : Rat) *
            (2 : Rat) ^ (binaryExponent x - 52) ≤
            (x / (2 : Rat) ^ (binaryExponent x - 52) + 1 / 2) *
              (2 : Rat) ^ (binaryExponent x - 52) :=
          mul_le_mul_of_nonneg_right r1 (le_of_lt hu)
        have h2 : (x / (2 : Rat) ^ (binaryExponent x - 52) + 1 / 2) *
            (2 : Rat) ^ (binaryExponent x - 52) = x + (2 : Rat) ^ (binaryExponent x - 52) / 2 :=
          half_ulp _ _ hu
        have h3 : (2 : Rat) ^ (binaryExponent x - 52) ≤ x * (1 / 2 ^ 52) := by
          rw [zpow_sub₀ (by norm_num : (2 : Rat) ≠ 0),
            show ((52 : Int)) = ((52 : Nat) : Int) by norm_num, zpow_natCast, div_eq_mul_one_div]
          exact mul_le_mul_of_nonneg_right hB (by positivity)
        have h4 : (0 : Rat) ≤ 1 / 2 ^ 100 := by positivity
        rw [h2] at h1
        linarith

theorem float64_sq (t : Rat) :
    float64 t * float64 t =
      roundMagnitude 53 (-1022) |t| * roundMagnitude 53 (-1022) |t| := by
  unfold float64 roundFloat
  by_cases h : t < 0
  · rw [if_pos h, abs_of_neg h]; ring
  · rw [if_neg h, abs_of_nonneg (not_lt.mp h)]

theorem float64_nonneg (x : Rat) (hx : 0 ≤ x) :
    float64 x = roundMagnitude 53 (-1022) x := by
  unfold float64 roundFloat
  rw [if_neg (not_lt.mpr hx)]

theorem sqrtLoop_spec : ∀ (k n r : Nat), r * r ≤ n → n < (r + 2 ^ k) * (r + 2 ^ k) →
    sqrtLoop k n r * sqrtLoop k n r ≤ n ∧
    n < (sqrtLoop k n r + 1) * (sqrtLoop k n r + 1) := by
  intro k
  induction k with
  | zero =>
    intro n r h1 h2
    unfold sqrtLoop
    exact ⟨h1, by simpa using h2⟩
  | succ k ih =>
    intro n r h1 h2
    unfold sqrtLoop
    by_cases hc : (r + 2 ^ k) * (r + 2 ^ k) ≤ n
    · rw [if_pos hc]
      apply ih n (r + 2 ^ k) hc
      have : r + 2 ^ k + 2 ^ k = r + 2 ^ (k + 1) := by rw [pow_succ]; omega
      rw [this]; exact h2
    · rw [if_neg hc]
      exact ih n r h1 (by omega)

theorem sqrtFloor_spec (n : Nat) :
    sqrtFloor n * sqrtFloor n ≤ n ∧ n < (sqrtFloor n + 1) * (sqrtFloor n + 1) := by
  unfold sqrtFloor
  apply sqrtLoop_spec
  · simp
  · rw [Nat.zero_add, ← pow_add]
    by_cases h0 : n = 0
    · rw [h0]; positivity
    · have h1 : 1 ≤ n := by omega
      obtain ⟨_, hb⟩ := natLog2_spec n h1
      refine lt_of_lt_of_le hb ?_
      apply Nat.pow_le_pow_right (by decide)
      omega

theorem floor_bounds (q : Rat) (hq : 0 ≤ q) :
    0 ≤ q.num / (q.den : Int) ∧ ((q.num / (q.den : Int) : Int) : Rat) ≤ q ∧
    q < ((q.num / (q.den : Int) : Int) : Rat) + 1 := by
  have hden : (0 : Int) < (q.den : Int) := by exact_mod_cast q.den_pos
  have hnum : 0 ≤ q.num := Rat.num_nonneg.mpr hq
  have hdpos : (0 : Rat) < (q.den : Rat) := by exact_mod_cast q.den_pos
  refine ⟨Int.ediv_nonneg hnum (le_of_lt hden), ?_, ?_⟩
  · have h1 : q.num / (q.den : Int) * (q.den : Int) ≤ q.num := Int.ediv_mul_le _ (ne_of_gt hden)
    have h2 : ((q.num / (q.den : Int) : Int) : Rat) * (q.den : Rat) ≤ (q.num : Rat) := by
      exact_mod_cast h1
    calc ((q.num / (q.den : Int) : Int) : Rat)
        = ((q.num / (q.den : Int) : Int) : Rat) * (q.den : Rat) / (q.den : Rat) := by
          field_simp
      _ ≤ (q.num : Rat) / (q.den : Rat) := by
          apply div_le_div_of_nonneg_right h2 (le_of_lt hdpos)
      _ = q := Rat.num_div_den q
  · have h3 : q.num < (q.num / (q.den : Int) + 1) * (q.den : Int) :=
      Int.lt_ediv_add_one_mul_self _ hden
    have h4 : (q.num : Rat) < (((q.num / (q.den : Int) : Int) : Rat) + 1) * (q.den : Rat) := by
      exact_mod_cast h3
    calc q = (q.num : Rat) / (q.den : Rat) := (Rat.num_div_den q).symm
      _ < (((q.num / (q.den : Int) : Int) : Rat) + 1) * (q.den : Rat) / (q.den : Rat) := by
          apply div_lt_div_of_pos_right h4 hdpos
      _ = ((q.num / (q.den : Int) : Int) : Rat) + 1 := by field_simp

theorem sqrtFloat64_bounds (x : Rat) (hx : 0 ≤ x) :
    0 ≤ sqrtFloat64 x ∧
    sqrtFloat64 x * sqrtFloat64 x ≤ x * ((1 + 1 / 2 ^ 52) * (1 + 1 / 2 ^ 52)) := by
  unfold sqrtFloat64
  by_cases h0 : x ≤ 0
  · rw [if_pos h0]
    have : x = 0 := le_antisymm h0 hx
    rw [this]; norm_num
  · rw [if_neg h0]
    have hpos : 0 < x := not_le.mp h0
    have hB := binaryExponent_le x hpos
    simp only []
    -- the unit in the last place of the result
    have hu : (0 : Rat) < (2 : Rat) ^ (binaryExponent x / 2 - 52) := by positivity
    have huu : (0 : Rat) < (2 : Rat) ^ (binaryExponent x / 2 - 52) *
        (2 : Rat) ^ (binaryExponent x / 2 - 52) := mul_pos hu hu
    have he : binaryExponent x / 2 * 2 ≤ binaryExponent x :=
      Int.ediv_mul_le _ (by decide)
    have huule : (2 : Rat) ^ (binaryExponent x / 2 - 52) *
        (2 : Rat) ^ (binaryExponent x / 2 - 52) ≤ x / 2 ^ 104 := by
      rw [← zpow_add₀ (by norm_num : (2 : Rat) ≠ 0)]
      have h1 : (2 : Rat) ^ (binaryExponent x / 2 - 52 + (binaryExponent x / 2 - 52)) ≤
          (2 : Rat) ^ (binaryExponent x - 104) :=
        zpow_le_zpow_right₀ (by norm_num) (by omega)
      have h2 : (2 : Rat) ^ (binaryExponent x - 104) = (2 : Rat) ^ binaryExponent x / 2 ^ 104 := by
        rw [zpow_sub₀ (by norm_num : (2 : Rat) ≠ 0),
          show ((104 : Int)) = ((104 : Nat) : Int) by norm_num, zpow_natCast]
      rw [h2] at h1
      exact le_trans h1 (div_le_div_of_nonneg_right hB (by positivity))
    generalize hudef : (2 : Rat) ^ (binaryExponent x / 2 - 52) = u at hu huu huule ⊢
    have hy : (2 : Rat) ^ 104 ≤ x / (u * u) := by
      rw [le_div_iff₀ huu]
      have := mul_le_mul_of_nonneg_left huule (show (0 : Rat) ≤ 2 ^ 104 by positivity)
      have h3 : (2 : Rat) ^ 104 * (x / 2 ^ 104) = x := by field_simp
      rw [h3] at this
      exact this
    have hy0 : 0 ≤ x / (u * u) := le_trans (by positivity) hy
    generalize hydef : x / (u * u) = y at hy hy0 ⊢
    obtain ⟨f0, f1, f2⟩ := floor_bounds y hy0
    generalize hNdef : y.num / (y.den : Int) = Nz at f0 f1 f2 ⊢
    have hNcast : ((Nz.toNat : Int)) = Nz := Int.toNat_of_nonneg f0
    obtain ⟨s1, s2⟩ := sqrtFloor_spec Nz.toNat
    generalize hndef : sqrtFloor Nz.toNat = n at s1 s2 ⊢
    -- the floor of `y` is at least `2 ^ 104`
    have hNge : 2 ^ 104 ≤ Nz.toNat := by
      have h1 : ((2 : Int) ^ 104 : Rat) < (Nz : Rat) + 1 := by
        have : (2 : Rat) ^ 104 < (Nz : Rat) + 1 := lt_of_le_of_lt hy f2
        exact_mod_cast this
      have h2 : (2 : Int) ^ 104 < Nz + 1 := by exact_mod_cast h1
      have h3 : (2 : Int) ^ 104 ≤ (Nz.toNat : Int) := by rw [hNcast]; omega
      exact_mod_cast h3
    have hnge : 2 ^ 52 ≤ n := by
      by_contra hlt
      have hlt2 : n + 1 ≤ 2 ^ 52 := by omega
      have : (n + 1) * (n + 1) ≤ 2 ^ 52 * 2 ^ 52 := Nat.mul_le_mul hlt2 hlt2
      have h104 : (2 : Nat) ^ 52 * 2 ^ 52 = 2 ^ 104 := by norm_num
      omega
    -- the chosen integer is at most `n + 1`
    have hm : ∀ m : Int, (m = (n : Int) ∨ m = (n : Int) + 1) →
        0 ≤ (m : Rat) * u ∧ (m : Rat) * u * ((m : Rat) * u) ≤
          x * ((1 + 1 / 2 ^ 52) * (1 + 1 / 2 ^ 52)) := by
      intro m hmn
      have hnR : (2 : Rat) ^ 52 ≤ (n : Rat) := by exact_mod_cast hnge
      have hn0 : (0 : Rat) ≤ (n : Rat) := le_trans (by positivity) hnR
      have hm0 : (0 : Rat) ≤ (m : Rat) := by
        rcases hmn with h | h
        · rw [h]; push_cast; exact hn0
        · rw [h]; push_cast; linarith
      have hm1 : (m : Rat) ≤ (n : Rat) + 1 := by
        rcases hmn with h | h
        · rw [h]; push_cast; linarith
        · rw [h]; push_cast; linarith
      have hn1 : (n : Rat) + 1 ≤ (n : Rat) * (1 + 1 / 2 ^ 52) := by
        have : (1 : Rat) ≤ (n : Rat) * (1 / 2 ^ 52) := by
          rw [mul_one_div, le_div_iff₀ (by positivity)]
          linarith
        linarith
      have hnn : (n : Rat) * (n : Rat) ≤ y := by
        have h1 : ((n * n : Nat) : Rat) ≤ ((Nz.toNat : Nat) : Rat) := by exact_mod_cast s1
        have h2 : ((Nz.toNat : Nat) : Rat) = (Nz : Rat) := by
          rw [← Int.cast_natCast, hNcast]
        rw [h2] at h1
        push_cast at h1
        linarith
      have hmm : (m : Rat) * (m : Rat) ≤ y * ((1 + 1 / 2 ^ 52) * (1 + 1 / 2 ^ 52)) := by
        have h1 : (m : Rat) ≤ (n : Rat) * (1 + 1 / 2 ^ 52) := le_trans hm1 hn1
        have h2 : (m : Rat) * (m : Rat) ≤
            (n : Rat) * (1 + 1 / 2 ^ 52) * ((n : Rat) * (1 + 1 / 2 ^ 52)) :=
          mul_le_mul h1 h1 hm0 (le_trans hm0 h1)
        have h3 : (n : Rat) * (1 + 1 / 2 ^ 52) * ((n : Rat) * (1 + 1 / 2 ^ 52)) =
            (n : Rat) * (n : Rat) * ((1 + 1 / 2 ^ 52) * (1 + 1 / 2 ^ 52)) := by ring
        rw [h3] at h2
        exact le_trans h2 (mul_le_mul_of_nonneg_right hnn (by positivity))
      have hxy : x = y * (u * u) := by
        rw [← hydef]; field_simp
      constructor
      · exact mul_nonneg hm0 (le_of_lt hu)
      · have h4 : (m : Rat) * u * ((m : Rat) * u) = (m : Rat) * (m : Rat) * (u * u) := by ring
        rw [h4, hxy]
        have h5 := mul_le_mul_of_nonneg_right hmm (le_of_lt huu)
        have h6 : y * ((1 + 1 / 2 ^ 52) * (1 + 1 / 2 ^ 52)) * (u * u) =
            y * (u * u) * ((1 + 1 / 2 ^ 52) * (1 + 1 / 2 ^ 52)) := by ring
        rw [h6] at h5
        exact h5
    apply hm
    split
    · exact Or.inl rfl
    · split
      · exact Or.inr rfl
      · split
        · exact Or.inl rfl
        · exact Or.inr rfl

theorem float64_hundredth : float64 (1 / 100) = 5764607523034235 / 576460752303423488 := by
  decide!

theorem doubleDistance_close (lat1 lon1 lat2 lon2 : Rat)
    (hd : float64 lat1 = lat1 ∧ float64 lon1 = lon1 ∧ float64 lat2 = lat2 ∧
      float64 lon2 = lon2)
    (h : (lat1 - lat2) ^ 2 + (lon1 - lon2) ^ 2 ≤ (5 / 1000) ^ 2) :
    SimulationEngine.doubleDistance lat1 lon1 lat2 lon2 < float64 (1 / 100) := by
  obtain ⟨h1, h2, h3, h4⟩ := hd
  unfold SimulationEngine.doubleDistance
  simp only []
  rw [h1, h2, h3, h4, float64_sq (lat1 - lat2), float64_sq (lon1 - lon2)]
  have ht1 : |lat1 - lat2| ≤ 5 / 1000 := by
    apply abs_le_of_sq_le_sq _ (by norm_num)
    nlinarith [sq_nonneg (lon1 - lon2)]
  have ht2 : |lon1 - lon2| ≤ 5 / 1000 := by
    apply abs_le_of_sq_le_sq _ (by norm_num)
    nlinarith [sq_nonneg (lat1 - lat2)]
  obtain ⟨a0, a1⟩ := roundMagnitude_bounds |lat1 - lat2| (abs_nonneg _)
  obtain ⟨b0, b1⟩ := roundMagnitude_bounds |lon1 - lon2| (abs_nonneg _)
  generalize roundMagnitude 53 (-1022) |lat1 - lat2| = m1 at a0 a1 ⊢
  generalize roundMagnitude 53 (-1022) |lon1 - lon2| = m2 at b0 b1 ⊢
  have hA1 : m1 ≤ 5 / 1000 * (1 + 1 / 2 ^ 52) + 1 / 2 ^ 100 := by
    have := mul_le_mul_of_nonneg_right ht1 (show (0 : Rat) ≤ 1 + 1 / 2 ^ 52 by positivity)
    linarith
  have hA2 : m2 ≤ 5 / 1000 * (1 + 1 / 2 ^ 52) + 1 / 2 ^ 100 := by
    have := mul_le_mul_of_nonneg_right ht2 (show (0 : Rat) ≤ 1 + 1 / 2 ^ 52 by positivity)
    linarith
  have hq1 : m1 * m1 ≤ (5 / 1000 * (1 + 1 / 2 ^ 52) + 1 / 2 ^ 100) *
      (5 / 1000 * (1 + 1 / 2 ^ 52) + 1 / 2 ^ 100) :=
    mul_le_mul hA1 hA1 a0 (le_trans a0 hA1)
  have hq2 : m2 * m2 ≤ (5 / 1000 * (1 + 1 / 2 ^ 52) + 1 / 2 ^ 100) *
      (5 / 1000 * (1 + 1 / 2 ^ 52) + 1 / 2 ^ 100) :=
    mul_le_mul hA2 hA2 b0 (le_trans b0 hA2)
  rw [float64_nonneg (m1 * m1) (mul_nonneg a0 a0), float64_nonneg (m2 * m2) (mul_nonneg b0 b0)]
  obtain ⟨p0, p1⟩ := roundMagnitude_bounds (m1 * m1) (mul_nonneg a0 a0)
  obtain ⟨q0, q1⟩ := roundMagnitude_bounds (m2 * m2) (mul_nonneg b0 b0)
  generalize roundMagnitude 53 (-1022) (m1 * m1) = P1 at p0 p1 ⊢
  generalize roundMagnitude 53 (-1022) (m2 * m2) = P2 at q0 q1 ⊢
  rw [float64_nonneg (P1 + P2) (add_nonneg p0 q0)]
  obtain ⟨s0, s1⟩ := roundMagnitude_bounds (P1 + P2) (add_nonneg p0 q0)
  generalize roundMagnitude 53 (-1022) (P1 + P2) = S at s0 s1 ⊢
  obtain ⟨d0, d1⟩ := sqrtFloat64_bounds S s0
  generalize sqrtFloat64 S = D at d0 d1 ⊢
  rw [float64_hundredth]
  by_contra hge
  have hge2 : (5764607523034235 : Rat) / 576460752303423488 ≤ D := not_lt.mp hge
  have hsq : (5764607523034235 : Rat) / 576460752303423488 *
      (5764607523034235 / 576460752303423488) ≤ D * D :=
    mul_le_mul hge2 hge2 (by norm_num) d0
  -- numeric bounds
  have e1 : (0 : Rat) ≤ 1 + 1 / 2 ^ 52 := by positivity
  have hP1 : P1 ≤ (5 / 1000 * (1 + 1 / 2 ^ 52) + 1 / 2 ^ 100) *
      (5 / 1000 * (1 + 1 / 2 ^ 52) + 1 / 2 ^ 100) * (1 + 1 / 2 ^ 52) + 1 / 2 ^ 100 := by
    have := mul_le_mul_of_nonneg_right hq1 e1
    linarith
  have hP2 : P2 ≤ (5 / 1000 * (1 + 1 / 2 ^ 52) + 1 / 2 ^ 100) *
      (5 / 1000 * (1 + 1 / 2 ^ 52) + 1 / 2 ^ 100) * (1 + 1 / 2 ^ 52) + 1 / 2 ^ 100 := by
    have := mul_le_mul_of_nonneg_right hq2 e1
    linarith
  have hS : S ≤ (2 * ((5 / 1000 * (1 + 1 / 2 ^ 52) + 1 / 2 ^ 100) *
      (5 / 1000 * (1 + 1 / 2 ^ 52) + 1 / 2 ^ 100) * (1 + 1 / 2 ^ 52) + 1 / 2 ^ 100)) *
      (1 + 1 / 2 ^ 52) + 1 / 2 ^ 100 := by
    have := mul_le_mul_of_nonneg_right (add_le_add hP1 hP2) e1
    linarith
  have hD : D * D ≤ ((2 * ((5 / 1000 * (1 + 1 / 2 ^ 52) + 1 / 2 ^ 100) *
      (5 / 1000 * (1 + 1 / 2 ^ 52) + 1 / 2 ^ 100) * (1 + 1 / 2 ^ 52) + 1 / 2 ^ 100)) *
      (1 + 1 / 2 ^ 52) + 1 / 2 ^ 100) * ((1 + 1 / 2 ^ 52) * (1 + 1 / 2 ^ 52)) :=
    le_trans d1 (mul_le_mul_of_nonneg_right hS (by positivity))
  have hnum : ((2 * ((5 / 1000 * (1 + 1 / 2 ^ 52) + 1 / 2 ^ 100) *
      (5 / 1000 * (1 + 1 / 2 ^ 52) + 1 / 2 ^ 100) * (1 + 1 / 2 ^ 52) + 1 / 2 ^ 100)) *
      (1 + 1 / 2 ^ 52) + 1 / 2 ^ 100) * ((1 + 1 / 2 ^ 52) * (1 + 1 / 2 ^ 52)) <
      (5764607523034235 : Rat) / 576460752303423488 *
      (5764607523034235 / 576460752303423488) := by norm_num
  linarith

/-- C16 (counterexample). Two active trains on the same line have `double`
coordinates whose raw Euclidean distance is below 0.01 (the sum of the squared
differences is below 0.0001), yet `checkTrainCollisions` returns false: the
distance it computes in double precision is the `double` nearest to 0.01, which
is not below `MIN_SAFE_DISTANCE`. -/
theorem checkTrainCollisions_threshold_counterexample :
    thresholdPairEngine.activeTrains = ["T1", "T2"] ∧
    (thresholdPairEngine.gameState.trains.map (fun t =>
      (t.id, t.currentLineId, decide (float64 t.currentLat = t.currentLat),
        decide (float64 t.currentLon = t.currentLon)))) =
      [("T1", "L1", true, true), ("T2", "L1", true, true)] ∧
    ((6917529027641081 : Rat) / 1152921504606846976 - 0) ^ 2 +
      ((1152921504606847 : Rat) / 144115188075855872 - 0) ^ 2 < 1 / 10000 ∧
    SimulationEngine.doubleDistance (6917529027641081 / 1152921504606846976)
      (1152921504606847 / 144115188075855872) 0 0 = float64 (1 / 100) ∧
    thresholdPairEngine.checkTrainCollisions.1 = false := by
  decide!

/-- C16 (amended). `checkTrainCollisions` returns true if and only if the
active-train list has two entries at different positions that are registered
trains with equal current line id whose distance
`sqrt(pow(dLat, 2) + pow(dLon, 2))`, as computed in double precision with a
rounding after each operation, is below the `double` nearest to 0.01, which is
`5764607523034235 / 2 ^ 59`. In particular it returns true for two active trains
on the same line whose coordinates are `double` values within 0.005 degrees of
each other, and false when no such pair exists. -/
theorem checkTrainCollisions_iff (eng : SimulationEngine) :
    (eng.checkTrainCollisions.1 = true ↔
      ∃ (i j : Nat) (id1 id2 : String) (train1 train2 : Train), i < j ∧
        eng.activeTrains.get? i = some id1 ∧ eng.activeTrains.get? j = some id2 ∧
        eng.gameState.getTrain id1 = some train1 ∧
        eng.gameState.getTrain id2 = some train2 ∧
        train1.currentLineId = train2.currentLineId ∧
        SimulationEngine.doubleDistance train1.currentLat train1.currentLon
          train2.currentLat train2.currentLon < float64 (1 / 100)) ∧
    float64 (1 / 100) = 5764607523034235 / 576460752303423488 ∧
    (∀ (id1 id2 : String) (train1 train2 : Train),
      eng.activeTrains = [id1, id2] →
      eng.gameState.getTrain id1 = some train1 →
      eng.gameState.getTrain id2 = some train2 →
      train1.currentLineId = train2.currentLineId →
      (float64 train1.currentLat = train1.currentLat ∧
        float64 train1.currentLon = train1.currentLon ∧
        float64 train2.currentLat = train2.currentLat ∧
        float64 train2.currentLon = train2.currentLon) →
      (train1.currentLat - train2.currentLat) ^ 2 +
        (train1.currentLon - train2.currentLon) ^ 2 ≤ (5 / 1000) ^ 2 →
      eng.checkTrainCollisions.1 = true) := by
  have key : eng.checkTrainCollisions.1 = true ↔
      ∃ (i j : Nat) (id1 id2 : String) (train1 train2 : Train), i < j ∧
        eng.activeTrains.get? i = some id1 ∧ eng.activeTrains.get? j = some id2 ∧
        eng.gameState.getTrain id1 = some train1 ∧
        eng.gameState.getTrain id2 = some train2 ∧
        train1.currentLineId = train2.currentLineId ∧
        SimulationEngine.doubleDistance train1.currentLat train1.currentLon
          train2.currentLat train2.currentLon < float64 (1 / 100) := by
    unfold SimulationEngine.checkTrainCollisions
    rw [SimulationEngine.checkTrainCollisionsFrom_iff]
    constructor
    · rintro ⟨i, j, id1, id2, t1, t2, hij, hi, hj, h1, h2, hr⟩
      exact ⟨i, j, id1, id2, t1, t2, hij, hi, hj, h1, h2,
        (SimulationEngine.collisionRisk_iff t1 t2).mp hr⟩
    · rintro ⟨i, j, id1, id2, t1, t2, hij, hi, hj, h1, h2, hr⟩
      exact ⟨i, j, id1, id2, t1, t2, hij, hi, hj, h1, h2,
        (SimulationEngine.collisionRisk_iff t1 t2).mpr hr⟩
  refine ⟨key, float64_hundredth, ?_⟩
  intro id1 id2 t1 t2 hact h1 h2 hline hdouble hdist
  rw [key]
  exact ⟨0, 1, id1, id2, t1, t2, by omega, by rw [hact]; rfl, by rw [hact]; rfl, h1, h2,
    hline, doubleDistance_close _ _ _ _
      ⟨hdouble.1, hdouble.2.1, hdouble.2.2.1, hdouble.2.2.2⟩ hdist⟩

/-- Witness for C16: two trains on line `L1` that are `1 / 256` degrees apart. -/
theorem checkTrainCollisions_iff_witness : nearPairEngine.checkTrainCollisions.1 = true :=
  (checkTrainCollisions_iff nearPairEngine).2.2 "T1" "T2" (movingTrain "T1" "L1" 52 21)
    (movingTrain "T2" "L1" 52 (21 + 1 / 256)) rfl (by decide!) (by decide!) rfl
    (by decide!) (by norm_num [movingTrain])

end RailwayManager
